import Mathlib

/-! # Directus setup utilities

A shallow embedding of the credential cache (`src/lib/auth.js`), the request
layer (`src/lib/client.js`), the collection provisioner
(`src/create-collections.js`) and the seeding script (`src/populate-data.js`).

JavaScript values are modelled by `JsVal` (the JSON fragment plus `undefined`),
exceptions by `JsError`, and the asynchronous code by a state-and-exception
function space `Prog`: every `await` is sequential composition.  The remote
backend and the wall clock are a parameter `World`, an arbitrary deterministic
state machine; the list `Sys.sent` records every request handed to `fetch`.
Calls to the logger only print and are left out.
-/

namespace Directus

/-! ## JavaScript values -/

/-- JavaScript values that can reach the scripts: what `JSON.parse` produces,
plus `undefined`.  Numbers are the integer-valued ones. -/
inductive JsVal where
  | undefined
  | null
  | bool (b : Bool)
  | num (n : Int)
  | str (s : String)
  | arr (items : List JsVal)
  | obj (fields : List (String × JsVal))

namespace JsVal

mutual
/-- Decidable equality of values, by structural recursion. -/
def decEq : (a b : JsVal) → Decidable (a = b)
  | undefined, undefined => isTrue rfl
  | null, null => isTrue rfl
  | bool a, bool b =>
    if h : a = b then isTrue (by rw [h]) else isFalse (by intro e; cases e; exact h rfl)
  | num a, num b =>
    if h : a = b then isTrue (by rw [h]) else isFalse (by intro e; cases e; exact h rfl)
  | str a, str b =>
    if h : a = b then isTrue (by rw [h]) else isFalse (by intro e; cases e; exact h rfl)
  | arr a, arr b =>
    match decEqList a b with
    | isTrue h => isTrue (by rw [h])
    | isFalse h => isFalse (by intro e; cases e; exact h rfl)
  | obj a, obj b =>
    match decEqFields a b with
    | isTrue h => isTrue (by rw [h])
    | isFalse h => isFalse (by intro e; cases e; exact h rfl)
  | undefined, null => isFalse (by intro e; cases e)
  | undefined, bool _ => isFalse (by intro e; cases e)
  | undefined, num _ => isFalse (by intro e; cases e)
  | undefined, str _ => isFalse (by intro e; cases e)
  | undefined, arr _ => isFalse (by intro e; cases e)
  | undefined, obj _ => isFalse (by intro e; cases e)
  | null, undefined => isFalse (by intro e; cases e)
  | null, bool _ => isFalse (by intro e; cases e)
  | null, num _ => isFalse (by intro e; cases e)
  | null, str _ => isFalse (by intro e; cases e)
  | null, arr _ => isFalse (by intro e; cases e)
  | null, obj _ => isFalse (by intro e; cases e)
  | bool _, undefined => isFalse (by intro e; cases e)
  | bool _, null => isFalse (by intro e; cases e)
  | bool _, num _ => isFalse (by intro e; cases e)
  | bool _, str _ => isFalse (by intro e; cases e)
  | bool _, arr _ => isFalse (by intro e; cases e)
  | bool _, obj _ => isFalse (by intro e; cases e)
  | num _, undefined => isFalse (by intro e; cases e)
  | num _, null => isFalse (by intro e; cases e)
  | num _, bool _ => isFalse (by intro e; cases e)
  | num _, str _ => isFalse (by intro e; cases e)
  | num _, arr _ => isFalse (by intro e; cases e)
  | num _, obj _ => isFalse (by intro e; cases e)
  | str _, undefined => isFalse (by intro e; cases e)
  | str _, null => isFalse (by intro e; cases e)
  | str _, bool _ => isFalse (by intro e; cases e)
  | str _, num _ => isFalse (by intro e; cases e)
  | str _, arr _ => isFalse (by intro e; cases e)
  | str _, obj _ => isFalse (by intro e; cases e)
  | arr _, undefined => isFalse (by intro e; cases e)
  | arr _, null => isFalse (by intro e; cases e)
  | arr _, bool _ => isFalse (by intro e; cases e)
  | arr _, num _ => isFalse (by intro e; cases e)
  | arr _, str _ => isFalse (by intro e; cases e)
  | arr _, obj _ => isFalse (by intro e; cases e)
  | obj _, undefined => isFalse (by intro e; cases e)
  | obj _, null => isFalse (by intro e; cases e)
  | obj _, bool _ => isFalse (by intro e; cases e)
  | obj _, num _ => isFalse (by intro e; cases e)
  | obj _, str _ => isFalse (by intro e; cases e)
  | obj _, arr _ => isFalse (by intro e; cases e)
termination_by structural a => a
/-- Decidable equality of arrays of values. -/
def decEqList : (a b : List JsVal) → Decidable (a = b)
  | [], [] => isTrue rfl
  | [], _ :: _ => isFalse (by intro e; cases e)
  | _ :: _, [] => isFalse (by intro e; cases e)
  | x :: xs, y :: ys =>
    match decEq x y, decEqList xs ys with
    | isTrue h1, isTrue h2 => isTrue (by rw [h1, h2])
    | isFalse h1, _ => isFalse (by intro e; cases e; exact h1 rfl)
    | _, isFalse h2 => isFalse (by intro e; cases e; exact h2 rfl)
termination_by structural a => a
/-- Decidable equality of property lists. -/
def decEqFields : (a b : List (String × JsVal)) → Decidable (a = b)
  | [], [] => isTrue rfl
  | [], _ :: _ => isFalse (by intro e; cases e)
  | _ :: _, [] => isFalse (by intro e; cases e)
  | (k, x) :: xs, (l, y) :: ys =>
    if hk : k = l then
      match decEq x y, decEqFields xs ys with
      | isTrue h1, isTrue h2 => isTrue (by rw [hk, h1, h2])
      | isFalse h1, _ => isFalse (by intro e; cases e; exact h1 rfl)
      | _, isFalse h2 => isFalse (by intro e; cases e; exact h2 rfl)
    else isFalse (by intro e; cases e; exact hk rfl)
termination_by structural a => a
end

instance : DecidableEq JsVal := decEq

/-- The `ToBoolean` conversion: `undefined`, `null`, `false`, `0` and the empty
string are falsy, every other value is truthy. -/
def truthy : JsVal → Bool
  | undefined => false
  | null => false
  | bool b => b
  | num n => n != 0
  | str s => s != ""
  | arr _ => true
  | obj _ => true

mutual
/-- The `ToString` conversion used by template literals and computed property
keys. -/
def toStr : JsVal → String
  | undefined => "undefined"
  | null => "null"
  | bool true => "true"
  | bool false => "false"
  | num n => toString n
  | str s => s
  | arr xs => joinStr xs
  | obj _ => "[object Object]"
termination_by structural v => v
/-- The text of `Array.prototype.join(",")`: `undefined` and `null` elements
contribute the empty string. -/
def joinStr : List JsVal → String
  | [] => ""
  | x :: r =>
    (match x with
      | undefined => ""
      | null => ""
      | v => toStr v) ++
    (match r with
      | [] => ""
      | _ :: _ => "," ++ joinStr r)
termination_by structural l => l
end

end JsVal

/-- The value of own property `k` in a property list, `undefined` when there
is none. -/
def getField : List (String × JsVal) → String → JsVal
  | [], _ => .undefined
  | (k1, v) :: r, k => if k1 = k then v else getField r k

/-- Exceptions the scripts can see. -/
inductive JsError where
  | error (message : String)
  | typeError
  | syntaxError
  | fetchFailed (message : String)
deriving DecidableEq

/-- The property read `v.k`: a `TypeError` on `undefined` and `null`, the own
property of an object, `undefined` on the other values (the keys read by the
scripts are not built-in properties of strings, numbers or arrays). -/
def JsVal.prop (v : JsVal) (k : String) : Except JsError JsVal :=
  match v with
  | .undefined => .error .typeError
  | .null => .error .typeError
  | .obj fs => .ok (getField fs k)
  | _ => .ok .undefined

/-! ## Transport, clock and program state -/

/-- A request as handed to `fetch`.  `body` is the value given to
`JSON.stringify`, `none` when the options carry no body. -/
structure Request where
  method : String
  url : String
  headers : List (String × String)
  body : Option JsVal
deriving DecidableEq

/-- A response: its status, the result of `response.text()` and the result of
`response.json()` (`none` when the body does not parse). -/
structure Response where
  status : Nat
  text : String
  json : Option JsVal
deriving DecidableEq

/-- The `response.ok` flag: the status is in the range 200-299. -/
def Response.ok (r : Response) : Bool := 200 ≤ r.status && r.status ≤ 299

/-- Outcome of `fetch`: the promise rejects or resolves to a response. -/
inductive FetchResult where
  | rejected (message : String)
  | response (r : Response)
deriving DecidableEq

/-- The environment: the backend answering `fetch` and the clock read by
`Date.now()` (milliseconds since the epoch), over a state `σ` of its own. -/
structure World (σ : Type) where
  fetch : Request → σ → FetchResult × σ
  now : σ → Nat × σ

/-- The credential cache object (`class DirectusAuth`). -/
structure DirectusAuth where
  directusUrl : String
  accessToken : String
  jwtToken : JsVal
  tokenExpiry : Option Nat
deriving DecidableEq

/-- The constructor of `DirectusAuth`: an empty cache. -/
def DirectusAuth.new (directusUrl accessToken : String) : DirectusAuth :=
  { directusUrl := directusUrl, accessToken := accessToken, jwtToken := .null, tokenExpiry := none }

/-- State of a run: the world, the requests sent so far (oldest first) and the
client's credential cache. -/
structure Sys (σ : Type) where
  world : σ
  sent : List Request
  auth : DirectusAuth
deriving DecidableEq

/-- The state right after `new DirectusClient(directusUrl, accessToken)`. -/
def Sys.start {σ : Type} (w : σ) (directusUrl accessToken : String) : Sys σ :=
  { world := w, sent := [], auth := DirectusAuth.new directusUrl accessToken }

/-- An asynchronous computation: it ends with a value or a thrown error. -/
def Prog (σ α : Type) : Type := Sys σ → Except JsError α × Sys σ

/-- Sequential composition (`await`): an error skips the continuation. -/
def Prog.bind {σ α β : Type} (x : Prog σ α) (f : α → Prog σ β) : Prog σ β := fun s =>
  match x s with
  | (.ok a, s1) => f a s1
  | (.error e, s1) => (.error e, s1)

/-- The computation that returns `a`. -/
def Prog.pure {σ α : Type} (a : α) : Prog σ α := fun s => (.ok a, s)

/-- The statement `throw e`. -/
def Prog.throw {σ α : Type} (e : JsError) : Prog σ α := fun s => (.error e, s)

/-- The statement `try x catch (error) handler`. -/
def Prog.tryCatch {σ α : Type} (x : Prog σ α) (handler : JsError → Prog σ α) : Prog σ α := fun s =>
  match x s with
  | (.ok a, s1) => (.ok a, s1)
  | (.error e, s1) => handler e s1

instance {σ : Type} : Monad (Prog σ) where
  pure := Prog.pure
  bind := Prog.bind

/-- A pure step that may throw. -/
def Prog.lift {σ α : Type} (r : Except JsError α) : Prog σ α := fun s => (r, s)

/-- The call `fetch(url, options)`: the request is recorded and answered by the
world. -/
def doFetch {σ : Type} (W : World σ) (r : Request) : Prog σ Response := fun s =>
  match W.fetch r s.world with
  | (.rejected m, w) => (.error (.fetchFailed m), { s with world := w, sent := s.sent ++ [r] })
  | (.response resp, w) => (.ok resp, { s with world := w, sent := s.sent ++ [r] })

/-- The call `Date.now()`. -/
def dateNow {σ : Type} (W : World σ) : Prog σ Nat := fun s =>
  (.ok (W.now s.world).1, { s with world := (W.now s.world).2 })

/-- Reading the fields of `this.auth`. -/
def getAuth {σ : Type} : Prog σ DirectusAuth := fun s => (.ok s.auth, s)

/-- The assignment `this.jwtToken = v`. -/
def setJwtToken {σ : Type} (v : JsVal) : Prog σ Unit := fun s =>
  (.ok (), { s with auth := { s.auth with jwtToken := v } })

/-- The assignment `this.tokenExpiry = e`. -/
def setTokenExpiry {σ : Type} (e : Option Nat) : Prog σ Unit := fun s =>
  (.ok (), { s with auth := { s.auth with tokenExpiry := e } })

/-- The call `response.json()`. -/
def Response.parse (r : Response) : Except JsError JsVal :=
  match r.json with
  | some v => .ok v
  | none => .error .syntaxError

/-! ## Credential cache (`src/lib/auth.js`) -/

/-- The request sent by `refreshToken`. -/
def loginRequest (a : DirectusAuth) : Request :=
  { method := "POST"
    url := a.directusUrl ++ "/auth/login"
    headers := [("Content-Type", "application/json")]
    body := some (.obj [("access_token", .str a.accessToken)]) }

/-- The message of the error thrown on a rejected credential exchange. -/
def authFailedMessage (status : Nat) : String :=
  "Authentication failed: " ++ toString status ++ ". Check your access token and Directus URL."

/-- The value `data.data.access_token` read from the parsed body of a login
response (the three steps of `refreshToken` that can throw after the status
check). -/
def accessTokenOf (response : Response) : Except JsError JsVal := do
  let data ← response.parse
  let payload ← data.prop "data"
  payload.prop "access_token"

/-- The method `DirectusAuth.refreshToken`. -/
def refreshToken {σ : Type} (W : World σ) : Prog σ JsVal :=
  Prog.tryCatch
    (do
      let self ← getAuth
      let response ← doFetch W (loginRequest self)
      if !response.ok then
        Prog.throw (.error (authFailedMessage response.status))
      else do
        let data ← Prog.lift response.parse
        let payload ← Prog.lift (data.prop "data")
        let token ← Prog.lift (payload.prop "access_token")
        setJwtToken token
        let t ← dateNow W
        setTokenExpiry (some (t + 10 * 60 * 1000))
        let self ← getAuth
        pure self.jwtToken)
    (fun error => Prog.throw error)

/-- The condition `this.jwtToken && this.tokenExpiry && Date.now() < this.tokenExpiry`:
the clock is read only when both fields are truthy. -/
def tokenStillValid {σ : Type} (W : World σ) : Prog σ Bool := do
  let self ← getAuth
  if self.jwtToken.truthy then
    match self.tokenExpiry with
    | none => pure false
    | some e =>
      if e = 0 then pure false
      else do
        let t ← dateNow W
        pure (decide (t < e))
  else pure false

/-- The method `DirectusAuth.getToken`. -/
def getToken {σ : Type} (W : World σ) : Prog σ JsVal := do
  let valid ← tokenStillValid W
  if valid then do
    let self ← getAuth
    pure self.jwtToken
  else refreshToken W

/-- The method `DirectusAuth.getAuthHeader`. -/
def getAuthHeader {σ : Type} (W : World σ) : Prog σ (List (String × String)) := do
  let token ← getToken W
  pure [("Authorization", "Bearer " ++ token.toStr), ("Content-Type", "application/json")]

/-- Repeated calls `await auth.getToken()`, one after the other; the tokens
returned, in call order. -/
def getTokenTimes {σ : Type} (W : World σ) : Nat → Prog σ (List JsVal)
  | 0 => pure []
  | n + 1 => do
    let token ← getToken W
    let rest ← getTokenTimes W n
    pure (token :: rest)

/-- The world after `k` further readings of the clock and no request. -/
def idle {σ : Type} (W : World σ) : Nat → σ → σ
  | 0, w => w
  | k + 1, w => idle W k (W.now w).2

/-! ## Request layer (`src/lib/client.js`) -/

/-- The request built by `DirectusClient.request`: the body is set only when
`data` is truthy. -/
def apiRequest (a : DirectusAuth) (method path : String) (headers : List (String × String))
    (data : JsVal) : Request :=
  { method := method
    url := a.directusUrl ++ path
    headers := headers
    body := if data.truthy then some data else none }

/-- The method `DirectusClient.request(method, path, data = null)`. -/
def request {σ : Type} (W : World σ) (method path : String) (data : JsVal) : Prog σ JsVal := do
  let headers ← getAuthHeader W
  let self ← getAuth
  Prog.tryCatch
    (do
      let response ← doFetch W (apiRequest self method path headers data)
      if response.status = 403 then
        Prog.throw (.error "Insufficient permissions")
      else if response.status = 401 then
        Prog.throw (.error "Invalid token")
      else if !response.ok then
        Prog.throw (.error ("HTTP " ++ toString response.status ++ ": " ++ response.text))
      else
        Prog.lift response.parse)
    (fun error => Prog.throw error)

/-- The expression `v || []`. -/
def orEmpty (v : JsVal) : JsVal := if v.truthy then v else .arr []

/-- The method `DirectusClient.getCollections`. -/
def getCollections {σ : Type} (W : World σ) : Prog σ JsVal := do
  let result ← request W "GET" "/api/collections" .null
  let data ← Prog.lift (result.prop "data")
  pure (orEmpty data)

/-- The method `DirectusClient.createCollection`; its debug line reads
`collectionConfig.collection` first. -/
def clientCreateCollection {σ : Type} (W : World σ) (collectionConfig : JsVal) : Prog σ JsVal := do
  let _ ← Prog.lift (collectionConfig.prop "collection")
  let result ← request W "POST" "/api/collections" collectionConfig
  Prog.lift (result.prop "data")

/-- The method `DirectusClient.updateCollection`. -/
def updateCollection {σ : Type} (W : World σ) (collectionId : JsVal) (updates : JsVal) :
    Prog σ JsVal := do
  let result ← request W "PATCH" ("/api/collections/" ++ collectionId.toStr) updates
  Prog.lift (result.prop "data")

/-- The text of `new URLSearchParams(options).toString()` for keys and values
that need no escaping. -/
def searchParams : List (String × String) → String
  | [] => ""
  | [(k, v)] => k ++ "=" ++ v
  | (k, v) :: r => k ++ "=" ++ v ++ "&" ++ searchParams r

/-- The path requested by `getItems(collection, options)`. -/
def itemsPath (collection : String) (options : List (String × String)) : String :=
  if options.length > 0 then "/api/items/" ++ collection ++ "?" ++ searchParams options
  else "/api/items/" ++ collection

/-- The method `DirectusClient.getItems(collection, options = {})`. -/
def getItems {σ : Type} (W : World σ) (collection : String) (options : List (String × String)) :
    Prog σ JsVal := do
  let result ← request W "GET" (itemsPath collection options) .null
  let data ← Prog.lift (result.prop "data")
  pure (orEmpty data)

/-- The method `DirectusClient.createItem`. -/
def createItem {σ : Type} (W : World σ) (collection : String) (data : JsVal) : Prog σ JsVal := do
  let result ← request W "POST" ("/api/items/" ++ collection) data
  Prog.lift (result.prop "data")

/-- The method `DirectusClient.createItems`; `items` is an array. -/
def createItems {σ : Type} (W : World σ) (collection : String) (items : List JsVal) :
    Prog σ JsVal := do
  let result ← request W "POST" ("/api/items/" ++ collection) (.arr items)
  let data ← Prog.lift (result.prop "data")
  pure (orEmpty data)

/-- The method `DirectusClient.updateItem`. -/
def updateItem {σ : Type} (W : World σ) (collection : String) (id : JsVal) (data : JsVal) :
    Prog σ JsVal := do
  let result ← request W "PATCH" ("/api/items/" ++ collection ++ "/" ++ id.toStr) data
  Prog.lift (result.prop "data")

/-- The method `DirectusClient.deleteItem`. -/
def deleteItem {σ : Type} (W : World σ) (collection : String) (id : JsVal) : Prog σ Unit := do
  let _ ← request W "DELETE" ("/api/items/" ++ collection ++ "/" ++ id.toStr) .null
  pure ()

/-- The method `DirectusClient.getFields`. -/
def getFields {σ : Type} (W : World σ) (collection : String) : Prog σ JsVal := do
  let result ← request W "GET" ("/api/fields/" ++ collection) .null
  let data ← Prog.lift (result.prop "data")
  pure (orEmpty data)

/-- The method `DirectusClient.testConnection`; the success line reads
`result.data.directus.version` inside the `try` block. -/
def testConnection {σ : Type} (W : World σ) : Prog σ Bool :=
  Prog.tryCatch
    (do
      let result ← request W "GET" "/api/server/info" .null
      let data ← Prog.lift (result.prop "data")
      let directus ← Prog.lift (data.prop "directus")
      let _ ← Prog.lift (directus.prop "version")
      pure true)
    (fun _ => pure false)

/-! ## Collection provisioner (`src/create-collections.js`) -/

/-- Strict equality `a === b` between a value received from the backend and a
value of the script: primitives compare by value; an array or object is equal
only to itself, and the two sides never hold the same reference. -/
def strictEq : JsVal → JsVal → Bool
  | .undefined, .undefined => true
  | .null, .null => true
  | .bool a, .bool b => a == b
  | .num a, .num b => a == b
  | .str a, .str b => a == b
  | _, _ => false

/-- The callback run of `collections.some((c) => c.collection === name)` over
the elements of an array. -/
def someNamed : List JsVal → JsVal → Except JsError Bool
  | [], _ => .ok false
  | c :: rest, name =>
    match c.prop "collection" with
    | .error e => .error e
    | .ok v => if strictEq v name then .ok true else someNamed rest name

/-- The expression `collections.some((c) => c.collection === name)`: a value
that is not an array has no method `some`. -/
def hasCollection (collections : JsVal) (name : JsVal) : Except JsError Bool :=
  match collections with
  | .arr items => someNamed items name
  | _ => .error .typeError

/-- The function `collectionExists(client, collectionName)`. -/
def collectionExists {σ : Type} (W : World σ) (collectionName : JsVal) : Prog σ Bool := do
  let collections ← getCollections W
  Prog.lift (hasCollection collections collectionName)

/-- The function `createCollection(client, collectionDef)` of the script. -/
def createCollection {σ : Type} (W : World σ) (collectionDef : JsVal) : Prog σ Bool := do
  let collectionName ← Prog.lift (collectionDef.prop "collection")
  let present ← collectionExists W collectionName
  if present then
    pure false
  else
    Prog.tryCatch
      (do
        let _ ← clientCreateCollection W collectionDef
        pure true)
      (fun error => Prog.throw error)

/-- The loop `for (const collectionDef of schema.collections)` of `main`, with
its two counters `created` and `skipped`. -/
def createAll {σ : Type} (W : World σ) : List JsVal → Nat → Nat → Prog σ (Nat × Nat)
  | [], created, skipped => pure (created, skipped)
  | collectionDef :: rest, created, skipped => do
    let wasCreated ← createCollection W collectionDef
    if wasCreated then createAll W rest (created + 1) skipped
    else createAll W rest created (skipped + 1)

/-- The environment variables read by the scripts. -/
structure Env where
  directusUrl : Option String
  setupToken : Option String
  confirmCleanup : Option String

/-- The expression `process.env.DIRECTUS_URL || "http://localhost:8055"`. -/
def Env.url (env : Env) : String :=
  match env.directusUrl with
  | some u => if u = "" then "http://localhost:8055" else u
  | none => "http://localhost:8055"

/-- How a script ends: the process exit code, the world it leaves, the
requests it sent, and the summary counters it printed, if it got that far. -/
structure Exit (σ : Type) where
  code : Nat
  world : σ
  sent : List Request
  summary : Option (Nat × Nat)

/-- The function `main` of `create-collections.js`.  `schema` is the outcome of
`loadCollectionsSchema()` followed by reading `schema.collections`. -/
def createCollectionsMain {σ : Type} (W : World σ) (env : Env)
    (schema : Except JsError (List JsVal)) (w : σ) : Exit σ :=
  match env.setupToken with
  | none => { code := 1, world := w, sent := [], summary := none }
  | some accessToken =>
    if accessToken = "" then { code := 1, world := w, sent := [], summary := none }
    else
      match testConnection W (Sys.start w env.url accessToken) with
      | (.ok true, s1) =>
        match (Prog.bind (Prog.lift schema) fun collections => createAll W collections 0 0) s1 with
        | (.ok counts, s2) => { code := 0, world := s2.world, sent := s2.sent, summary := some counts }
        | (.error _, s2) => { code := 1, world := s2.world, sent := s2.sent, summary := none }
      | (_, s1) => { code := 1, world := s1.world, sent := s1.sent, summary := none }

/-! ## Seeding script (`src/populate-data.js`) -/

/-- The assignment `obj[k] = v` on the own properties of a plain object: an
existing property is overwritten in place, a new one is appended. -/
def setField : List (String × JsVal) → String → JsVal → List (String × JsVal)
  | [], k, v => [(k, v)]
  | (k1, v1) :: rest, k, v =>
    if k1 = k then (k1, v) :: rest else (k1, v1) :: setField rest k v

/-- The rest pattern `const { k, ...others } = obj`: the properties other than
`k`. -/
def omitField (fields : List (String × JsVal)) (k : String) : List (String × JsVal) :=
  fields.filter (fun p => decide (p.1 ≠ k))

/-- Whether a property list has the own property `k`. -/
def hasField (fields : List (String × JsVal)) (k : String) : Bool :=
  decide (k ∈ fields.map (fun p => p.1))

/-- The prototype of a plain object of the scripts: `Object.prototype` (the
prototype of `{}`), `null`, or an object or array received from the backend,
whose own prototype is `Object.prototype` or `Array.prototype`. -/
inductive Prototype where
  | objectPrototype
  | null
  | received (v : JsVal)
deriving DecidableEq

/-- A plain object used as a name-resolution map (`courseMap`, `lessonMap`):
its own properties and its prototype. -/
structure NameMap where
  own : List (String × JsVal)
  proto : Prototype
deriving DecidableEq

/-- The object literal `{}`. -/
def NameMap.empty : NameMap := { own := [], proto := .objectPrototype }

/-- What a property read on a name-resolution map finds: a value of the JSON
fragment, the built-in function `k` of `Object.prototype` or `Array.prototype`,
or the object `Object.prototype` itself. -/
inductive Found where
  | value (v : JsVal)
  | builtin (k : String)
  | objectPrototype
deriving DecidableEq

/-- The `ToBoolean` conversion of what a property read finds: functions and
objects are truthy. -/
def Found.truthy : Found → Bool
  | .value v => v.truthy
  | .builtin _ => true
  | .objectPrototype => true

/-- What a property read finds, as `JSON.stringify` serialises it inside a
record: a function-valued property is left out, as a property holding
`undefined` is, and `Object.prototype` has no enumerable property of its own, so
it is written as the empty object. -/
def Found.toJson : Found → JsVal
  | .value v => v
  | .builtin _ => .undefined
  | .objectPrototype => .obj []

/-- The names of the properties of `Object.prototype`: the accessor `__proto__`
and eleven functions. -/
def objectPrototypeKeys : List String :=
  ["__proto__", "constructor", "hasOwnProperty", "isPrototypeOf", "propertyIsEnumerable",
   "toLocaleString", "toString", "valueOf", "__defineGetter__", "__defineSetter__",
   "__lookupGetter__", "__lookupSetter__"]

/-- The names of the function-valued properties of `Array.prototype`
(ECMAScript 2023). -/
def arrayPrototypeKeys : List String :=
  ["at", "concat", "constructor", "copyWithin", "entries", "every", "fill", "filter", "find",
   "findIndex", "findLast", "findLastIndex", "flat", "flatMap", "forEach", "includes", "indexOf",
   "join", "keys", "lastIndexOf", "map", "pop", "push", "reduce", "reduceRight", "reverse",
   "shift", "slice", "some", "sort", "splice", "toLocaleString", "toReversed", "toSorted",
   "toSpliced", "toString", "unshift", "values", "with"]

/-- The own property `k` of an array: `length`, or the element at the index
that `k` is the decimal text of. -/
def arrayOwn (items : List JsVal) (k : String) : Option JsVal :=
  if k = "length" then some (.num items.length)
  else
    match (List.range items.length).find? (fun i => decide (toString i = k)) with
    | some i => items[i]?
    | none => none

/-- The property read of `k` once the lookup has reached `Object.prototype`,
for a receiver whose prototype is `proto`: the getter of `__proto__` returns
the prototype of the receiver, the other names of `objectPrototypeKeys` are
functions, and no other property exists. -/
def objectPrototypeFind (proto : Prototype) (k : String) : Option Found :=
  if k = "__proto__" then
    match proto with
    | .objectPrototype => some .objectPrototype
    | .received v => some (.value v)
    | .null => some (.value .null)
  else if k ∈ objectPrototypeKeys then some (.builtin k)
  else none

/-- The lookup of the property `k` along the prototype chain of the map: the
own properties first, then those of the prototype and of its prototypes;
`none` when no object of the chain has the property. -/
def NameMap.find? (map : NameMap) (k : String) : Option Found :=
  if hasField map.own k then some (.value (getField map.own k))
  else
    match map.proto with
    | .null => none
    | .objectPrototype => objectPrototypeFind map.proto k
    | .received (.obj fields) =>
      if hasField fields k then some (.value (getField fields k))
      else objectPrototypeFind map.proto k
    | .received (.arr items) =>
      match arrayOwn items k with
      | some v => some (.value v)
      | none =>
        if k ∈ arrayPrototypeKeys then some (.builtin k) else objectPrototypeFind map.proto k
    | .received _ => none

/-- The property read `map[k]`: `undefined` when the lookup finds nothing. -/
def NameMap.get (map : NameMap) (k : String) : Found :=
  match map.find? k with
  | some found => found
  | none => .value .undefined

/-- The setter of `Object.prototype.__proto__`, called on the map: an object
or an array becomes the prototype of the map, `null` removes the prototype, and
any other value is ignored. -/
def NameMap.setPrototype (map : NameMap) (v : JsVal) : NameMap :=
  match v with
  | .obj _ => { map with proto := .received v }
  | .arr _ => { map with proto := .received v }
  | .null => { map with proto := .null }
  | _ => map

/-- The assignment `map[k] = v`.  Every name but `__proto__` becomes or stays
an own property, since the inherited properties of that name are writable data
properties.  The name `__proto__` becomes an own property only when it is one
already or when the lookup finds a data property of that name before it reaches
`Object.prototype` (the prototype is `null`, or a received object with an own
property `__proto__`); otherwise the assignment runs the setter of
`Object.prototype`. -/
def NameMap.set (map : NameMap) (k : String) (v : JsVal) : NameMap :=
  if k = "__proto__" ∧ hasField map.own k = false then
    match map.proto with
    | .null => { map with own := setField map.own k v }
    | .received (.obj fields) =>
      if hasField fields k then { map with own := setField map.own k v }
      else map.setPrototype v
    | _ => map.setPrototype v
  else { map with own := setField map.own k v }

/-- The callback run of `created.forEach((rec) => { map[rec.name] = rec.id; })`
over the elements of an array, from the map built so far. -/
def nameMap : List JsVal → NameMap → Except JsError NameMap
  | [], map => .ok map
  | record :: rest, map =>
    match record.prop "name" with
    | .error e => .error e
    | .ok name =>
      match record.prop "id" with
      | .error e => .error e
      | .ok id => nameMap rest (map.set name.toStr id)

/-- The name-resolution map built from the value returned by `createItems`,
starting from `{}`: a value that is not an array has no method `forEach`. -/
def buildNameMap (created : JsVal) : Except JsError NameMap :=
  match created with
  | .arr items => nameMap items NameMap.empty
  | _ => .error .typeError

/-- The method `Array.prototype.map` with a callback that may throw. -/
def mapExcept {α β : Type} (f : α → Except JsError β) : List α → Except JsError (List β)
  | [] => .ok []
  | x :: rest =>
    match f x with
    | .error e => .error e
    | .ok y =>
      match mapExcept f rest with
      | .error e => .error e
      | .ok ys => .ok (y :: ys)

/-- The shape shared by the two mapping callbacks of the script: read the
parent name in the map (`map[payload.name]`, along the prototype chain), throw
when what is found is falsy, otherwise drop the name property and set the
identifier property to what was found.  The record is bound for
`JSON.stringify`, so what was found stands in it in the form `Found.toJson`. -/
def withParentId (map : NameMap) (nameKey idKey label : String)
    (payload : List (String × JsVal)) : Except JsError JsVal :=
  if !(map.get (getField payload nameKey).toStr).truthy then
    .error (.error (label ++ " \"" ++ (getField payload nameKey).toStr ++ "\" not found"))
  else
    .ok (.obj (setField (omitField payload nameKey) idKey
      (map.get (getField payload nameKey).toStr).toJson))

/-- The callback of `demoLessons.map` in `populateLessons`. -/
def lessonWithId (courseMap : NameMap) (lesson : List (String × JsVal)) :
    Except JsError JsVal :=
  withParentId courseMap "course_name" "course_id" "Course" lesson

/-- The callback of `demoProblems.map` in `populateProblems`. -/
def problemWithId (lessonMap : NameMap) (problem : List (String × JsVal)) :
    Except JsError JsVal :=
  withParentId lessonMap "lesson_name" "lesson_id" "Lesson" problem

/-- The function `populateCourses(client)`; the payload `demoCourses` is a
parameter. -/
def populateCourses {σ : Type} (W : World σ) (demoCourses : List JsVal) :
    Prog σ NameMap :=
  Prog.tryCatch
    (do
      let created ← createItems W "courses" demoCourses
      Prog.lift (buildNameMap created))
    (fun error => Prog.throw error)

/-- The function `populateLessons(client, courseMap)`; the payload
`demoLessons` is a parameter. -/
def populateLessons {σ : Type} (W : World σ) (demoLessons : List (List (String × JsVal)))
    (courseMap : NameMap) : Prog σ NameMap :=
  Prog.tryCatch
    (do
      let lessonsWithIds ← Prog.lift (mapExcept (lessonWithId courseMap) demoLessons)
      let created ← createItems W "lessons" lessonsWithIds
      Prog.lift (buildNameMap created))
    (fun error => Prog.throw error)

/-- The function `populateProblems(client, lessonMap)`; the payload
`demoProblems` is a parameter. -/
def populateProblems {σ : Type} (W : World σ) (demoProblems : List (List (String × JsVal)))
    (lessonMap : NameMap) : Prog σ JsVal :=
  Prog.tryCatch
    (do
      let problemsWithIds ← Prog.lift (mapExcept (problemWithId lessonMap) demoProblems)
      createItems W "problems" problemsWithIds)
    (fun error => Prog.throw error)

/-- The function `populateAiPrompts(client)`; the payload `demoAiPrompts` is a
parameter. -/
def populateAiPrompts {σ : Type} (W : World σ) (demoAiPrompts : List JsVal) : Prog σ JsVal :=
  Prog.tryCatch (createItems W "ai_prompts" demoAiPrompts) (fun error => Prog.throw error)

/-- The constant `demoLessons` of the script. -/
def demoLessons : List (List (String × JsVal)) :=
  [[("name", .str "Introduction to Algebra"),
    ("slug", .str "intro-algebra"),
    ("description", .str "<h2>Algebra Basics</h2><p>Learn variables and equations</p>"),
    ("content", .str "<h2>Algebra Basics</h2><p>Learn variables and equations</p>"),
    ("video_url", .str "https://www.youtube.com/watch?v=xvFZjo5PgG0"),
    ("xp_reward", .num 50),
    ("order", .num 1),
    ("is_published", .bool true),
    ("is_free_preview", .bool true),
    ("course_name", .str "Mathematics 101")],
   [("name", .str "Solving Linear Equations"),
    ("slug", .str "linear-equations"),
    ("description", .str "<h2>Linear Equations</h2><p>Master equation solving</p>"),
    ("content", .str "<h2>Linear Equations</h2><p>Master equation solving</p>"),
    ("video_url", .str "https://example.com/linear.mp4"),
    ("xp_reward", .num 75),
    ("order", .num 2),
    ("is_published", .bool true),
    ("is_free_preview", .bool false),
    ("course_name", .str "Mathematics 101")]]

/-- The constant `demoProblems` of the script. -/
def demoProblems : List (List (String × JsVal)) :=
  [[("type", .str "multiple_choice"),
    ("question", .str "What is 2x + 3 = 11? Solve for x."),
    ("correct_answer", .str "4"),
    ("difficulty", .str "easy"),
    ("xp_reward", .num 25),
    ("order", .num 1),
    ("lesson_name", .str "Introduction to Algebra"),
    ("options", .arr [.str "2", .str "3", .str "4", .str "5"])],
   [("type", .str "exact_answer"),
    ("question", .str "Solve: x - 5 = 10"),
    ("correct_answer", .str "15"),
    ("difficulty", .str "easy"),
    ("xp_reward", .num 30),
    ("order", .num 2),
    ("lesson_name", .str "Introduction to Algebra")]]

/-- A submitted record is resolved from the parents returned by the previous
batch-create: some returned parent has the payload's declared parent name as
its `name` (compared as the property keys the map is indexed by; for a string
name, the string itself) and the record's identifier property is that parent's
`id`. -/
def resolvedFrom (parents : List JsVal) (nameKey idKey : String)
    (payload : List (String × JsVal)) (record : JsVal) : Prop :=
  ∃ parent ∈ parents, ∃ name id, parent.prop "name" = .ok name ∧
    name.toStr = (getField payload nameKey).toStr ∧
    parent.prop "id" = .ok id ∧ record.prop idKey = .ok id

/-- Some record of the list carries the name `k`, compared as the property
key the map is indexed by. -/
def carriesName (records : List JsVal) (k : String) : Prop :=
  ∃ r ∈ records, ∃ name, r.prop "name" = .ok name ∧ name.toStr = k

/-- A submitted record is resolved from the returned parents whenever the
payload's declared parent name is carried by one of them and is not
`__proto__`. -/
def resolvedIfNamed (parents : List JsVal) (nameKey idKey : String)
    (payload : List (String × JsVal)) (record : JsVal) : Prop :=
  (getField payload nameKey).toStr ≠ "__proto__" →
    carriesName parents (getField payload nameKey).toStr →
    resolvedFrom parents nameKey idKey payload record

/-- The constant `requiredCollections` of `main`. -/
def requiredCollections : List String := ["courses", "lessons", "problems", "ai_prompts"]

/-- The expression `collections.map((c) => c.collection)`: a value that is not
an array has no method `map`. -/
def collectionNamesOf (collections : JsVal) : Except JsError (List JsVal) :=
  match collections with
  | .arr items => mapExcept (fun c => c.prop "collection") items
  | _ => .error .typeError

/-- The expression `collectionNames.includes(c)` for a string `c`. -/
def includesName (names : List JsVal) (c : String) : Bool :=
  names.any (fun v => strictEq v (.str c))

/-- The expression `requiredCollections.filter((c) => !collectionNames.includes(c))`. -/
def missingCollections (names : List JsVal) : List String :=
  requiredCollections.filter (fun c => !includesName names c)

/-- The demo payloads of the script. -/
structure DemoData where
  courses : List JsVal
  lessons : List (List (String × JsVal))
  problems : List (List (String × JsVal))
  aiPrompts : List JsVal

/-- The four calls under `// Populate in order` in `main`. -/
def seedTiers {σ : Type} (W : World σ) (demo : DemoData) : Prog σ Unit := do
  let courseMap ← populateCourses W demo.courses
  let lessonMap ← populateLessons W demo.lessons courseMap
  let _ ← populateProblems W demo.problems lessonMap
  let _ ← populateAiPrompts W demo.aiPrompts
  pure ()

/-- How the seeding script ends: the exit code, the world it leaves, the
requests it sent, and the text of its `Missing collections` error line, if it
printed one. -/
structure SeedExit (σ : Type) where
  code : Nat
  world : σ
  sent : List Request
  report : Option String

/-- The function `main` of `populate-data.js`. -/
def populateDataMain {σ : Type} (W : World σ) (env : Env) (demo : DemoData) (w : σ) :
    SeedExit σ :=
  match env.setupToken with
  | none => { code := 1, world := w, sent := [], report := none }
  | some accessToken =>
    if accessToken = "" then { code := 1, world := w, sent := [], report := none }
    else
      match testConnection W (Sys.start w env.url accessToken) with
      | (.ok true, s1) =>
        match getCollections W s1 with
        | (.ok collections, s2) =>
          match collectionNamesOf collections with
          | .ok collectionNames =>
            if (missingCollections collectionNames).length > 0 then
              { code := 1, world := s2.world, sent := s2.sent
                report := some ("Missing collections: " ++
                  ", ".intercalate (missingCollections collectionNames)) }
            else
              match seedTiers W demo s2 with
              | (.ok _, s3) => { code := 0, world := s3.world, sent := s3.sent, report := none }
              | (.error _, s3) => { code := 1, world := s3.world, sent := s3.sent, report := none }
          | .error _ => { code := 1, world := s2.world, sent := s2.sent, report := none }
        | (.error _, s2) => { code := 1, world := s2.world, sent := s2.sent, report := none }
      | (_, s1) => { code := 1, world := s1.world, sent := s1.sent, report := none }

/-! ## Integrity verifier (`src/verify-setup.js`) -/

/-- A cell of a printed table: a text, or the message of a caught error, cut to
its first `limit` characters when a limit is given. -/
inductive Cell where
  | text (s : String)
  | message (e : JsError) (limit : Option Nat)
deriving DecidableEq

/-- The keys of the constant `EXPECTED_COLLECTIONS`, in declaration order. -/
def expectedCollections : List String := ["courses", "lessons", "problems", "ai_prompts"]

/-- A row of the table printed by `verifyCollections` (`existsText` is the
column `exists`). -/
structure CollectionRow where
  collection : String
  existsText : String
  fields : String
deriving DecidableEq

/-- The callback run of `collections.forEach((c) => { collectionMap[c.collection] = c; })`
over the elements of an array, from the map built so far. -/
def collectionMapOf : List JsVal → List (String × JsVal) → Except JsError (List (String × JsVal))
  | [], map => .ok map
  | c :: rest, map =>
    match c.prop "collection" with
    | .error e => .error e
    | .ok name => collectionMapOf rest (setField map name.toStr c)

/-- The map `collectionMap` of `verifyCollections`, built from `{}`: a value
that is not an array has no method `forEach`. -/
def buildCollectionMap (collections : JsVal) : Except JsError (List (String × JsVal)) :=
  match collections with
  | .arr items => collectionMapOf items []
  | _ => .error .typeError

/-- The row pushed for one expected collection. -/
def collectionRow (collectionMap : List (String × JsVal)) (collectionName : String) :
    CollectionRow :=
  if !(getField collectionMap collectionName).truthy then
    { collection := collectionName, existsText := "❌ Missing", fields := "—" }
  else
    { collection := collectionName, existsText := "✅ Exists", fields := "✅ OK" }

/-- The function `verifyCollections(client)`: the table it prints and the
boolean it returns. -/
def verifyCollections {σ : Type} (W : World σ) : Prog σ (List CollectionRow × Bool) := do
  let collections ← getCollections W
  let collectionMap ← Prog.lift (buildCollectionMap collections)
  pure (expectedCollections.map (collectionRow collectionMap),
    expectedCollections.all (fun c => (getField collectionMap c).truthy))

/-- The number of UTF-16 code units of a string. -/
def utf16Length (s : String) : Nat :=
  (s.toList.map (fun c => if c.val ≥ 0x10000 then 2 else 1)).sum

/-- The property read `v.length`: a `TypeError` on `undefined` and `null`, the
built-in length of an array or a string, `undefined` on the other values (an
own property named `length` of a JSON object is outside the model). -/
def JsVal.length (v : JsVal) : Except JsError JsVal :=
  match v with
  | .undefined => .error .typeError
  | .null => .error .typeError
  | .arr items => .ok (.num items.length)
  | .str s => .ok (.num (utf16Length s))
  | _ => .ok .undefined

/-- The comparison `v > 0` for a value read from `length`: a number or
`undefined`. -/
def positive : JsVal → Bool
  | .num n => decide (n > 0)
  | _ => false

/-- The element read `v[0]` of a value whose length is positive: the first
element of an array, the first character of a string. -/
def firstOf : JsVal → JsVal
  | .arr (first :: _) => first
  | .str s =>
    match s.toList with
    | c :: _ => .str (String.singleton c)
    | [] => .undefined
  | _ => .undefined

/-- A row of the table printed by `verifyData`. -/
structure DataRow where
  collection : String
  records : JsVal
  sample : Cell
deriving DecidableEq

/-- The template `${count[0].name || count[0].question || "Item"}`. -/
def sampleOf (first : JsVal) : Except JsError String :=
  match first.prop "name" with
  | .error e => .error e
  | .ok name =>
    if name.truthy then .ok name.toStr
    else
      match first.prop "question" with
      | .error e => .error e
      | .ok question => if question.truthy then .ok question.toStr else .ok "Item"

/-- The row pushed in the `try` block of `verifyData` for the fetched `count`. -/
def countRow (collectionName : String) (count : JsVal) : Except JsError DataRow :=
  match count.length with
  | .error e => .error e
  | .ok len =>
    if positive len then
      match sampleOf (firstOf count) with
      | .error e => .error e
      | .ok sample => .ok { collection := collectionName, records := len, sample := .text sample }
    else .ok { collection := collectionName, records := len, sample := .text "Empty" }

/-- The two fetches of one iteration of `verifyData`: `items` with the option
`limit: 1`, then `count`, the full list when `items.length > 0` and `[]`
otherwise. -/
def fetchCount {σ : Type} (W : World σ) (collectionName : String) : Prog σ JsVal := do
  let items ← getItems W collectionName [("limit", "1")]
  let len ← Prog.lift items.length
  if positive len then getItems W collectionName [] else pure (.arr [])

/-- The row pushed by the `catch` block of `verifyData`. -/
def errorRow (collectionName : String) (error : JsError) : DataRow :=
  { collection := collectionName, records := .str "❌ Error", sample := .message error (some 30) }

/-- One iteration of the loop of `verifyData`: the row pushed for
`collectionName`, by the `try` block or by the `catch` block. -/
def dataRow {σ : Type} (W : World σ) (collectionName : String) : Prog σ DataRow :=
  Prog.tryCatch
    (do
      let count ← fetchCount W collectionName
      Prog.lift (countRow collectionName count))
    (fun error => pure (errorRow collectionName error))

/-- The loop `for (const collectionName of Object.keys(EXPECTED_COLLECTIONS))`
of `verifyData`. -/
def dataRows {σ : Type} (W : World σ) : List String → Prog σ (List DataRow)
  | [] => pure []
  | collectionName :: rest => do
    let row ← dataRow W collectionName
    let rows ← dataRows W rest
    pure (row :: rows)

/-- The test `r.records > 0 || r.records === "❌ Error"` on a row. -/
def rowOk (r : DataRow) : Bool :=
  match r.records with
  | .num n => decide (n > 0)
  | .str s => decide (s = "❌ Error")
  | _ => false

/-- The function `verifyData(client)`: the table it prints and the boolean it
returns. -/
def verifyData {σ : Type} (W : World σ) : Prog σ (List DataRow × Bool) := do
  let rows ← dataRows W expectedCollections
  pure (rows, rows.all rowOk)

/-- The callback run of `parents.some((parent) => parent.id === child[fk])`
over the elements of an array. -/
def someIdEq : List JsVal → JsVal → String → Except JsError Bool
  | [], _, _ => .ok false
  | parent :: rest, child, fk =>
    match parent.prop "id" with
    | .error e => .error e
    | .ok parentId =>
      match child.prop fk with
      | .error e => .error e
      | .ok childKey => if strictEq parentId childKey then .ok true else someIdEq rest child fk

/-- The expression `parents.some((parent) => parent.id === child[fk])`: a
value that is not an array has no method `some`. -/
def someParent (parents : JsVal) (child : JsVal) (fk : String) : Except JsError Bool :=
  match parents with
  | .arr items => someIdEq items child fk
  | _ => .error .typeError

/-- The callback run of `children.every((child) => parents.some(...))` over the
elements of an array: it stops at the first child without a parent. -/
def everyChild : List JsVal → JsVal → String → Except JsError Bool
  | [], _, _ => .ok true
  | child :: rest, parents, fk =>
    match someParent parents child fk with
    | .error e => .error e
    | .ok found => if found then everyChild rest parents fk else .ok false

/-- The expression `children.every((child) => parents.some(...))`: a value
that is not an array has no method `every`. -/
def everyHasParent (children parents : JsVal) (fk : String) : Except JsError Bool :=
  match children with
  | .arr items => everyChild items parents fk
  | _ => .error .typeError

/-- A row of the table printed by `verifyRelationships`. -/
structure RelationRow where
  relationship : String
  status : String
  details : Cell
deriving DecidableEq

/-- One of the two blocks of `verifyRelationships`: fetch the children, fetch
the parents, check every child, and push the row; an error pushes the error
row. -/
def checkRelation {σ : Type} (W : World σ) (relationship children parents fk : String) :
    Prog σ RelationRow :=
  Prog.tryCatch
    (do
      let childItems ← getItems W children []
      let parentItems ← getItems W parents []
      let allValid ← Prog.lift (everyHasParent childItems parentItems fk)
      let childCount ← Prog.lift childItems.length
      let parentCount ← Prog.lift parentItems.length
      pure { relationship := relationship,
              status := if allValid then "✅ Valid" else "⚠️  Broken",
              details := .text (childCount.toStr ++ " " ++ children ++ ", " ++
                parentCount.toStr ++ " " ++ parents) })
    (fun error =>
      pure { relationship := relationship, status := "❌ Error", details := .message error none })

/-- The function `verifyRelationships(client)`: the table it prints. -/
def verifyRelationships {σ : Type} (W : World σ) : Prog σ (List RelationRow) := do
  let lessonsRow ← checkRelation W "Lessons → Courses" "lessons" "courses" "course_id"
  let problemsRow ← checkRelation W "Problems → Lessons" "problems" "lessons" "lesson_id"
  pure [lessonsRow, problemsRow]

/-- The three tables of a verification run and the boolean `collectionsOk`. -/
structure VerifyReport where
  collections : List CollectionRow
  collectionsOk : Bool
  data : List DataRow
  relationships : List RelationRow
deriving DecidableEq

/-- The `try` block of `main`: the three checks, one after the other. -/
def verifyRun {σ : Type} (W : World σ) : Prog σ VerifyReport := do
  let collections ← verifyCollections W
  let data ← verifyData W
  let relationships ← verifyRelationships W
  pure { collections := collections.1, collectionsOk := collections.2, data := data.1,
          relationships := relationships }

/-- How the verification script ends: the exit code, the world it leaves, the
requests it sent, and the report, when the three checks returned. -/
structure VerifyExit (σ : Type) where
  code : Nat
  world : σ
  sent : List Request
  report : Option VerifyReport

/-- The function `main` of `verify-setup.js`. -/
def verifySetupMain {σ : Type} (W : World σ) (env : Env) (w : σ) : VerifyExit σ :=
  match env.setupToken with
  | none => { code := 1, world := w, sent := [], report := none }
  | some accessToken =>
    if accessToken = "" then { code := 1, world := w, sent := [], report := none }
    else
      match testConnection W (Sys.start w env.url accessToken) with
      | (.ok true, s1) =>
        match verifyRun W s1 with
        | (.ok report, s2) =>
          { code := 0, world := s2.world, sent := s2.sent, report := some report }
        | (.error _, s2) => { code := 1, world := s2.world, sent := s2.sent, report := none }
      | (_, s1) => { code := 1, world := s1.world, sent := s1.sent, report := none }

/-! ## Scripted worlds, for concrete runs -/

/-- State of a scripted world: the answers still to be given and the clock
readings still to be returned. -/
structure Script where
  answers : List FetchResult
  clock : List Nat
deriving DecidableEq

/-- A world that replays a script: `fetch` gives the next queued answer (it
rejects once the queue is empty) and `Date.now()` the next queued reading (0
once the queue is empty). -/
def scripted : World Script where
  fetch := fun _ st =>
    match st.answers with
    | [] => (.rejected "fetch failed", st)
    | a :: r => (a, { st with answers := r })
  now := fun st =>
    match st.clock with
    | [] => (0, st)
    | t :: r => (t, { st with clock := r })

/-- A response with status 200 and the given JSON body. -/
def okJson (text : String) (body : JsVal) : FetchResult :=
  .response { status := 200, text := text, json := some body }

/-- The login answer `{"data":{"access_token":token}}`. -/
def loginAnswer (token : JsVal) : FetchResult :=
  okJson "" (.obj [("data", .obj [("access_token", token)])])

/-! ## Auxiliary states -/

/-- The state once `fetch` has answered the login request of `s`. -/
def afterLogin {σ : Type} (s : Sys σ) (w : σ) : Sys σ :=
  { s with world := w, sent := s.sent ++ [loginRequest s.auth] }

/-- The state once `fetch` has answered request `r` sent from `s`. -/
def afterSend {σ : Type} (s : Sys σ) (r : Request) (w : σ) : Sys σ :=
  { s with world := w, sent := s.sent ++ [r] }

/-- The outcome of `DirectusClient.request` on a response, as one expression:
the status checks in source order, then `response.json()`. -/
def responseOutcome (response : Response) : Except JsError JsVal :=
  if response.status = 403 then .error (.error "Insufficient permissions")
  else if response.status = 401 then .error (.error "Invalid token")
  else if !response.ok then
    .error (.error ("HTTP " ++ toString response.status ++ ": " ++ response.text))
  else response.parse

/-- An empty cache in front of a backend that issues the token `jwt-1`; the
clock reads 1000, 2000, 3000. -/
def cacheDemoStart : Sys Script :=
  Sys.start { answers := [loginAnswer (.str "jwt-1")], clock := [1000, 2000, 3000] }
    "http://localhost:8055" "setup-key"

/-- The state of `cacheDemoStart` after its first refresh. -/
def cacheDemoAfter : Sys Script :=
  { world := { answers := [], clock := [2000, 3000] }
    sent := [loginRequest cacheDemoStart.auth]
    auth := { cacheDemoStart.auth with jwtToken := .str "jwt-1", tokenExpiry := some 601000 } }

/-- An empty cache in front of a backend that rejects the access key with
status 401. -/
def rejectedLoginStart : Sys Script :=
  Sys.start
    { answers := [.response { status := 401, text := "Unauthorized", json := none }], clock := [] }
    "http://localhost:8055" "wrong-key"

/-- An empty cache in front of a backend that accepts the key and then answers
with status 500 and the text `boom`. -/
def serverErrorStart : Sys Script :=
  Sys.start
    { answers := [loginAnswer (.str "jwt-1"),
        .response { status := 500, text := "boom", json := none }]
      clock := [1000] }
    "http://localhost:8055" "setup-key"

/-- The state of the runs below once the header has been obtained: the login
request is sent, the token `jwt-1` is cached, `rest` is still to be answered. -/
def headerObtained (rest : List FetchResult) : Sys Script :=
  { world := { answers := rest, clock := [] }
    sent := [loginRequest (DirectusAuth.new "http://localhost:8055" "setup-key")]
    auth :=
      { directusUrl := "http://localhost:8055"
        accessToken := "setup-key"
        jwtToken := .str "jwt-1"
        tokenExpiry := some 601000 } }

/-- The header sent with the token `jwt-1`. -/
def demoHeaders : List (String × String) :=
  [("Authorization", "Bearer jwt-1"), ("Content-Type", "application/json")]

/-- An empty cache in front of a backend that accepts the key and then answers
200 with the body `{"data":0}`. -/
def zeroDataStart : Sys Script :=
  Sys.start
    { answers := [loginAnswer (.str "jwt-1"),
        okJson "\x7b\"data\":0\x7d" (.obj [("data", .num 0)])]
      clock := [1000] }
    "http://localhost:8055" "setup-key"

/-- An empty cache in front of a backend that accepts the key and then answers
200 with the body `null`. -/
def nullBodyStart : Sys Script :=
  Sys.start
    { answers := [loginAnswer (.str "jwt-1"), okJson "null" .null], clock := [1000] }
    "http://localhost:8055" "setup-key"

/-- A world that gives the same response to every request; the clock always
reads 0. -/
def constantWorld (resp : Response) : World Unit where
  fetch := fun _ _ => (.response resp, ())
  now := fun _ => (0, ())

/-- A 200 response whose body is `{"data":{"access_token":"jwt-1","id":7}}`. -/
def demoResponse : Response :=
  { status := 200
    text := ""
    json := some (.obj [("data", .obj [("access_token", .str "jwt-1"), ("id", .num 7)])]) }

/-- A request that asks the backend to create a collection. -/
def isCreateCollection (base : String) (r : Request) : Prop :=
  r.method = "POST" ∧ r.url = base ++ "/api/collections"

/-- The requests sent between the states `s` and `s1` of one run. -/
def sentSince {σ : Type} (s s1 : Sys σ) : List Request := s1.sent.drop s.sent.length

/-- The descriptor of the collection `courses`, reduced to its name. -/
def coursesDef : JsVal := .obj [("collection", .str "courses")]

/-- The body of a listing that shows the single collection `courses`. -/
def coursesListing : JsVal := .obj [("data", .arr [.obj [("collection", .str "courses")]])]

/-- An empty cache in front of a backend that accepts the key and lists the
collection `courses`. -/
def coursesListedStart : Sys Script :=
  Sys.start
    { answers := [loginAnswer (.str "jwt-1"), okJson "" coursesListing], clock := [1000] }
    "http://localhost:8055" "setup-key"

/-- The descriptor of the collection `lessons`, reduced to its name. -/
def lessonsDef : JsVal := .obj [("collection", .str "lessons")]

/-- The environment of a configured run. -/
def demoEnv : Env :=
  { directusUrl := none, setupToken := some "setup-key", confirmCleanup := none }

/-- The body of a server-info answer. -/
def serverInfo : JsVal := .obj [("data", .obj [("directus", .obj [("version", .str "10.8.3")])])]

/-- A backend that accepts the key, answers the server-info read, lists no
collection and then fails the first create request with status 500. -/
def createFailsScript : Script :=
  { answers := [loginAnswer (.str "jwt-1"), okJson "" serverInfo,
      okJson "" (.obj [("data", .arr [])]),
      .response { status := 500, text := "boom", json := none }]
    clock := [1000] }

/-- A backend on which provisioning succeeds, for clients configured with the
URL `base`; `names w` lists the collections it holds in state `w`.  Reading the
clock, logging in and listing leave the collections as they are; the listing
shows exactly the collections held; creating a collection that is not held
succeeds and adds it. -/
structure IdealBackend {σ : Type} (W : World σ) (base : String) (names : σ → List String) :
    Prop where
  clock : ∀ w, names (W.now w).2 = names w
  login : ∀ a w, a.directusUrl = base →
    ∃ resp token, (W.fetch (loginRequest a) w).1 = .response resp ∧ resp.ok = true ∧
      accessTokenOf resp = .ok token ∧ names (W.fetch (loginRequest a) w).2 = names w
  list : ∀ a headers w, a.directusUrl = base →
    ∃ resp body colls,
      (W.fetch (apiRequest a "GET" "/api/collections" headers .null) w).1 = .response resp ∧
      resp.ok = true ∧ resp.json = some body ∧ body.prop "data" = .ok colls ∧
      (∀ n : String, hasCollection (orEmpty colls) (.str n) = .ok (decide (n ∈ names w))) ∧
      names (W.fetch (apiRequest a "GET" "/api/collections" headers .null) w).2 = names w
  create : ∀ a headers d n w, a.directusUrl = base → d.prop "collection" = .ok (.str n) →
    n ∉ names w →
    ∃ resp body v,
      (W.fetch (apiRequest a "POST" "/api/collections" headers d) w).1 = .response resp ∧
      resp.ok = true ∧ resp.json = some body ∧ body.prop "data" = .ok v ∧
      names (W.fetch (apiRequest a "POST" "/api/collections" headers d) w).2 = names w ++ [n]

/-- The entry of a collection in a listing. -/
def listingEntry (n : String) : JsVal := .obj [("collection", .str n)]

/-- A simulated backend whose state is the list of its collections: it creates
the collection named in the body of `POST /api/collections`, lists its
collections on `GET /api/collections`, and answers every other request with a
token and its version.  The clock always reads 0. -/
def directusSim : World (List String) where
  fetch := fun r cols =>
    if r.method = "POST" ∧ r.url = "http://localhost:8055" ++ "/api/collections" then
      match r.body with
      | some (.obj fields) =>
        match getField fields "collection" with
        | .str n => (okJson "" (.obj [("data", .obj fields)]), cols ++ [n])
        | _ => (.response { status := 400, text := "", json := none }, cols)
      | _ => (.response { status := 400, text := "", json := none }, cols)
    else if r.method = "GET" ∧ r.url = "http://localhost:8055" ++ "/api/collections" then
      (okJson "" (.obj [("data", .arr (cols.map listingEntry))]), cols)
    else
      (okJson "" (.obj [("data", .obj [("access_token", .str "jwt-1"),
        ("directus", .obj [("version", .str "10.8.3")])])]), cols)
  now := fun cols => (0, cols)

/-- The four descriptors of the schema, reduced to their names. -/
def schemaDefs : List JsVal :=
  [.obj [("collection", .str "courses")], .obj [("collection", .str "lessons")],
   .obj [("collection", .str "problems")], .obj [("collection", .str "ai_prompts")]]

/-- A course payload, reduced to its name. -/
def seedCourses : List JsVal := [.obj [("name", .str "Mathematics 101")]]

/-- The course the backend returns for `seedCourses`. -/
def seedCreatedCourses : List JsVal := [.obj [("id", .num 1), ("name", .str "Mathematics 101")]]

/-- The lessons the backend returns for `demoLessons`. -/
def seedCreatedLessons : List JsVal :=
  [.obj [("id", .num 10), ("name", .str "Introduction to Algebra")],
   .obj [("id", .num 11), ("name", .str "Solving Linear Equations")]]

/-- An empty cache in front of a backend that accepts the key and then answers
the three batch-creates of a seeding run. -/
def seedStart : Sys Script :=
  Sys.start
    { answers := [loginAnswer (.str "jwt-1"),
        okJson "" (.obj [("data", .arr seedCreatedCourses)]),
        okJson "" (.obj [("data", .arr seedCreatedLessons)]),
        okJson "" (.obj [("data", .arr [.obj [("id", .num 100)], .obj [("id", .num 101)]])])]
      clock := [1000] }
    "http://localhost:8055" "setup-key"

/-- The map `populateCourses` builds from `seedCreatedCourses`. -/
def seedCourseMap : NameMap := ⟨[("Mathematics 101", .num 1)], .objectPrototype⟩

/-- The map `populateLessons` builds from `seedCreatedLessons`. -/
def seedLessonMap : NameMap :=
  ⟨[("Introduction to Algebra", .num 10), ("Solving Linear Equations", .num 11)],
    .objectPrototype⟩

/-- A map that files the identifier 0 under `Mathematics 101`. -/
def zeroCourseMap : NameMap := ⟨[("Mathematics 101", .num 0)], .objectPrototype⟩

/-- A map that files the empty string under `Introduction to Algebra`. -/
def blankLessonMap : NameMap := ⟨[("Introduction to Algebra", .str "")], .objectPrototype⟩

/-- An answer to the course batch-create with one course, named `__proto__`,
whose id is an object with the property `Mathematics 101`. -/
def protoCreatedCourses : List JsVal :=
  [.obj [("id", .obj [("Mathematics 101", .num 99)]), ("name", .str "__proto__")]]

/-- The map `populateCourses` builds from `protoCreatedCourses`: no property of
its own, and the id of the course as prototype. -/
def protoCourseMap : NameMap := ⟨[], .received (.obj [("Mathematics 101", .num 99)])⟩

/-- An empty cache in front of a backend that accepts the key, answers the
course batch-create with `protoCreatedCourses` and the lesson batch-create with
`seedCreatedLessons`. -/
def protoStart : Sys Script :=
  Sys.start
    { answers := [loginAnswer (.str "jwt-1"),
        okJson "" (.obj [("data", .arr protoCreatedCourses)]),
        okJson "" (.obj [("data", .arr seedCreatedLessons)])]
      clock := [1000] }
    "http://localhost:8055" "setup-key"

/-- An empty cache in front of a backend that accepts the key and answers the
lesson batch-create with `seedCreatedLessons`. -/
def lessonTierStart : Sys Script :=
  Sys.start
    { answers := [loginAnswer (.str "jwt-1"),
        okJson "" (.obj [("data", .arr seedCreatedLessons)])]
      clock := [1000] }
    "http://localhost:8055" "setup-key"

/-- One created record, named `__proto__`, with the identifier 5. -/
def protoNamedCreated : List JsVal := [.obj [("id", .num 5), ("name", .str "__proto__")]]

/-- An empty cache in front of a backend whose login answers carry the empty
string as access token; the clock always reads 0. -/
def blankTokenStart : Sys Script :=
  Sys.start { answers := [loginAnswer (.str ""), loginAnswer (.str "")], clock := [] }
    "http://localhost:8055" "setup-key"

/-- A submitted record is the payload with the name property stripped and the
identifier substituted: it is an object without the property `nameKey`, its
property `idKey` is the identifier the map holds for the payload's parent name,
and it has exactly the payload's other properties. -/
def substituted (map : List (String × JsVal)) (nameKey idKey : String)
    (payload : List (String × JsVal)) (record : JsVal) : Prop :=
  ∃ fields, record = .obj fields ∧ (∀ v, (nameKey, v) ∉ fields) ∧
    getField fields idKey = getField map (getField payload nameKey).toStr ∧
    ∀ k v, k ≠ nameKey → k ≠ idKey → ((k, v) ∈ fields ↔ (k, v) ∈ payload)

/-- A request that asks the backend to create items in some collection. -/
def isCreateItem (base : String) (r : Request) : Prop :=
  r.method = "POST" ∧ ∃ c : String, r.url = base ++ "/api/items/" ++ c

/-- The program `x`, run by a client configured with the URL `base`, keeps that
configuration and only appends to the log requests that satisfy `p`. -/
def SendsOnly {σ α : Type} (base : String) (p : Request → Prop) (x : Prog σ α) : Prop :=
  ∀ s : Sys σ, s.auth.directusUrl = base →
    (x s).2.auth.directusUrl = base ∧ ∃ l, (x s).2.sent = s.sent ++ l ∧ ∀ r ∈ l, p r

/-- The login request or a request with the given method and path. -/
def loginOr (base method path : String) (r : Request) : Prop :=
  (r.method = "POST" ∧ r.url = base ++ "/auth/login") ∨ (r.method = method ∧ r.url = base ++ path)

/-- The program `x`, run by a client configured with the URL `base`, keeps that
configuration and appends to the log a list of requests that satisfies `P`. -/
def Sends {σ α : Type} (base : String) (P : List Request → Prop) (x : Prog σ α) : Prop :=
  ∀ s : Sys σ, s.auth.directusUrl = base →
    (x s).2.auth.directusUrl = base ∧ ∃ l, (x s).2.sent = s.sent ++ l ∧ P l

/-- A read: a `GET` request or the credential exchange. -/
def isRead (base : String) (r : Request) : Prop :=
  r.method = "GET" ∨ r.url = base ++ "/auth/login"

/-- A listing of the four required collections except `lessons`. -/
def lessonsMissingListing : JsVal :=
  .obj [("data", .arr [listingEntry "courses", listingEntry "problems",
    listingEntry "ai_prompts"])]

/-- A backend that accepts the key, answers the server-info read and lists the
required collections except `lessons`. -/
def lessonsMissingScript : Script :=
  { answers := [loginAnswer (.str "jwt-1"), okJson "" serverInfo, okJson "" lessonsMissingListing]
    clock := [1000] }

/-- Demo payloads reduced to the script's lessons and problems and one course. -/
def demoData : DemoData :=
  { courses := seedCourses, lessons := demoLessons, problems := demoProblems,
    aiPrompts := [.obj [("name", .str "Lesson Generation")]] }

/-- A listing of the four required collections. -/
def fullListing : JsVal :=
  .obj [("data", .arr [listingEntry "courses", listingEntry "lessons", listingEntry "problems",
    listingEntry "ai_prompts"])]

/-- A backend that accepts the key, answers the server-info read, lists the
four required collections, creates the courses and then fails the lesson
batch-create with status 500. -/
def lessonsFailScript : Script :=
  { answers := [loginAnswer (.str "jwt-1"), okJson "" serverInfo, okJson "" fullListing,
      okJson "" (.obj [("data", .arr seedCreatedCourses)]),
      .response { status := 500, text := "boom", json := none }]
    clock := [1000] }

/-- The child record refers to the parent record: the parent's `id` and the
child's foreign key `fk` are strictly equal. -/
def refersTo (child parent : JsVal) (fk : String) : Prop :=
  ∃ parentId childKey, parent.prop "id" = .ok parentId ∧ child.prop fk = .ok childKey ∧
    strictEq parentId childKey = true

/-- Two lessons, the second of which refers to a course that does not exist. -/
def orphanLessons : List JsVal :=
  [.obj [("id", .num 10), ("course_id", .num 1)], .obj [("id", .num 11), ("course_id", .num 2)]]

/-- A problem that refers to the lesson 10. -/
def linkedProblems : List JsVal := [.obj [("id", .num 100), ("lesson_id", .num 10)]]

/-- A client holding a fresh token in front of a backend that answers the four
fetches of `verifyRelationships`. -/
def relationsStart : Sys Script :=
  headerObtained
    [okJson "" (.obj [("data", .arr orphanLessons)]),
     okJson "" (.obj [("data", .arr seedCreatedCourses)]),
     okJson "" (.obj [("data", .arr linkedProblems)]),
     okJson "" (.obj [("data", .arr orphanLessons)])]


/-- A client holding a fresh token in front of a backend that answers the two
fetches of a collection holding the two records of `seedCreatedLessons`. -/
def twoHeldStart : Sys Script :=
  headerObtained
    [okJson "" (.obj [("data", .arr [.obj [("id", .num 10), ("name", .str "Introduction to Algebra")]])]),
     okJson "" (.obj [("data", .arr seedCreatedLessons)])]

/-- A client holding a fresh token in front of a backend that answers a fetch
with the empty list. -/
def noneHeldStart : Sys Script := headerObtained [okJson "" (.obj [("data", .arr [])])]

/-- A client holding a fresh token in front of a backend that answers a fetch
with status 500 and the text `boom`. -/
def fetchFailsStart : Sys Script :=
  headerObtained [.response { status := 500, text := "boom", json := none }]

/-- A backend that accepts the key, answers the server-info read and then fails
the collection listing with status 500. -/
def listingFailsScript : Script :=
  { answers := [loginAnswer (.str "jwt-1"), okJson "" serverInfo,
      .response { status := 500, text := "boom", json := none }]
    clock := [1000] }

/-- A backend that accepts the key, answers the server-info read, lists the
four required collections and then fails every fetch. -/
def itemsFailScript : Script :=
  { answers := [loginAnswer (.str "jwt-1"), okJson "" serverInfo, okJson "" fullListing]
    clock := [1000] }

/-! ## Backends that answer reads from their data -/

/-- A backend on which reads are pure, for clients configured with the URL
`base`; `data w` is the data it holds in state `w`.  Reading the clock and
answering a read (a `GET` request or the credential exchange) leave the data as
they are, and the answer to a read is determined by the request and the data. -/
structure ReadOnlyBackend {σ δ : Type} (W : World σ) (base : String) (data : σ → δ) : Prop where
  clock : ∀ w, data (W.now w).2 = data w
  keeps : ∀ r w, isRead base r → data (W.fetch r w).2 = data w
  answers : ∀ r w w1, isRead base r → data w = data w1 → (W.fetch r w).1 = (W.fetch r w1).1

/-- The outcome of `refreshToken` on the answer to its request. -/
def exchangeOutcome (answer : FetchResult) : Except JsError JsVal :=
  match answer with
  | .rejected m => .error (.fetchFailed m)
  | .response resp =>
    if resp.ok then accessTokenOf resp else .error (.error (authFailedMessage resp.status))

/-- The state `s` belongs to a client configured with `base` and `tok` in
front of a backend holding the data of `w0`, and a truthy token in its cache is
the token the backend issues on that data. -/
def CacheSound {σ δ : Type} (W : World σ) (data : σ → δ) (base tok : String) (w0 : σ)
    (s : Sys σ) : Prop :=
  data s.world = data w0 ∧ s.auth.directusUrl = base ∧ s.auth.accessToken = tok ∧
  (s.auth.jwtToken.truthy = true →
    exchangeOutcome (W.fetch (loginRequest (DirectusAuth.new base tok)) w0).1 =
      .ok s.auth.jwtToken)

/-- The program `x` gives one and the same result from every sound state on the
data of `w0`, and leaves a sound state on that data. -/
def Stable {σ δ α : Type} (W : World σ) (data : σ → δ) (base tok : String) (w0 : σ)
    (x : Prog σ α) : Prop :=
  ∃ r, ∀ s, CacheSound W data base tok w0 s →
    (x s).1 = r ∧ CacheSound W data base tok w0 (x s).2

/-! ## Teardown (`src/clean-collections.js`) -/

/-- The elements visited by `for (const item of items)`: the elements of an
array, the characters of a string; the other values are not iterable. -/
def iterate (items : JsVal) : Except JsError (List JsVal) :=
  match items with
  | .arr elements => .ok elements
  | .str s => .ok (s.toList.map (fun c => .str (String.singleton c)))
  | _ => .error .typeError

/-- One iteration of the loop of `cleanCollection`: `item.id` is read, the
item is deleted, and an error is caught by the handler, whose warning reads
`item.id` again. -/
def deleteAttempt {σ : Type} (W : World σ) (collectionName : String) (item : JsVal) :
    Prog σ Unit :=
  Prog.tryCatch
    (do
      let id ← Prog.lift (item.prop "id")
      deleteItem W collectionName id)
    (fun _ => do
      let _ ← Prog.lift (item.prop "id")
      pure ())

/-- The loop `for (const item of items)` of `cleanCollection`. -/
def deleteEach {σ : Type} (W : World σ) (collectionName : String) : List JsVal → Prog σ Unit
  | [] => pure ()
  | item :: rest => do
    deleteAttempt W collectionName item
    deleteEach W collectionName rest

/-- The function `cleanCollection(client, collectionName)`: the number it
returns. -/
def cleanCollection {σ : Type} (W : World σ) (collectionName : String) : Prog σ JsVal :=
  Prog.tryCatch
    (do
      let items ← getItems W collectionName []
      let len ← Prog.lift items.length
      if strictEq len (.num 0) then pure (.num 0)
      else do
        let elements ← Prog.lift (iterate items)
        deleteEach W collectionName elements
        pure len)
    (fun _ => pure (.num 0))

/-- The constant `order` of `main`. -/
def cleanOrder : List String := ["problems", "lessons", "courses", "ai_prompts"]

/-- A row of the table printed by the cleanup script. -/
structure CleanRow where
  collection : String
  deleted : JsVal
deriving DecidableEq

/-- The loop `for (const collectionName of order)` of `main`: the rows pushed
to `results`. -/
def cleanEach {σ : Type} (W : World σ) (collections : JsVal) : List String → Prog σ (List CleanRow)
  | [] => pure []
  | collectionName :: rest => do
    let present ← Prog.lift (hasCollection collections (.str collectionName))
    if present then do
      let deleted ← cleanCollection W collectionName
      let rows ← cleanEach W collections rest
      pure ({ collection := collectionName, deleted := deleted } :: rows)
    else cleanEach W collections rest

/-- The `try` block of `main`: the listing, then the loop. -/
def cleanRun {σ : Type} (W : World σ) : Prog σ (List CleanRow) := do
  let collections ← getCollections W
  cleanEach W collections cleanOrder

/-- How the cleanup script ends: the exit code, the world it leaves, the
requests it sent, and the table it printed, if it got that far. -/
structure CleanExit (σ : Type) where
  code : Nat
  world : σ
  sent : List Request
  report : Option (List CleanRow)

/-- The function `main` of `clean-collections.js`. -/
def cleanCollectionsMain {σ : Type} (W : World σ) (env : Env) (w : σ) : CleanExit σ :=
  match env.setupToken with
  | none => { code := 1, world := w, sent := [], report := none }
  | some accessToken =>
    if accessToken = "" then { code := 1, world := w, sent := [], report := none }
    else if env.confirmCleanup ≠ some "true" then
      { code := 0, world := w, sent := [], report := none }
    else
      match testConnection W (Sys.start w env.url accessToken) with
      | (.ok true, s1) =>
        match cleanRun W s1 with
        | (.ok rows, s2) => { code := 0, world := s2.world, sent := s2.sent, report := some rows }
        | (.error _, s2) => { code := 1, world := s2.world, sent := s2.sent, report := none }
      | (_, s1) => { code := 1, world := s1.world, sent := s1.sent, report := none }

/-- A request that asks the backend to delete a record of the collection `c`. -/
def isDeleteOf (base c : String) (r : Request) : Prop :=
  r.method = "DELETE" ∧ ∃ id : String, r.url = base ++ ("/api/items/" ++ c ++ "/" ++ id)

/-- A request of the cleanup of the collection `c`: it deletes nothing, or it
deletes a record of `c`. -/
def cleanStep (base c : String) (r : Request) : Prop :=
  r.method ≠ "DELETE" ∨ isDeleteOf base c r

/-- The list of requests `l` splits into consecutive segments, one for each of
the `names` in order, the segment of a name holding requests of the cleanup of
that collection only. -/
def Segmented (base : String) : List String → List Request → Prop
  | [], l => l = []
  | c :: rest, l => ∃ l1 l2, l = l1 ++ l2 ∧ (∀ r ∈ l1, cleanStep base c r) ∧ Segmented base rest l2

/-- The URLs of the `DELETE` requests of a log, in the order they were sent. -/
def deleteUrls (l : List Request) : List String :=
  (l.filter (fun r => r.method = "DELETE")).map (fun r => r.url)

/-- The request `x`, sent before the request `y`, respects the order `names`:
when `x` deletes a record of the collection at position `i` and `y` a record of
the collection at position `j`, then `i ≤ j`. -/
def InOrder (base : String) (names : List String) (x y : Request) : Prop :=
  ∀ (i j : Nat) (a b : String), names[i]? = some a → names[j]? = some b →
    isDeleteOf base a x → isDeleteOf base b y → i ≤ j

/-- The environment of a confirmed cleanup. -/
def cleanEnv : Env :=
  { directusUrl := none, setupToken := some "setup-key", confirmCleanup := some "true" }

/-- A backend that accepts the key, answers the server-info read, lists the
collections `lessons` and `problems`, holds the problems 100 and 101 and the
lesson 10, fails the first delete with status 500 and answers the other two. -/
def teardownScript : Script :=
  { answers := [loginAnswer (.str "jwt-1"), okJson "" serverInfo,
      okJson "" (.obj [("data", .arr [listingEntry "lessons", listingEntry "problems"])]),
      okJson "" (.obj [("data", .arr [.obj [("id", .num 100)], .obj [("id", .num 101)]])]),
      .response { status := 500, text := "boom", json := none },
      okJson "" (.obj []),
      okJson "" (.obj [("data", .arr [.obj [("id", .num 10)]])]),
      okJson "" (.obj [])]
    clock := [1000] }

/-- The value `item.id` of a fetched record (`undefined` where the read
raises). -/
def idOf (item : JsVal) : JsVal :=
  match item.prop "id" with
  | .ok v => v
  | .error _ => .undefined

/-- The URL of the request that deletes `item` from the collection `c`. -/
def deleteUrl (base c : String) (item : JsVal) : String :=
  base ++ ("/api/items/" ++ c ++ "/" ++ (idOf item).toStr)

/-- A backend that holds the records 1 and 2 in every collection, issues the
token `jwt-1` and fails every delete with status 500. -/
def deleteFailsSim : World Unit where
  fetch := fun r _ =>
    if r.method = "DELETE" then (.response { status := 500, text := "boom", json := none }, ())
    else if r.method = "GET" then
      (okJson "" (.obj [("data", .arr [.obj [("id", .num 1)], .obj [("id", .num 2)]])]), ())
    else (loginAnswer (.str "jwt-1"), ())
  now := fun _ => (0, ())

/-- Three created records, the first and the last of which carry the same
name. -/
def duplicateCreated : List JsVal :=
  [.obj [("id", .num 1), ("name", .str "Algebra")],
   .obj [("id", .num 2), ("name", .str "Geometry")],
   .obj [("id", .num 3), ("name", .str "Algebra")]]

/-- A backend that accepts the key and then fails the server-info read with
status 503. -/
def unreachableScript : Script :=
  { answers := [loginAnswer (.str "jwt-1"),
      .response { status := 503, text := "down", json := none }]
    clock := [1000] }

/-- An environment without access key and without confirmation. -/
def bareEnv : Env := { directusUrl := none, setupToken := none, confirmCleanup := none }

/-- An environment with the access key and a confirmation that is not the
string `true`. -/
def unconfirmedEnv : Env :=
  { directusUrl := none, setupToken := some "setup-key", confirmCleanup := some "yes" }

/-! ## Orchestrator (`src/main.js`) -/

/-- How a child process started by `runScript` ends: the `close` event with the
exit code (none when a signal ended the process) or the `error` event. -/
inductive ChildEnd where
  | closed (code : Option Nat)
  | failed (message : String)
deriving DecidableEq

/-- The promise of `runScript` resolves: the child closed with `code === 0`. -/
def ChildEnd.resolves : ChildEnd → Bool
  | .closed (some 0) => true
  | _ => false

/-- How the orchestrator ends: the exit code, the world it leaves, the requests
it sent itself, and the scripts it launched, in launch order. -/
structure SetupExit (σ : Type) where
  code : Nat
  world : σ
  sent : List Request
  launched : List String

/-- The function `main` of `main.js`.  `spawn name w` is the run of the child
process `node <name>.js` from the world `w`: how it ends and the world it
leaves; the orchestrator awaits each child before it goes on. -/
def setupMain {σ : Type} (W : World σ) (spawn : String → σ → ChildEnd × σ) (env : Env) (w : σ) :
    SetupExit σ :=
  match env.setupToken with
  | none => { code := 1, world := w, sent := [], launched := [] }
  | some accessToken =>
    if accessToken = "" then { code := 1, world := w, sent := [], launched := [] }
    else
      match testConnection W (Sys.start w env.url accessToken) with
      | (.ok true, s1) =>
        match spawn "create-collections" s1.world with
        | (_, w1) =>
          match spawn "populate-data" w1 with
          | (populated, w2) =>
            if populated.resolves then
              match spawn "verify-setup" w2 with
              | (_, w3) =>
                { code := 0, world := w3, sent := s1.sent,
                  launched := ["create-collections", "populate-data", "verify-setup"] }
            else
              { code := 1, world := w2, sent := s1.sent,
                launched := ["create-collections", "populate-data"] }
      | (_, s1) => { code := 1, world := s1.world, sent := s1.sent, launched := [] }

/-- Child processes on the simulated backend `directusSim`: `create-collections`
and `verify-setup` end with exit code 1, `populate-data` ends with the given
code and adds the collection `seeded`. -/
def demoSpawn (populateCode : Nat) (name : String) (cols : List String) :
    ChildEnd × List String :=
  if name = "populate-data" then (.closed (some populateCode), cols ++ ["seeded"])
  else (.closed (some 1), cols)

/-! ## Backends that hold records -/

/-- The records of the collection `c` that remain of `h c` once the delete
requests with the URLs `urls` have been carried out. -/
def afterDeletes (base : String) (h : String → List JsVal) (urls : List String) (c : String) :
    List JsVal :=
  (h c).filter (fun item => decide (deleteUrl base c item ∉ urls))

/-- A backend on which every request of the cleanup succeeds, for clients
configured with the URL `base`; `held w c` lists the records the collection `c`
holds in state `w`.  Reading the clock and answering a read (a `GET` request or
the credential exchange) leave the records as they are; the credential exchange
and the server-info read succeed; the listing shows the four collections of the
order; `GET /api/items/<c>` returns the records held by `c`; and a `DELETE`
request gets a success status and removes exactly the records whose delete URL
it names. -/
structure ItemStore {σ : Type} (W : World σ) (base : String)
    (held : σ → String → List JsVal) : Prop where
  clock : ∀ w, held (W.now w).2 = held w
  reads : ∀ r w, r.method = "GET" ∨ (r.method = "POST" ∧ r.url = base ++ "/auth/login") →
    held (W.fetch r w).2 = held w
  login : ∀ (a : DirectusAuth) w, a.directusUrl = base →
    ∃ resp token, (W.fetch (loginRequest a) w).1 = .response resp ∧ resp.ok = true ∧
      accessTokenOf resp = .ok token
  info : ∀ (a : DirectusAuth) headers w, a.directusUrl = base →
    ∃ resp body d directus v,
      (W.fetch (apiRequest a "GET" "/api/server/info" headers .null) w).1 = .response resp ∧
      resp.ok = true ∧ resp.json = some body ∧ body.prop "data" = .ok d ∧
      d.prop "directus" = .ok directus ∧ directus.prop "version" = .ok v
  listing : ∀ (a : DirectusAuth) headers w, a.directusUrl = base →
    ∃ resp body entries,
      (W.fetch (apiRequest a "GET" "/api/collections" headers .null) w).1 = .response resp ∧
      resp.ok = true ∧ resp.json = some body ∧ body.prop "data" = .ok (.arr entries) ∧
      ∀ c ∈ cleanOrder, hasCollection (.arr entries) (.str c) = .ok true
  items : ∀ (a : DirectusAuth) headers w c, a.directusUrl = base → c ∈ cleanOrder →
    ∃ resp body,
      (W.fetch (apiRequest a "GET" ("/api/items/" ++ c) headers .null) w).1 = .response resp ∧
      resp.ok = true ∧ resp.json = some body ∧ body.prop "data" = .ok (.arr (held w c))
  delete : ∀ (a : DirectusAuth) headers w path, a.directusUrl = base →
    (∃ resp, (W.fetch (apiRequest a "DELETE" path headers .null) w).1 = .response resp ∧
      resp.ok = true) ∧
    ∀ c, held (W.fetch (apiRequest a "DELETE" path headers .null) w).2 c =
      (held w c).filter (fun item => decide (deleteUrl base c item ≠ base ++ path))

/-- A property `G` of the states of the backend that is kept by reading the
clock, and by every request that leaves records satisfying `Good`. -/
structure Ghost {σ : Type} (W : World σ) (held : σ → String → List JsVal) (G : σ → Prop)
    (Good : (String → List JsVal) → Prop) : Prop where
  clock : ∀ w, G w → G (W.now w).2
  fetch : ∀ r w, G w → Good (held (W.fetch r w).2) → G (W.fetch r w).2

/-- The state `s` of a cleanup that started on the records `h0`: the client is
configured with `base`, the records held are those of `h0` that the delete
requests sent so far have not named, they satisfy `Good`, and the state of the
backend satisfies `G`. -/
def StoreInv {σ : Type} (held : σ → String → List JsVal) (base : String)
    (h0 : String → List JsVal) (G : σ → Prop) (Good : (String → List JsVal) → Prop)
    (s : Sys σ) : Prop :=
  s.auth.directusUrl = base ∧ G s.world ∧
    held s.world = afterDeletes base h0 (deleteUrls s.sent) ∧ Good (held s.world)

/-- The outcome of `request` on the answer to its request. -/
def fetchOutcome (answer : FetchResult) : Except JsError JsVal :=
  match answer with
  | .rejected m => .error (.fetchFailed m)
  | .response resp => responseOutcome resp

/-- The URLs of the delete requests for the records `h c` of the collections
`names`, collection by collection. -/
def deleteTargets (base : String) (h : String → List JsVal) (names : List String) : List String :=
  names.flatMap (fun c => (h c).map (deleteUrl base c))

/-- The rows printed for the collections `names` when every record of `h` is
counted. -/
def fullRows (h : String → List JsVal) (names : List String) : List CleanRow :=
  names.map (fun c => { collection := c, deleted := .num (h c).length })

/-! ## A simulated backend that holds records -/

/-- The records of a simulated backend, collection by collection. -/
structure Store where
  problems : List JsVal
  lessons : List JsVal
  courses : List JsVal
  prompts : List JsVal
deriving DecidableEq

/-- The records the simulated backend holds in the collection `c`. -/
def Store.held (st : Store) (c : String) : List JsVal :=
  if c = "problems" then st.problems
  else if c = "lessons" then st.lessons
  else if c = "courses" then st.courses
  else if c = "ai_prompts" then st.prompts
  else []

/-- The URL the simulated backend is served at. -/
def simBase : String := "http://localhost:8055"

/-- The store without the records whose delete URL is `url`. -/
def Store.remove (st : Store) (url : String) : Store :=
  { problems := st.problems.filter (fun item => decide (deleteUrl simBase "problems" item ≠ url))
    lessons := st.lessons.filter (fun item => decide (deleteUrl simBase "lessons" item ≠ url))
    courses := st.courses.filter (fun item => decide (deleteUrl simBase "courses" item ≠ url))
    prompts := st.prompts.filter (fun item => decide (deleteUrl simBase "ai_prompts" item ≠ url)) }

/-- A simulated backend that holds records: it issues the token `jwt-1`,
answers the server-info read, lists the four collections, returns the records
of a collection on `GET /api/items/<collection>`, and on `DELETE` removes the
records the URL names, except for the URLs in `failing`, which it answers with
status 500 and leaves in place.  The clock always reads 0. -/
def itemSim (failing : List String) : World Store where
  fetch := fun r st =>
    if r.method = "DELETE" then
      if r.url ∈ failing then (.response { status := 500, text := "boom", json := none }, st)
      else (okJson "" (.obj []), st.remove r.url)
    else if r.method = "GET" then
      if r.url = simBase ++ "/api/items/problems" then
        (okJson "" (.obj [("data", .arr st.problems)]), st)
      else if r.url = simBase ++ "/api/items/lessons" then
        (okJson "" (.obj [("data", .arr st.lessons)]), st)
      else if r.url = simBase ++ "/api/items/courses" then
        (okJson "" (.obj [("data", .arr st.courses)]), st)
      else if r.url = simBase ++ "/api/items/ai_prompts" then
        (okJson "" (.obj [("data", .arr st.prompts)]), st)
      else if r.url = simBase ++ "/api/collections" then (okJson "" fullListing, st)
      else (okJson "" serverInfo, st)
    else (loginAnswer (.str "jwt-1"), st)
  now := fun st => (0, st)

/-- The backend `W` observed: the state keeps, next to the state of `W`, the
list of the states `W` was left in by the requests answered so far, oldest
first. -/
def recording {σ : Type} (W : World σ) : World (σ × List σ) where
  fetch := fun r st =>
    ((W.fetch r st.1).1, ((W.fetch r st.1).2, st.2 ++ [(W.fetch r st.1).2]))
  now := fun st => ((W.now st.1).1, ((W.now st.1).2, st.2))

/-- Referential integrity of the records `h`: every lesson refers to a course
held and every problem to a lesson held. -/
def Integrity (h : String → List JsVal) : Prop :=
  (∀ lesson ∈ h "lessons", ∃ course ∈ h "courses", refersTo lesson course "course_id") ∧
  (∀ problem ∈ h "problems", ∃ lesson ∈ h "lessons", refersTo problem lesson "lesson_id")

/-- A store with 2 problems, 2 lessons, 4 courses and 3 prompts; the lessons
refer to the course 1 and the problems to the lesson 10. -/
def demoStore : Store :=
  { problems := [.obj [("id", .num 100), ("lesson_id", .num 10)],
                 .obj [("id", .num 101), ("lesson_id", .num 10)]]
    lessons := [.obj [("id", .num 10), ("course_id", .num 1)],
                .obj [("id", .num 11), ("course_id", .num 1)]]
    courses := [.obj [("id", .num 1)], .obj [("id", .num 2)], .obj [("id", .num 3)],
                .obj [("id", .num 4)]]
    prompts := [.obj [("id", .num 7)], .obj [("id", .num 8)], .obj [("id", .num 9)]] }

/-- A store with one lesson that refers to the one course. -/
def orphanStore : Store :=
  { problems := []
    lessons := [.obj [("id", .num 10), ("course_id", .num 1)]]
    courses := [.obj [("id", .num 1)]]
    prompts := [] }


/-! # Theorems -/


/-! ## Evaluation lemmas -/

@[simp] theorem Prog.bind_run {σ α β : Type} (x : Prog σ α) (f : α → Prog σ β) (s : Sys σ) :
    (x >>= f) s = match x s with
      | (.ok a, s1) => f a s1
      | (.error e, s1) => (.error e, s1) := rfl

@[simp] theorem Prog.pure_run {σ α : Type} (a : α) (s : Sys σ) :
    (pure a : Prog σ α) s = (.ok a, s) := rfl

theorem Prog.tryCatch_rethrow {σ α : Type} (x : Prog σ α) :
    Prog.tryCatch x (fun error => Prog.throw error) = x := by
  funext s
  unfold Prog.tryCatch Prog.throw
  rcases h : x s with ⟨r, s1⟩
  cases r <;> rfl

/-- The validity check fails without reading the clock when no token is cached. -/
theorem tokenStillValid_no_token {σ : Type} (W : World σ) (s : Sys σ)
    (h : s.auth.jwtToken.truthy = false) : tokenStillValid W s = (.ok false, s) := by
  simp [tokenStillValid, getAuth, h, pure, Prog.pure]

theorem tokenStillValid_no_expiry {σ : Type} (W : World σ) (s : Sys σ)
    (h : s.auth.tokenExpiry = none) : tokenStillValid W s = (.ok false, s) := by
  cases ht : s.auth.jwtToken.truthy <;> simp [tokenStillValid, getAuth, h, ht, pure, Prog.pure]

theorem tokenStillValid_read {σ : Type} (W : World σ) (s : Sys σ) (e : Nat)
    (ht : s.auth.jwtToken.truthy = true) (he : s.auth.tokenExpiry = some e) (h0 : e ≠ 0) :
    tokenStillValid W s =
      (.ok (decide ((W.now s.world).1 < e)), { s with world := (W.now s.world).2 }) := by
  simp [tokenStillValid, getAuth, he, ht, h0, dateNow, pure, Prog.pure]

theorem getToken_of_check {σ : Type} (W : World σ) (s s1 : Sys σ) (b : Bool)
    (h : tokenStillValid W s = (.ok b, s1)) :
    getToken W s = if b then (.ok s1.auth.jwtToken, s1) else refreshToken W s1 := by
  cases b <;> simp [getToken, h, getAuth, pure, Prog.pure]



/-- A closed form of `refreshToken`, by cases on the answer to the exchange. -/
theorem refreshToken_eq {σ : Type} (W : World σ) (s : Sys σ) :
    refreshToken W s =
      match W.fetch (loginRequest s.auth) s.world with
      | (.rejected m, w) => (.error (.fetchFailed m), afterLogin s w)
      | (.response resp, w) =>
        if resp.ok then
          match accessTokenOf resp with
          | .error e => (.error e, afterLogin s w)
          | .ok token =>
            (.ok token,
              { world := (W.now w).2
                sent := s.sent ++ [loginRequest s.auth]
                auth := { s.auth with jwtToken := token, tokenExpiry := some ((W.now w).1 + 600000) } })
        else (.error (.error (authFailedMessage resp.status)), afterLogin s w) := by
  rw [refreshToken, Prog.tryCatch_rethrow]
  simp only [Prog.bind_run, getAuth, doFetch]
  rcases hf : W.fetch (loginRequest s.auth) s.world with ⟨r, w⟩
  cases r with
  | rejected m => simp [afterLogin]
  | response resp =>
    cases hok : resp.ok
    · simp [afterLogin, Prog.throw, hok]
    · simp only [accessTokenOf, Response.parse]
      cases hj : resp.json with
      | none => simp [afterLogin, Prog.lift, bind, Except.bind, Prog.bind, hok]
      | some body =>
        cases hd : body.prop "data" with
        | error e => simp [afterLogin, Prog.lift, hd, bind, Except.bind, Prog.bind, hok]
        | ok payload =>
          cases ha : payload.prop "access_token" with
          | error e => simp [afterLogin, Prog.lift, hd, ha, bind, Except.bind, Prog.bind, hok]
          | ok token =>
            simp [afterLogin, Prog.lift, hd, ha, bind, Except.bind, setJwtToken, dateNow,
              setTokenExpiry, pure, Prog.pure, Prog.bind, Except.pure, hok, getAuth]



/-- Calls answered from the cache: a truthy token and an expiry that every
clock reading stays below. -/
theorem getTokenTimes_cached {σ : Type} (W : World σ) (tok : JsVal) (e : Nat)
    (htok : tok.truthy = true) (he0 : e ≠ 0) :
    ∀ (n : Nat) (s : Sys σ), s.auth.jwtToken = tok → s.auth.tokenExpiry = some e →
      (∀ k, k < n → (W.now (idle W k s.world)).1 < e) →
      getTokenTimes W n s = (.ok (List.replicate n tok), { s with world := idle W n s.world }) := by
  intro n
  induction n with
  | zero => intro s _ _ _; rfl
  | succ n ih =>
    intro s hj he hwin
    have h0 : (W.now s.world).1 < e := hwin 0 (Nat.succ_pos n)
    have hcheck := tokenStillValid_read W s e (hj ▸ htok) he he0
    have hget : getToken W s = (.ok tok, { s with world := (W.now s.world).2 }) := by
      rw [getToken_of_check W s _ _ hcheck]
      simp [h0, hj]
    have hrest := ih { s with world := (W.now s.world).2 } hj he
      (fun k hk => by simpa [idle] using hwin (k + 1) (Nat.succ_lt_succ hk))
    simp only [getTokenTimes, Prog.bind_run, hget, hrest]
    simp [pure, Prog.pure, List.replicate, idle]

/-- C1 (amended): a refresh that stored a truthy token at clock reading `t` is
followed by cache hits only: any number of `getToken` calls whose clock
readings stay below `t + 600000` return that same token and send nothing, so
the calls made from an empty cache send exactly one login request in total. -/
theorem getToken_cached_until_expiry {σ : Type} (W : World σ) (s0 s1 : Sys σ) (tok : JsVal)
    (hrefresh : refreshToken W s0 = (.ok tok, s1)) (htok : tok.truthy = true) :
    ∃ t w, W.now w = (t, s1.world) ∧ s1.auth.jwtToken = tok ∧
      s1.auth.tokenExpiry = some (t + 600000) ∧
      s1.sent = s0.sent ++ [loginRequest s0.auth] ∧
      ∀ n, (∀ k, k < n → (W.now (idle W k s1.world)).1 < t + 600000) →
        getTokenTimes W n s1 =
            (.ok (List.replicate n tok), { s1 with world := idle W n s1.world }) ∧
        (s0.auth.jwtToken = .null →
          getTokenTimes W (n + 1) s0 =
            (.ok (List.replicate (n + 1) tok), { s1 with world := idle W n s1.world })) := by
  rw [refreshToken_eq] at hrefresh
  rcases hf : W.fetch (loginRequest s0.auth) s0.world with ⟨r, w⟩
  rw [hf] at hrefresh
  cases r with
  | rejected m => simp at hrefresh
  | response resp =>
    cases hok : resp.ok
    · simp [hok] at hrefresh
    · cases ha : accessTokenOf resp with
      | error e => simp [hok, ha] at hrefresh
      | ok token =>
        simp only [hok, ha, if_true, Prod.mk.injEq, Except.ok.injEq] at hrefresh
        obtain ⟨h1, h2⟩ := hrefresh
        subst h1
        subst h2
        refine ⟨(W.now w).1, w, rfl, rfl, rfl, rfl, ?_⟩
        intro n hwin
        have hcached := getTokenTimes_cached W token ((W.now w).1 + 600000) htok (by omega) n
          { world := (W.now w).2
            sent := s0.sent ++ [loginRequest s0.auth]
            auth := { s0.auth with jwtToken := token, tokenExpiry := some ((W.now w).1 + 600000) } }
          rfl rfl hwin
        refine ⟨hcached, ?_⟩
        intro hnull
        have hcheck : tokenStillValid W s0 = (.ok false, s0) :=
          tokenStillValid_no_token W s0 (by rw [hnull]; rfl)
        have hget : getToken W s0 = (.ok token,
            { world := (W.now w).2
              sent := s0.sent ++ [loginRequest s0.auth]
              auth := { s0.auth with jwtToken := token, tokenExpiry := some ((W.now w).1 + 600000) } }) := by
          rw [getToken_of_check W s0 _ _ hcheck]
          simp [refreshToken_eq, hf, hok, ha]
        simp only [getTokenTimes, Prog.bind_run, hget, hcached]
        simp [pure, Prog.pure, List.replicate]



/-- A run with the token `jwt-1` issued at clock reading 1000: the calls that
follow are answered from the cache. -/
theorem getToken_cached_until_expiry_witness :
    ∃ t w, scripted.now w = (t, cacheDemoAfter.world) ∧ cacheDemoAfter.auth.jwtToken = .str "jwt-1" ∧
      cacheDemoAfter.auth.tokenExpiry = some (t + 600000) ∧
      cacheDemoAfter.sent = cacheDemoStart.sent ++ [loginRequest cacheDemoStart.auth] ∧
      ∀ n, (∀ k, k < n → (scripted.now (idle scripted k cacheDemoAfter.world)).1 < t + 600000) →
        getTokenTimes scripted n cacheDemoAfter =
            (.ok (List.replicate n (.str "jwt-1")),
              { cacheDemoAfter with world := idle scripted n cacheDemoAfter.world }) ∧
        (cacheDemoStart.auth.jwtToken = .null →
          getTokenTimes scripted (n + 1) cacheDemoStart =
            (.ok (List.replicate (n + 1) (.str "jwt-1")),
              { cacheDemoAfter with world := idle scripted n cacheDemoAfter.world })) :=
  getToken_cached_until_expiry scripted cacheDemoStart cacheDemoAfter (.str "jwt-1") rfl rfl

/-- A backend whose login answer carries the empty string as token: the refresh
succeeds at clock reading 0 and sets the expiry to 600000, yet the next call,
made at reading 0, sends the login request again, and two calls from the empty
cache send two login requests. -/
theorem getToken_blank_token_exchanged_again :
    (refreshToken scripted blankTokenStart).1 = .ok (.str "") ∧
    (refreshToken scripted blankTokenStart).2.auth.tokenExpiry = some (0 + 600000) ∧
    (scripted.now (refreshToken scripted blankTokenStart).2.world).1 < 0 + 600000 ∧
    (getToken scripted (refreshToken scripted blankTokenStart).2).2.sent =
      (refreshToken scripted blankTokenStart).2.sent ++ [loginRequest blankTokenStart.auth] ∧
    ((getTokenTimes scripted 2 blankTokenStart).2.sent).length = 2 :=
  ⟨rfl, rfl, by decide, rfl, rfl⟩

/-- A refresh sends the login request, once, whatever the answer. -/
theorem refreshToken_sent {σ : Type} (W : World σ) (s : Sys σ) :
    (refreshToken W s).2.sent = s.sent ++ [loginRequest s.auth] := by
  rw [refreshToken_eq]
  rcases W.fetch (loginRequest s.auth) s.world with ⟨r, w⟩
  cases r with
  | rejected m => rfl
  | response resp =>
    cases hok : resp.ok
    · simp [afterLogin, hok]
    · cases ha : accessTokenOf resp <;> simp [afterLogin, hok, ha]

/-- C2: whenever no token is cached, no expiry is tracked, or the clock has
reached the tracked expiry, `getToken` does not answer from the cache: it sends
exactly one login request, and a token it returns is the `access_token` of the
answer to that request (otherwise it raises). -/
theorem getToken_stale_exchanges {σ : Type} (W : World σ) (s : Sys σ)
    (hstale : s.auth.jwtToken.truthy = false ∨ s.auth.tokenExpiry = none ∨
      ∃ e, s.auth.tokenExpiry = some e ∧ e ≤ (W.now s.world).1) :
    (tokenStillValid W s).1 = .ok false ∧
    ((tokenStillValid W s).2 = s ∨
      (tokenStillValid W s).2 = { s with world := (W.now s.world).2 }) ∧
    getToken W s = refreshToken W (tokenStillValid W s).2 ∧
    (getToken W s).2.sent = s.sent ++ [loginRequest s.auth] ∧
    ∀ tok s2, getToken W s = (.ok tok, s2) →
      ∃ resp, (W.fetch (loginRequest s.auth) (tokenStillValid W s).2.world).1 = .response resp ∧
        resp.ok = true ∧ accessTokenOf resp = .ok tok ∧ s2.auth.jwtToken = tok := by
  have hcheck : ∃ s1, tokenStillValid W s = (.ok false, s1) ∧
      (s1 = s ∨ s1 = { s with world := (W.now s.world).2 }) := by
    cases ht : s.auth.jwtToken.truthy with
    | false => exact ⟨s, tokenStillValid_no_token W s ht, Or.inl rfl⟩
    | true =>
      cases he : s.auth.tokenExpiry with
      | none => exact ⟨s, tokenStillValid_no_expiry W s he, Or.inl rfl⟩
      | some e =>
        rcases hstale with h | h | ⟨e1, h1, h2⟩
        · rw [ht] at h; cases h
        · rw [he] at h; cases h
        · rw [he] at h1
          cases h1
          by_cases h0 : e = 0
          · refine ⟨s, ?_, Or.inl rfl⟩
            simp [tokenStillValid, getAuth, he, ht, h0, pure, Prog.pure]
          · refine ⟨_, ?_, Or.inr rfl⟩
            rw [tokenStillValid_read W s e ht he h0]
            simp [Nat.not_lt.mpr h2]
  obtain ⟨s1, hs1, hcase⟩ := hcheck
  have hget : getToken W s = refreshToken W s1 := by
    rw [getToken_of_check W s s1 false hs1]; rfl
  have hauth : s1.auth = s.auth := by rcases hcase with h | h <;> rw [h]
  have hsent : s1.sent = s.sent := by rcases hcase with h | h <;> rw [h]
  rw [hs1]
  refine ⟨rfl, hcase, hget, ?_, ?_⟩
  · rw [hget, refreshToken_sent, hauth, hsent]
  · intro tok s2 hrun
    rw [hget, refreshToken_eq, hauth] at hrun
    rcases hf : W.fetch (loginRequest s.auth) s1.world with ⟨r, w⟩
    rw [hf] at hrun
    cases r with
    | rejected m => simp at hrun
    | response resp =>
      cases hok : resp.ok
      · simp [hok] at hrun
      · cases ha : accessTokenOf resp with
        | error e => simp [hok, ha] at hrun
        | ok token =>
          simp only [hok, ha, if_true, Prod.mk.injEq, Except.ok.injEq] at hrun
          obtain ⟨h1, h2⟩ := hrun
          subst h1
          exact ⟨resp, rfl, hok, ha, by rw [← h2]⟩

/-- The empty cache of `cacheDemoStart` is stale. -/
theorem getToken_stale_exchanges_witness :
    (tokenStillValid scripted cacheDemoStart).1 = .ok false ∧
    ((tokenStillValid scripted cacheDemoStart).2 = cacheDemoStart ∨
      (tokenStillValid scripted cacheDemoStart).2 =
        { cacheDemoStart with world := (scripted.now cacheDemoStart.world).2 }) ∧
    getToken scripted cacheDemoStart =
      refreshToken scripted (tokenStillValid scripted cacheDemoStart).2 ∧
    (getToken scripted cacheDemoStart).2.sent =
      cacheDemoStart.sent ++ [loginRequest cacheDemoStart.auth] ∧
    ∀ tok s2, getToken scripted cacheDemoStart = (.ok tok, s2) →
      ∃ resp, (scripted.fetch (loginRequest cacheDemoStart.auth)
          (tokenStillValid scripted cacheDemoStart).2.world).1 = .response resp ∧
        resp.ok = true ∧ accessTokenOf resp = .ok tok ∧ s2.auth.jwtToken = tok :=
  getToken_stale_exchanges scripted cacheDemoStart (Or.inl rfl)

/-- C3: when the exchange endpoint answers with a non-success status,
`refreshToken` raises the error whose message carries that status after that
one request, and so does `getToken` whenever its validity check fails (empty or
expired cache); the cache is left as it was and nothing is sent again. -/
theorem refreshToken_rejected_status {σ : Type} (W : World σ) (s : Sys σ) (resp : Response)
    (w : σ) (hfetch : W.fetch (loginRequest s.auth) s.world = (.response resp, w))
    (hbad : resp.ok = false) :
    refreshToken W s =
      (.error (.error ("Authentication failed: " ++ toString resp.status ++
          ". Check your access token and Directus URL.")),
        { s with world := w, sent := s.sent ++ [loginRequest s.auth] }) ∧
    ∀ s0, tokenStillValid W s0 = (.ok false, s) →
      getToken W s0 =
        (.error (.error ("Authentication failed: " ++ toString resp.status ++
            ". Check your access token and Directus URL.")),
          { s with world := w, sent := s.sent ++ [loginRequest s.auth] }) := by
  have h : refreshToken W s =
      (.error (.error ("Authentication failed: " ++ toString resp.status ++
          ". Check your access token and Directus URL.")),
        { s with world := w, sent := s.sent ++ [loginRequest s.auth] }) := by
    rw [refreshToken_eq, hfetch]
    simp [hbad, afterLogin, authFailedMessage]
  refine ⟨h, ?_⟩
  intro s0 hcheck
  rw [getToken_of_check W s0 s false hcheck]
  simpa using h

/-- A login answered with status 401. -/
theorem refreshToken_rejected_status_witness :
    refreshToken scripted rejectedLoginStart =
      (.error (.error "Authentication failed: 401. Check your access token and Directus URL."),
        { rejectedLoginStart with
          world := { answers := [], clock := [] }
          sent := rejectedLoginStart.sent ++ [loginRequest rejectedLoginStart.auth] }) ∧
    ∀ s0, tokenStillValid scripted s0 = (.ok false, rejectedLoginStart) →
      getToken scripted s0 =
        (.error (.error "Authentication failed: 401. Check your access token and Directus URL."),
          { rejectedLoginStart with
            world := { answers := [], clock := [] }
            sent := rejectedLoginStart.sent ++ [loginRequest rejectedLoginStart.auth] }) :=
  refreshToken_rejected_status scripted rejectedLoginStart
    { status := 401, text := "Unauthorized", json := none } { answers := [], clock := [] } rfl rfl

/-! ## Request layer -/

/-- A closed form of `request`: the header is obtained, the request is sent
once, and the response decides the outcome. -/
theorem request_eq {σ : Type} (W : World σ) (method path : String) (data : JsVal) (s : Sys σ) :
    request W method path data s =
      match getAuthHeader W s with
      | (.error e, s1) => (.error e, s1)
      | (.ok headers, s1) =>
        match W.fetch (apiRequest s1.auth method path headers data) s1.world with
        | (.rejected m, w) =>
          (.error (.fetchFailed m), afterSend s1 (apiRequest s1.auth method path headers data) w)
        | (.response resp, w) =>
          (responseOutcome resp, afterSend s1 (apiRequest s1.auth method path headers data) w) := by
  simp only [request, Prog.bind_run, Prog.tryCatch_rethrow]
  rcases getAuthHeader W s with ⟨r, s1⟩
  cases r with
  | error e => rfl
  | ok headers =>
    simp only [getAuth, doFetch]
    rcases W.fetch (apiRequest s1.auth method path headers data) s1.world with ⟨fr, w⟩
    cases fr with
    | rejected m => rfl
    | response resp =>
      simp only [responseOutcome, afterSend]
      by_cases h3 : resp.status = 403
      · simp [h3, Prog.throw]
      · by_cases h1 : resp.status = 401
        · simp [h1, Prog.throw]
        · cases hok : resp.ok <;> simp [h3, h1, hok, Prog.throw, Prog.lift]

/-- A message that starts with `HTTP ` differs from any text that does not
start with `H`. -/
theorem http_message_ne (a b m : String) (hm : m.data.head? ≠ some 'H') :
    "HTTP " ++ a ++ ": " ++ b ≠ m := by
  intro h
  apply hm
  rw [← h]
  simp [String.data_append]

/-- The state after `getToken` has sent nothing, or the one login request. -/
theorem getToken_sent {σ : Type} (W : World σ) (s : Sys σ) :
    (getToken W s).2.sent = s.sent ∨ (getToken W s).2.sent = s.sent ++ [loginRequest s.auth] := by
  have hcheck : ∃ b s1, tokenStillValid W s = (.ok b, s1) ∧ s1.sent = s.sent ∧ s1.auth = s.auth := by
    cases ht : s.auth.jwtToken.truthy with
    | false => exact ⟨false, s, tokenStillValid_no_token W s ht, rfl, rfl⟩
    | true =>
      cases he : s.auth.tokenExpiry with
      | none => exact ⟨false, s, tokenStillValid_no_expiry W s he, rfl, rfl⟩
      | some e =>
        by_cases h0 : e = 0
        · refine ⟨false, s, ?_, rfl, rfl⟩
          simp [tokenStillValid, getAuth, he, ht, h0, pure, Prog.pure]
        · exact ⟨_, _, tokenStillValid_read W s e ht he h0, rfl, rfl⟩
  obtain ⟨b, s1, hs1, hsent, hauth⟩ := hcheck
  rw [getToken_of_check W s s1 b hs1]
  cases b with
  | true => left; simpa using hsent
  | false => right; simp [refreshToken_sent, hsent, hauth]

theorem getAuthHeader_sent {σ : Type} (W : World σ) (s s1 : Sys σ)
    (headers : List (String × String)) (h : getAuthHeader W s = (.ok headers, s1)) :
    s1.sent = s.sent ∨ s1.sent = s.sent ++ [loginRequest s.auth] := by
  have hs := getToken_sent W s
  simp only [getAuthHeader, Prog.bind_run] at h
  rcases hg : getToken W s with ⟨r, s2⟩
  rw [hg] at h hs
  cases r with
  | error e => simp at h
  | ok tok =>
    simp only [pure, Prog.pure, Prod.mk.injEq] at h
    rw [← h.2]
    exact hs

/-- C4: on a response with status 403 `request` raises `Insufficient
permissions`, on 401 `Invalid token`, on any other status outside 200-299 the
error `HTTP <status>: <body text>`; the three messages are pairwise different,
and the failure is raised after the request has been sent exactly once (after
at most one login request made to obtain the header). -/
theorem request_failure_classes {σ : Type} (W : World σ) (method path : String) (data : JsVal)
    (s s1 : Sys σ) (headers : List (String × String)) (resp : Response) (w : σ)
    (hauth : getAuthHeader W s = (.ok headers, s1))
    (hfetch : W.fetch (apiRequest s1.auth method path headers data) s1.world = (.response resp, w)) :
    (resp.status = 403 →
      request W method path data s =
        (.error (.error "Insufficient permissions"),
          { s1 with world := w
                    sent := s1.sent ++ [apiRequest s1.auth method path headers data] })) ∧
    (resp.status = 401 →
      request W method path data s =
        (.error (.error "Invalid token"),
          { s1 with world := w
                    sent := s1.sent ++ [apiRequest s1.auth method path headers data] })) ∧
    (resp.status ≠ 401 → resp.status ≠ 403 → resp.ok = false →
      request W method path data s =
        (.error (.error ("HTTP " ++ toString resp.status ++ ": " ++ resp.text)),
          { s1 with world := w
                    sent := s1.sent ++ [apiRequest s1.auth method path headers data] })) ∧
    (s1.sent = s.sent ∨ s1.sent = s.sent ++ [loginRequest s.auth]) ∧
    "Invalid token" ≠ "Insufficient permissions" ∧
    "HTTP " ++ toString resp.status ++ ": " ++ resp.text ≠ "Invalid token" ∧
    "HTTP " ++ toString resp.status ++ ": " ++ resp.text ≠ "Insufficient permissions" := by
  have hreq : request W method path data s =
      (responseOutcome resp, afterSend s1 (apiRequest s1.auth method path headers data) w) := by
    rw [request_eq, hauth]
    simp only [hfetch]
  refine ⟨?_, ?_, ?_, getAuthHeader_sent W s s1 headers hauth, by decide,
    http_message_ne _ _ _ (by decide), http_message_ne _ _ _ (by decide)⟩
  · intro h
    rw [hreq]
    simp [responseOutcome, h, afterSend]
  · intro h
    rw [hreq]
    simp [responseOutcome, h, afterSend]
  · intro h1 h3 hok
    rw [hreq]
    simp [responseOutcome, h1, h3, hok, afterSend]

/-- A listing answered with status 500 and the text `boom`. -/
theorem request_failure_classes_witness :
    request scripted "GET" "/api/collections" .null serverErrorStart =
      (.error (.error "HTTP 500: boom"),
        { headerObtained [] with
          sent := (headerObtained []).sent ++
            [apiRequest (headerObtained []).auth "GET" "/api/collections" demoHeaders .null] }) :=
  (request_failure_classes scripted "GET" "/api/collections" .null serverErrorStart
    (headerObtained [.response { status := 500, text := "boom", json := none }]) demoHeaders
    { status := 500, text := "boom", json := none } { answers := [], clock := [] }
    rfl rfl).2.2.1 (by decide) (by decide) rfl

/-- Statuses 401 and 403 are outside the success range. -/
theorem responseOutcome_ok (resp : Response) (hok : resp.ok = true) :
    responseOutcome resp = resp.parse := by
  have h : 200 ≤ resp.status ∧ resp.status ≤ 299 := by simpa [Response.ok] using hok
  have h3 : resp.status ≠ 403 := by omega
  have h1 : resp.status ≠ 401 := by omega
  simp [responseOutcome, h3, h1, hok]

/-- The outcome of `request` once the header is obtained and the response is a
success with JSON body `b`. -/
theorem request_ok {σ : Type} (W : World σ) (method path : String) (data : JsVal)
    (s s1 : Sys σ) (headers : List (String × String)) (resp : Response) (w : σ) (b : JsVal)
    (hauth : getAuthHeader W s = (.ok headers, s1))
    (hfetch : W.fetch (apiRequest s1.auth method path headers data) s1.world = (.response resp, w))
    (hok : resp.ok = true) (hjson : resp.json = some b) :
    request W method path data s =
      (.ok b, afterSend s1 (apiRequest s1.auth method path headers data) w) := by
  rw [request_eq, hauth]
  simp only [hfetch]
  rw [responseOutcome_ok resp hok]
  simp [Response.parse, hjson]

/-- C5 (amended): on a 2xx response whose JSON body `b` is not `null`,
`request` returns `b`; the single-record operations return `b.data` unchanged
(`undefined` when absent) and the list operations return `b.data` when it is
truthy and the empty array otherwise. -/
theorem wrappers_normalise {σ : Type} (W : World σ) (s s1 : Sys σ)
    (headers : List (String × String)) (resp : Response) (w : σ) (b d : JsVal)
    (hauth : getAuthHeader W s = (.ok headers, s1))
    (hfetch : ∀ r, W.fetch r s1.world = (.response resp, w))
    (hok : resp.ok = true) (hjson : resp.json = some b) (hdata : b.prop "data" = .ok d) :
    (∀ method path data, (request W method path data s).1 = .ok b) ∧
    (getCollections W s).1 = .ok (if d.truthy then d else .arr []) ∧
    (∀ c opts, (getItems W c opts s).1 = .ok (if d.truthy then d else .arr [])) ∧
    (∀ c items, (createItems W c items s).1 = .ok (if d.truthy then d else .arr [])) ∧
    (∀ c, (getFields W c s).1 = .ok (if d.truthy then d else .arr [])) ∧
    (∀ c data, (createItem W c data s).1 = .ok d) ∧
    (∀ c id data, (updateItem W c id data s).1 = .ok d) ∧
    (∀ fields, (clientCreateCollection W (.obj fields) s).1 = .ok d) ∧
    (∀ id updates, (updateCollection W id updates s).1 = .ok d) := by
  have hreq : ∀ method path data, request W method path data s =
      (.ok b, afterSend s1 (apiRequest s1.auth method path headers data) w) :=
    fun method path data =>
      request_ok W method path data s s1 headers resp w b hauth (hfetch _) hok hjson
  refine ⟨?_, ?_, ?_, ?_, ?_, ?_, ?_, ?_, ?_⟩
  · intro method path data; rw [hreq]
  · simp [getCollections, hreq, Prog.lift, hdata, pure, Prog.pure, orEmpty]
  · intro c opts
    simp [getItems, hreq, Prog.lift, hdata, pure, Prog.pure, orEmpty]
  · intro c items
    simp [createItems, hreq, Prog.lift, hdata, pure, Prog.pure, orEmpty]
  · intro c
    simp [getFields, hreq, Prog.lift, hdata, pure, Prog.pure, orEmpty]
  · intro c data
    simp [createItem, hreq, Prog.lift, hdata]
  · intro c id data
    simp [updateItem, hreq, Prog.lift, hdata]
  · intro fields
    have hc : (JsVal.obj fields).prop "collection" = .ok (getField fields "collection") := rfl
    simp [clientCreateCollection, hreq, Prog.lift, hdata, hc]
  · intro id updates
    simp [updateCollection, hreq, Prog.lift, hdata]

/-- A backend that answers every request with `demoResponse`. -/
theorem wrappers_normalise_witness :
    (∀ method path data,
      (request (constantWorld demoResponse) method path data (Sys.start () "" "k")).1 =
        .ok (.obj [("data", .obj [("access_token", .str "jwt-1"), ("id", .num 7)])])) ∧
    (∀ c data, (createItem (constantWorld demoResponse) c data (Sys.start () "" "k")).1 =
        .ok (.obj [("access_token", .str "jwt-1"), ("id", .num 7)])) :=
  have h := wrappers_normalise (constantWorld demoResponse) (Sys.start () "" "k")
    { world := ()
      sent := [loginRequest (DirectusAuth.new "" "k")]
      auth := { directusUrl := "", accessToken := "k", jwtToken := .str "jwt-1",
                tokenExpiry := some 600000 } }
    demoHeaders demoResponse ()
    (.obj [("data", .obj [("access_token", .str "jwt-1"), ("id", .num 7)])])
    (.obj [("access_token", .str "jwt-1"), ("id", .num 7)])
    rfl (fun _ => rfl) rfl rfl rfl
  ⟨h.1, h.2.2.2.2.2.1⟩

/-- Two successful responses: on the body `{"data":0}` the request returns the
body, whose payload is 0, and `getItems` returns the empty array; on the body
`null` the request returns `null` and `getCollections` raises a `TypeError`. -/
theorem list_operation_drops_falsy_payload :
    (request scripted "GET" "/api/items/courses" .null zeroDataStart).1 =
      .ok (.obj [("data", .num 0)]) ∧
    (getItems scripted "courses" [] zeroDataStart).1 = .ok (.arr []) ∧
    (request scripted "GET" "/api/collections" .null nullBodyStart).1 = .ok .null ∧
    (getCollections scripted nullBodyStart).1 = .error .typeError :=
  ⟨rfl, rfl, rfl, rfl⟩

/-- C6: `testConnection` always returns a boolean and never raises; it returns
`false` whenever the server-info request raises (rejected exchange, 401, 403,
other non-2xx status, transport failure, unparsable body), and `true` only
when that request succeeded. -/
theorem testConnection_total {σ : Type} (W : World σ) (s : Sys σ) :
    (∃ b s1, testConnection W s = (.ok b, s1)) ∧
    (∀ e s1, request W "GET" "/api/server/info" .null s = (.error e, s1) →
      testConnection W s = (.ok false, s1)) ∧
    (∀ s1, testConnection W s = (.ok true, s1) →
      ∃ body, request W "GET" "/api/server/info" .null s = (.ok body, s1)) := by
  unfold testConnection Prog.tryCatch
  simp only [Prog.bind_run]
  rcases hreq : request W "GET" "/api/server/info" .null s with ⟨r, s1⟩
  cases r with
  | error e =>
    refine ⟨⟨false, s1, rfl⟩, ?_, ?_⟩
    · intro e1 s2 h
      simp only [Prod.mk.injEq] at h
      rw [← h.2]; rfl
    · intro s2 h
      simp [pure, Prog.pure] at h
  | ok body =>
    cases hd : body.prop "data" with
    | error e1 =>
      refine ⟨⟨false, s1, by simp [Prog.lift, hd, pure, Prog.pure]⟩, ?_, ?_⟩
      · intro e2 s2 h; simp at h
      · intro s2 h; simp [Prog.lift, hd, pure, Prog.pure] at h
    | ok data =>
      cases hv : data.prop "directus" with
      | error e1 =>
        refine ⟨⟨false, s1, by simp [Prog.lift, hd, hv, pure, Prog.pure]⟩, ?_, ?_⟩
        · intro e2 s2 h; simp at h
        · intro s2 h; simp [Prog.lift, hd, hv, pure, Prog.pure] at h
      | ok directus =>
        cases hw : directus.prop "version" with
        | error e1 =>
          refine ⟨⟨false, s1, by simp [Prog.lift, hd, hv, hw, pure, Prog.pure]⟩, ?_, ?_⟩
          · intro e2 s2 h; simp at h
          · intro s2 h; simp [Prog.lift, hd, hv, hw, pure, Prog.pure] at h
        | ok version =>
          refine ⟨⟨true, s1, by simp [Prog.lift, hd, hv, hw, pure, Prog.pure]⟩, ?_, ?_⟩
          · intro e2 s2 h; simp at h
          · intro s2 h
            simp [Prog.lift, hd, hv, hw, pure, Prog.pure] at h
            exact ⟨body, by rw [h]⟩

/-! ## Collection provisioner -/

theorem append_left_ne (base a b : String) (h : a ≠ b) : base ++ a ≠ base ++ b := by
  intro e
  apply h
  have e1 := congrArg String.data e
  simp only [String.data_append] at e1
  exact String.ext (List.append_cancel_left e1)

/-- What `getAuthHeader` leaves behind: the same client configuration, and no
request other than the login request. -/
theorem getAuthHeader_effect {σ : Type} (W : World σ) (s : Sys σ) :
    (getAuthHeader W s).2.auth.directusUrl = s.auth.directusUrl ∧
    ((getAuthHeader W s).2.sent = s.sent ∨
      (getAuthHeader W s).2.sent = s.sent ++ [loginRequest s.auth]) := by
  have hstate : (getAuthHeader W s).2 = (getToken W s).2 := by
    simp only [getAuthHeader, Prog.bind_run]
    rcases getToken W s with ⟨r, s2⟩
    cases r <;> rfl
  rw [hstate]
  refine ⟨?_, getToken_sent W s⟩
  have hcheck : ∃ b s1, tokenStillValid W s = (.ok b, s1) ∧ s1.auth = s.auth := by
    cases ht : s.auth.jwtToken.truthy with
    | false => exact ⟨false, s, tokenStillValid_no_token W s ht, rfl⟩
    | true =>
      cases he : s.auth.tokenExpiry with
      | none => exact ⟨false, s, tokenStillValid_no_expiry W s he, rfl⟩
      | some e =>
        by_cases h0 : e = 0
        · refine ⟨false, s, ?_, rfl⟩
          simp [tokenStillValid, getAuth, he, ht, h0, pure, Prog.pure]
        · exact ⟨_, _, tokenStillValid_read W s e ht he h0, rfl⟩
  obtain ⟨b, s1, hs1, hauth⟩ := hcheck
  rw [getToken_of_check W s s1 b hs1]
  cases b with
  | true => simp [hauth]
  | false =>
    simp only [Bool.false_eq_true, if_false]
    rw [refreshToken_eq]
    rcases W.fetch (loginRequest s1.auth) s1.world with ⟨r, w⟩
    cases r with
    | rejected m => simp [afterLogin, hauth]
    | response resp =>
      cases hok : resp.ok
      · simp [afterLogin, hauth, hok]
      · cases ha : accessTokenOf resp <;> simp [afterLogin, hauth, hok, ha]

theorem sentSince_append {σ : Type} (s s1 : Sys σ) (l : List Request)
    (h : s1.sent = s.sent ++ l) : sentSince s s1 = l := by
  simp [sentSince, h]

/-- The requests sent by one `request`, whatever its outcome: at most the login
request and the request itself; the client configuration is unchanged. -/
theorem request_effect {σ : Type} (W : World σ) (method path : String) (data : JsVal)
    (s : Sys σ) :
    (request W method path data s).2.auth.directusUrl = s.auth.directusUrl ∧
    ∀ r ∈ sentSince s (request W method path data s).2,
      r = loginRequest s.auth ∨ (r.method = method ∧ r.url = s.auth.directusUrl ++ path) := by
  have hh := getAuthHeader_effect W s
  rw [request_eq]
  rcases hg : getAuthHeader W s with ⟨r, sh⟩
  rw [hg] at hh
  obtain ⟨hurl, hsent⟩ := hh
  simp only at hurl hsent
  cases r with
  | error e =>
    refine ⟨hurl, ?_⟩
    intro r hr
    rcases hsent with h | h
    · rw [sentSince_append s sh [] (by simpa using h)] at hr
      simp at hr
    · rw [sentSince_append s sh _ h] at hr
      simp at hr
      exact Or.inl hr
  | ok headers =>
    simp only
    rcases W.fetch (apiRequest sh.auth method path headers data) sh.world with ⟨fr, w⟩
    have key : ∀ x : Except JsError JsVal,
        ((x, afterSend sh (apiRequest sh.auth method path headers data) w).2.auth.directusUrl =
          s.auth.directusUrl) ∧
        ∀ r ∈ sentSince s (x, afterSend sh (apiRequest sh.auth method path headers data) w).2,
          r = loginRequest s.auth ∨ (r.method = method ∧ r.url = s.auth.directusUrl ++ path) := by
      intro x
      refine ⟨hurl, ?_⟩
      intro r hr
      rcases hsent with h | h
      · rw [sentSince_append s _ [apiRequest sh.auth method path headers data]
          (by simp [afterSend, h])] at hr
        simp at hr
        right
        rw [hr]
        simp [apiRequest, hurl]
      · rw [sentSince_append s _
          [loginRequest s.auth, apiRequest sh.auth method path headers data]
          (by simp [afterSend, h])] at hr
        simp at hr
        rcases hr with hr | hr
        · exact Or.inl hr
        · right
          rw [hr]
          simp [apiRequest, hurl]
    cases fr with
    | rejected m => exact key _
    | response resp => exact key _

/-- The state left by `getCollections` is the state left by its request. -/
theorem getCollections_state {σ : Type} (W : World σ) (s : Sys σ) :
    (getCollections W s).2 = (request W "GET" "/api/collections" .null s).2 := by
  simp only [getCollections, Prog.bind_run]
  rcases request W "GET" "/api/collections" .null s with ⟨r, s1⟩
  cases r with
  | error e => rfl
  | ok b =>
    simp only [Prog.lift]
    cases b.prop "data" <;> rfl

/-- C7: a descriptor whose name is in the collection list fetched while it is
processed is skipped: `createCollection` returns `false` after the listing, the
loop goes on with `skipped` increased by one and `created` unchanged, and none
of the requests sent for that descriptor asks to create a collection. -/
theorem createCollection_skips_present {σ : Type} (W : World σ)
    (collectionDef name collections : JsVal) (rest : List JsVal) (created skipped : Nat)
    (s s1 : Sys σ)
    (hname : collectionDef.prop "collection" = .ok name)
    (hlist : getCollections W s = (.ok collections, s1))
    (hpresent : hasCollection collections name = .ok true) :
    createCollection W collectionDef s = (.ok false, s1) ∧
    createAll W (collectionDef :: rest) created skipped s =
      createAll W rest created (skipped + 1) s1 ∧
    ∀ r ∈ sentSince s s1, ¬ isCreateCollection s.auth.directusUrl r := by
  have hstep : createCollection W collectionDef s = (.ok false, s1) := by
    simp [createCollection, collectionExists, Prog.lift, hname, hlist, hpresent, pure, Prog.pure]
  refine ⟨hstep, ?_, ?_⟩
  · simp [createAll, hstep]
  · intro r hr hcreate
    have hstate := getCollections_state W s
    rw [hlist] at hstate
    simp only at hstate
    rw [hstate] at hr
    rcases (request_effect W "GET" "/api/collections" .null s).2 r hr with h | ⟨hm, _⟩
    · rw [h] at hcreate
      exact append_left_ne _ _ _ (by decide) hcreate.2
    · rw [hcreate.1] at hm
      exact absurd hm (by decide)

/-- The descriptor `courses` against a listing that shows `courses`: nothing is
created, one descriptor is skipped. -/
theorem createCollection_skips_present_witness :
    createAll scripted [coursesDef] 0 0 coursesListedStart =
      (.ok (0, 1), (getCollections scripted coursesListedStart).2) :=
  (createCollection_skips_present scripted coursesDef (.str "courses")
    (.arr [.obj [("collection", .str "courses")]]) [] 0 0 coursesListedStart
    (getCollections scripted coursesListedStart).2 rfl rfl rfl).2.1

/-- The loop over a concatenation runs the first part, then the second part
with the counters and the state the first part left. -/
theorem createAll_append {σ : Type} (W : World σ) (pre post : List JsVal) :
    ∀ (created skipped : Nat) (s : Sys σ),
      createAll W (pre ++ post) created skipped s =
        match createAll W pre created skipped s with
        | (.ok counts, s1) => createAll W post counts.1 counts.2 s1
        | (.error e, s1) => (.error e, s1) := by
  induction pre with
  | nil => intro created skipped s; rfl
  | cons d pre ih =>
    intro created skipped s
    simp only [List.cons_append, createAll, Prog.bind_run]
    rcases createCollection W d s with ⟨r, s1⟩
    cases r with
    | error e => rfl
    | ok b => cases b <;> simp [ih]

/-- C9: when the create request for a descriptor fails, `createCollection`
raises that same error, the loop stops there, and `main` ends with exit code 1
in the state the failed request left: nothing is sent for the descriptors that
follow and nothing is undone for the ones before. -/
theorem createAll_aborts_on_create_failure {σ : Type} (W : World σ) (env : Env) (token : String)
    (w : σ) (pre : List JsVal) (collectionDef name : JsVal) (rest : List JsVal)
    (sA s s1 s2 : Sys σ) (counts : Nat × Nat) (e : JsError)
    (htoken : env.setupToken = some token) (hne : token ≠ "")
    (hconn : testConnection W (Sys.start w env.url token) = (.ok true, sA))
    (hpre : createAll W pre 0 0 sA = (.ok counts, s))
    (hname : collectionDef.prop "collection" = .ok name)
    (habsent : collectionExists W name s = (.ok false, s1))
    (hfail : clientCreateCollection W collectionDef s1 = (.error e, s2)) :
    createCollection W collectionDef s = (.error e, s2) ∧
    createAll W (pre ++ collectionDef :: rest) 0 0 sA = (.error e, s2) ∧
    createCollectionsMain W env (.ok (pre ++ collectionDef :: rest)) w =
      { code := 1, world := s2.world, sent := s2.sent, summary := none } := by
  have hstep : createCollection W collectionDef s = (.error e, s2) := by
    simp [createCollection, Prog.lift, hname, habsent, Prog.tryCatch, hfail, Prog.throw]
  have hloop : createAll W (pre ++ collectionDef :: rest) 0 0 sA = (.error e, s2) := by
    rw [createAll_append, hpre]
    simp [createAll, hstep]
  refine ⟨hstep, hloop, ?_⟩
  simp [createCollectionsMain, htoken, hne, hconn, Prog.bind, Prog.lift, hloop]

/-- Two descriptors, the create request of the first fails with status 500:
the script exits with code 1 after four requests, none of them for the second
descriptor. -/
theorem createAll_aborts_on_create_failure_witness :
    (createCollectionsMain scripted demoEnv (.ok [coursesDef, lessonsDef]) createFailsScript).code
      = 1 ∧
    (createCollectionsMain scripted demoEnv (.ok [coursesDef, lessonsDef])
      createFailsScript).sent.map (fun r => (r.method, r.url)) =
      [("POST", "http://localhost:8055/auth/login"),
       ("GET", "http://localhost:8055/api/server/info"),
       ("GET", "http://localhost:8055/api/collections"),
       ("POST", "http://localhost:8055/api/collections")] := by
  have h : createCollectionsMain scripted demoEnv (.ok [coursesDef, lessonsDef])
      createFailsScript = _ :=
    (createAll_aborts_on_create_failure scripted demoEnv "setup-key" createFailsScript []
    coursesDef (.str "courses") [lessonsDef]
    (testConnection scripted (Sys.start createFailsScript "http://localhost:8055" "setup-key")).2
    (testConnection scripted (Sys.start createFailsScript "http://localhost:8055" "setup-key")).2
    (collectionExists scripted (.str "courses")
      (testConnection scripted
        (Sys.start createFailsScript "http://localhost:8055" "setup-key")).2).2
    (clientCreateCollection scripted coursesDef
      (collectionExists scripted (.str "courses")
        (testConnection scripted
          (Sys.start createFailsScript "http://localhost:8055" "setup-key")).2).2).2
    (0, 0) (.error "HTTP 500: boom") rfl (by decide) rfl rfl rfl rfl rfl).2.2
  rw [h]
  exact ⟨rfl, rfl⟩

/-! ## Provisioning against an ideal backend -/

/-- The validity check never fails and only reads the clock. -/
theorem tokenStillValid_cases {σ : Type} (W : World σ) (s : Sys σ) :
    ∃ b s1, tokenStillValid W s = (.ok b, s1) ∧ s1.auth = s.auth ∧ s1.sent = s.sent ∧
      (s1.world = s.world ∨ s1.world = (W.now s.world).2) := by
  cases ht : s.auth.jwtToken.truthy with
  | false => exact ⟨false, s, tokenStillValid_no_token W s ht, rfl, rfl, Or.inl rfl⟩
  | true =>
    cases he : s.auth.tokenExpiry with
    | none => exact ⟨false, s, tokenStillValid_no_expiry W s he, rfl, rfl, Or.inl rfl⟩
    | some e =>
      by_cases h0 : e = 0
      · refine ⟨false, s, ?_, rfl, rfl, Or.inl rfl⟩
        simp [tokenStillValid, getAuth, he, ht, h0, pure, Prog.pure]
      · exact ⟨_, _, tokenStillValid_read W s e ht he h0, rfl, rfl, Or.inr rfl⟩

theorem ideal_token {σ : Type} (W : World σ) (base : String) (names : σ → List String)
    (hB : IdealBackend W base names) (s : Sys σ) (hbase : s.auth.directusUrl = base) :
    ∃ token s1, getToken W s = (.ok token, s1) ∧ s1.auth.directusUrl = base ∧
      names s1.world = names s.world := by
  obtain ⟨b, s0, hs0, hauth, _, hworld⟩ := tokenStillValid_cases W s
  have hn0 : names s0.world = names s.world := by
    rcases hworld with h | h
    · rw [h]
    · rw [h, hB.clock]
  have hget := getToken_of_check W s s0 b hs0
  cases b with
  | true =>
    exact ⟨s0.auth.jwtToken, s0, by simpa using hget, by rw [hauth, hbase], hn0⟩
  | false =>
    obtain ⟨resp, token, hf, hok, htok, hn⟩ := hB.login s0.auth s0.world (by rw [hauth, hbase])
    have hfetch : W.fetch (loginRequest s0.auth) s0.world =
        (.response resp, (W.fetch (loginRequest s0.auth) s0.world).2) := by
      rw [← hf]
    have hr := refreshToken_eq W s0
    rw [hfetch] at hr
    simp only [hok, htok, if_true] at hr
    refine ⟨token, _, by simpa [hr] using hget, ?_, ?_⟩
    · simp [hauth, hbase]
    · simp only
      rw [hB.clock, hn, hn0]

theorem ideal_header {σ : Type} (W : World σ) (base : String) (names : σ → List String)
    (hB : IdealBackend W base names) (s : Sys σ) (hbase : s.auth.directusUrl = base) :
    ∃ headers s1, getAuthHeader W s = (.ok headers, s1) ∧ s1.auth.directusUrl = base ∧
      names s1.world = names s.world := by
  obtain ⟨token, s1, hget, hb, hn⟩ := ideal_token W base names hB s hbase
  exact ⟨[("Authorization", "Bearer " ++ token.toStr), ("Content-Type", "application/json")],
    s1, by simp [getAuthHeader, hget, pure, Prog.pure], hb, hn⟩

/-- Listing on an ideal backend: it succeeds, changes no collection and tells
for every name whether the backend holds it. -/
theorem ideal_collectionExists {σ : Type} (W : World σ) (base : String)
    (names : σ → List String) (hB : IdealBackend W base names) (s : Sys σ)
    (hbase : s.auth.directusUrl = base) (n : String) :
    ∃ s1, collectionExists W (.str n) s = (.ok (decide (n ∈ names s.world)), s1) ∧
      s1.auth.directusUrl = base ∧ names s1.world = names s.world := by
  obtain ⟨headers, sh, hauth, hb, hn⟩ := ideal_header W base names hB s hbase
  obtain ⟨resp, body, colls, hf, hok, hjson, hdata, hhas, hn1⟩ :=
    hB.list sh.auth headers sh.world hb
  have hfetch : W.fetch (apiRequest sh.auth "GET" "/api/collections" headers .null) sh.world =
      (.response resp,
        (W.fetch (apiRequest sh.auth "GET" "/api/collections" headers .null) sh.world).2) := by
    rw [← hf]
  have hreq := request_ok W "GET" "/api/collections" .null s sh headers resp _ body hauth hfetch
    hok hjson
  refine ⟨afterSend sh (apiRequest sh.auth "GET" "/api/collections" headers .null)
    (W.fetch (apiRequest sh.auth "GET" "/api/collections" headers .null) sh.world).2, ?_, ?_, ?_⟩
  · simp only [collectionExists, getCollections, Prog.bind_run, hreq, Prog.lift, hdata, pure,
      Prog.pure, hhas, hn]
  · simpa [afterSend] using hb
  · simp only [afterSend]
    rw [hn1, hn]

/-- Creating on an ideal backend a collection it does not hold. -/
theorem ideal_clientCreate {σ : Type} (W : World σ) (base : String)
    (names : σ → List String) (hB : IdealBackend W base names) (s : Sys σ)
    (hbase : s.auth.directusUrl = base) (d : JsVal) (n : String)
    (hname : d.prop "collection" = .ok (.str n)) (habsent : n ∉ names s.world) :
    ∃ v s1, clientCreateCollection W d s = (.ok v, s1) ∧
      s1.auth.directusUrl = base ∧ names s1.world = names s.world ++ [n] := by
  obtain ⟨headers, sh, hauth, hb, hn⟩ := ideal_header W base names hB s hbase
  obtain ⟨resp, body, v, hf, hok, hjson, hdata, hn1⟩ :=
    hB.create sh.auth headers d n sh.world hb hname (by rw [hn]; exact habsent)
  have hfetch : W.fetch (apiRequest sh.auth "POST" "/api/collections" headers d) sh.world =
      (.response resp,
        (W.fetch (apiRequest sh.auth "POST" "/api/collections" headers d) sh.world).2) := by
    rw [← hf]
  have hreq := request_ok W "POST" "/api/collections" d s sh headers resp _ body hauth hfetch
    hok hjson
  refine ⟨v, afterSend sh (apiRequest sh.auth "POST" "/api/collections" headers d)
    (W.fetch (apiRequest sh.auth "POST" "/api/collections" headers d) sh.world).2, ?_, ?_, ?_⟩
  · simp only [clientCreateCollection, Prog.bind_run, hreq, Prog.lift, hdata, hname]
  · simpa [afterSend] using hb
  · simp only [afterSend]
    rw [hn1, hn]

/-- One descriptor on an ideal backend: skipped when its collection is held,
created and added otherwise. -/
theorem ideal_createCollection {σ : Type} (W : World σ) (base : String)
    (names : σ → List String) (hB : IdealBackend W base names) (s : Sys σ)
    (hbase : s.auth.directusUrl = base) (d : JsVal) (n : String)
    (hname : d.prop "collection" = .ok (.str n)) :
    ∃ s1, createCollection W d s = (.ok (decide (n ∉ names s.world)), s1) ∧
      s1.auth.directusUrl = base ∧
      names s1.world = if n ∈ names s.world then names s.world else names s.world ++ [n] := by
  obtain ⟨s0, hex, hb0, hn0⟩ := ideal_collectionExists W base names hB s hbase n
  by_cases hin : n ∈ names s.world
  · refine ⟨s0, ?_, hb0, by simp [hin, hn0]⟩
    simp [createCollection, Prog.lift, hname, hex, hin, pure, Prog.pure]
  · obtain ⟨v, s1, hcr, hb1, hn1⟩ :=
      ideal_clientCreate W base names hB s0 hb0 d n hname (by rw [hn0]; exact hin)
    refine ⟨s1, ?_, hb1, by simp [hin, hn1, hn0]⟩
    simp [createCollection, Prog.lift, hname, hex, hin, Prog.tryCatch, hcr, pure, Prog.pure]

theorem ideal_createAll_new {σ : Type} (W : World σ) (base : String)
    (names : σ → List String) (hB : IdealBackend W base names) (defs : List JsVal)
    (ns : List String)
    (hdefs : List.Forall₂ (fun d n => d.prop "collection" = .ok (.str n)) defs ns) :
    ∀ (created skipped : Nat) (s : Sys σ), s.auth.directusUrl = base → ns.Nodup →
      (∀ n ∈ ns, n ∉ names s.world) →
      ∃ s1, createAll W defs created skipped s = (.ok (created + defs.length, skipped), s1) ∧
        s1.auth.directusUrl = base ∧ names s1.world = names s.world ++ ns := by
  induction hdefs with
  | nil =>
    intro created skipped s hbase _ _
    exact ⟨s, rfl, hbase, by simp⟩
  | @cons d n defs ns hd _ ih =>
    intro created skipped s hbase hnodup habsent
    have hn : n ∉ names s.world := habsent n (List.mem_cons_self n ns)
    obtain ⟨s0, hstep, hb0, hn0⟩ := ideal_createCollection W base names hB s hbase d n hd
    simp only [hn, if_false] at hn0
    have hnd := List.nodup_cons.mp hnodup
    obtain ⟨s1, hrest, hb1, hn1⟩ := ih (created + 1) skipped s0 hb0 hnd.2 (by
      intro m hm
      rw [hn0]
      intro hmem
      rcases List.mem_append.mp hmem with h | h
      · exact habsent m (List.mem_cons_of_mem n hm) h
      · have hmn : m = n := by simpa using h
        exact hnd.1 (hmn ▸ hm))
    refine ⟨s1, ?_, hb1, by rw [hn1, hn0]; simp⟩
    simp only [createAll, Prog.bind_run, hstep, hn]
    simp only [not_false_eq_true, decide_True, if_true, hrest, List.length_cons]
    rw [Nat.add_assoc, Nat.add_comm 1]

theorem ideal_createAll_present {σ : Type} (W : World σ) (base : String)
    (names : σ → List String) (hB : IdealBackend W base names) (defs : List JsVal)
    (ns : List String)
    (hdefs : List.Forall₂ (fun d n => d.prop "collection" = .ok (.str n)) defs ns) :
    ∀ (created skipped : Nat) (s : Sys σ), s.auth.directusUrl = base →
      (∀ n ∈ ns, n ∈ names s.world) →
      ∃ s1, createAll W defs created skipped s = (.ok (created, skipped + defs.length), s1) ∧
        s1.auth.directusUrl = base ∧ names s1.world = names s.world := by
  induction hdefs with
  | nil =>
    intro created skipped s hbase _
    exact ⟨s, rfl, hbase, rfl⟩
  | @cons d n defs ns hd _ ih =>
    intro created skipped s hbase hall
    have hn : n ∈ names s.world := hall n (List.mem_cons_self n ns)
    obtain ⟨s0, hstep, hb0, hn0⟩ := ideal_createCollection W base names hB s hbase d n hd
    simp only [hn, if_true] at hn0
    obtain ⟨s1, hrest, hb1, hn1⟩ := ih created (skipped + 1) s0 hb0 (by
      intro m hm
      rw [hn0]
      exact hall m (List.mem_cons_of_mem n hm))
    refine ⟨s1, ?_, hb1, by rw [hn1, hn0]⟩
    simp only [createAll, Prog.bind_run, hstep, hn]
    simp only [not_true_eq_false, decide_False, Bool.false_eq_true, if_false, hrest,
      List.length_cons]
    rw [Nat.add_assoc, Nat.add_comm 1]

/-- C8: on an ideal backend, the provisioning loop over descriptors with
distinct names, none of which the backend holds, creates all of them and skips
none; run again, from any client state, on a backend holding the resulting
collections, it creates none, skips all of them and leaves the collections
unchanged. -/
theorem provisioning_rerun_idempotent {σ : Type} (W : World σ) (base : String)
    (names : σ → List String) (hB : IdealBackend W base names) (defs : List JsVal)
    (ns : List String)
    (hdefs : List.Forall₂ (fun d n => d.prop "collection" = .ok (.str n)) defs ns)
    (hnodup : ns.Nodup) (s : Sys σ) (hbase : s.auth.directusUrl = base)
    (habsent : ∀ n ∈ ns, n ∉ names s.world) :
    ∃ s1, createAll W defs 0 0 s = (.ok (defs.length, 0), s1) ∧
      names s1.world = names s.world ++ ns ∧
      ∀ s2 : Sys σ, s2.auth.directusUrl = base → names s2.world = names s1.world →
        ∃ s3, createAll W defs 0 0 s2 = (.ok (0, defs.length), s3) ∧
          names s3.world = names s1.world := by
  obtain ⟨s1, hrun, _, hn1⟩ :=
    ideal_createAll_new W base names hB defs ns hdefs 0 0 s hbase hnodup habsent
  refine ⟨s1, by simpa using hrun, hn1, ?_⟩
  intro s2 hb2 hn2
  obtain ⟨s3, hrun2, _, hn3⟩ :=
    ideal_createAll_present W base names hB defs ns hdefs 0 0 s2 hb2 (by
      intro n hn
      rw [hn2, hn1]
      exact List.mem_append_right _ hn)
  exact ⟨s3, by simpa using hrun2, by rw [hn3, hn2]⟩

theorem someNamed_listing (n : String) (cols : List String) :
    someNamed (cols.map listingEntry) (.str n) = .ok (decide (n ∈ cols)) := by
  induction cols with
  | nil => rfl
  | cons c cols ih =>
    by_cases h : c = n
    · simp [someNamed, listingEntry, JsVal.prop, getField, strictEq, h]
    · have h1 : ¬ n = c := fun e => h e.symm
      simp [someNamed, listingEntry, JsVal.prop, getField, strictEq, h, h1]
      simpa [listingEntry] using ih

/-- The simulated backend is an ideal backend. -/
theorem directusSim_ideal : IdealBackend directusSim "http://localhost:8055" id where
  clock := fun _ => rfl
  login := by
    intro a w ha
    refine ⟨{ status := 200, text := "", json := some (.obj [("data", .obj [("access_token",
      .str "jwt-1"), ("directus", .obj [("version", .str "10.8.3")])])]) }, .str "jwt-1", ?_, rfl,
      rfl, ?_⟩
    · simp [directusSim, loginRequest, ha, okJson]
    · simp [directusSim, loginRequest, ha]
  list := by
    intro a headers w ha
    refine ⟨{ status := 200, text := "", json := some (.obj [("data", .arr (w.map listingEntry))]) },
      .obj [("data", .arr (w.map listingEntry))], .arr (w.map listingEntry), ?_, rfl, rfl, rfl,
      ?_, ?_⟩
    · simp [directusSim, apiRequest, ha, okJson]
    · intro n
      simp [orEmpty, JsVal.truthy, hasCollection, someNamed_listing]
    · simp [directusSim, apiRequest, ha]
  create := by
    intro a headers d n w ha hname _
    cases d with
    | obj fields =>
      have hf : getField fields "collection" = .str n := by
        simpa [JsVal.prop] using hname
      refine ⟨{ status := 200, text := "", json := some (.obj [("data", .obj fields)]) },
        .obj [("data", .obj fields)], .obj fields, ?_, rfl, rfl, rfl, ?_⟩
      · simp [directusSim, apiRequest, ha, okJson, JsVal.truthy, hf]
      · simp [directusSim, apiRequest, ha, JsVal.truthy, hf]
    | undefined => simp [JsVal.prop] at hname
    | null => simp [JsVal.prop] at hname
    | bool b => simp [JsVal.prop] at hname
    | num k => simp [JsVal.prop] at hname
    | str t => simp [JsVal.prop] at hname
    | arr xs => simp [JsVal.prop] at hname

/-- The four schema descriptors against the empty simulated backend: 4 created
and 0 skipped, then 0 created and 4 skipped, with the same four collections. -/
theorem provisioning_rerun_idempotent_witness :
    ∃ s1, createAll directusSim schemaDefs 0 0 (Sys.start [] "http://localhost:8055" "setup-key") =
        (.ok (4, 0), s1) ∧
      s1.world = ["courses", "lessons", "problems", "ai_prompts"] ∧
      ∃ s3, createAll directusSim schemaDefs 0 0
          (Sys.start s1.world "http://localhost:8055" "setup-key") = (.ok (0, 4), s3) ∧
        s3.world = ["courses", "lessons", "problems", "ai_prompts"] := by
  obtain ⟨s1, h1, hn1, h2⟩ := provisioning_rerun_idempotent directusSim "http://localhost:8055" id
    directusSim_ideal schemaDefs ["courses", "lessons", "problems", "ai_prompts"]
    (by simp [schemaDefs, JsVal.prop, getField]) (by decide)
    (Sys.start [] "http://localhost:8055" "setup-key") rfl (by simp [Sys.start])
  obtain ⟨s3, h3, hn3⟩ := h2 (Sys.start s1.world "http://localhost:8055" "setup-key") rfl rfl
  refine ⟨s1, h1, by simpa [Sys.start] using hn1, s3, h3, ?_⟩
  have : s3.world = s1.world := hn3
  rw [this]
  simpa [Sys.start] using hn1

/-! ## Seeding -/

theorem getField_setField (map : List (String × JsVal)) (k k1 : String) (v : JsVal) :
    getField (setField map k v) k1 = if k = k1 then v else getField map k1 := by
  induction map with
  | nil => simp [setField, getField]
  | cons p rest ih =>
    obtain ⟨k0, v0⟩ := p
    by_cases h0 : k0 = k
    · subst h0
      by_cases h1 : k0 = k1 <;> simp [setField, getField, h1]
    · by_cases h1 : k0 = k1
      · subst h1
        have h2 : ¬ k = k0 := fun e => h0 e.symm
        simp [setField, getField, h0, h2]
      · simp [setField, getField, h0, h1, ih]

theorem getField_of_not_mem (map : List (String × JsVal)) (k : String)
    (h : ∀ v, (k, v) ∉ map) : getField map k = .undefined := by
  induction map with
  | nil => rfl
  | cons p rest ih =>
    obtain ⟨k0, v0⟩ := p
    have hne : ¬ k0 = k := by
      intro e
      exact h v0 (by rw [e]; exact List.mem_cons_self _ _)
    simp only [getField, hne, if_false]
    exact ih (fun v hv => h v (List.mem_cons_of_mem _ hv))

theorem getField_of_not_key (map : List (String × JsVal)) (k : String)
    (h : k ∉ map.map (fun p => p.1)) : getField map k = .undefined := by
  apply getField_of_not_mem
  intro v hv
  exact h (List.mem_map.mpr ⟨(k, v), hv, rfl⟩)

theorem setField_keys (map : List (String × JsVal)) (k : String) (v : JsVal) :
    (setField map k v).map (fun p => p.1) =
      if k ∈ map.map (fun p => p.1) then map.map (fun p => p.1)
      else map.map (fun p => p.1) ++ [k] := by
  induction map with
  | nil => simp [setField]
  | cons p rest ih =>
    obtain ⟨k0, v0⟩ := p
    by_cases h0 : k0 = k
    · subst h0
      simp [setField]
    · have h1 : ¬ k = k0 := fun e => h0 e.symm
      simp only [setField, h0, if_false, List.map_cons, ih, List.mem_cons, h1, false_or]
      split <;> simp

theorem setField_keys_nodup (map : List (String × JsVal)) (k : String) (v : JsVal)
    (h : (map.map (fun p => p.1)).Nodup) : ((setField map k v).map (fun p => p.1)).Nodup := by
  rw [setField_keys]
  split
  · exact h
  · rename_i hk
    rw [List.nodup_append]
    refine ⟨h, List.nodup_singleton k, ?_⟩
    intro a ha hb
    rw [List.mem_singleton] at hb
    subst hb
    exact hk ha

theorem mem_setField_keys (map : List (String × JsVal)) (k k1 : String) (v : JsVal) :
    k1 ∈ (setField map k v).map (fun p => p.1) ↔ k1 = k ∨ k1 ∈ map.map (fun p => p.1) := by
  rw [setField_keys]
  split
  · rename_i hk
    constructor
    · intro h; exact Or.inr h
    · rintro (h | h)
      · rw [h]; exact hk
      · exact h
  · simp only [List.mem_append, List.mem_singleton]
    tauto

theorem getField_mem (map : List (String × JsVal)) (k : String)
    (h : k ∈ map.map (fun p => p.1)) : (k, getField map k) ∈ map := by
  induction map with
  | nil => simp at h
  | cons p rest ih =>
    obtain ⟨k0, v0⟩ := p
    by_cases h0 : k0 = k
    · subst h0
      simp [getField]
    · have h1 : k ∈ rest.map (fun p => p.1) := by
        simp only [List.map_cons, List.mem_cons] at h
        rcases h with h | h
        · exact absurd h.symm h0
        · exact h
      simp only [getField, h0, if_false]
      exact List.mem_cons_of_mem _ (ih h1)

/-! ### Assignment to the name-resolution map -/

theorem setPrototype_own (map : NameMap) (v : JsVal) : (map.setPrototype v).own = map.own := by
  cases v <;> rfl

/-- The own properties after an assignment: the name is set among them, or the
name is `__proto__` and they are left as they are. -/
theorem set_own (map : NameMap) (k : String) (v : JsVal) :
    (map.set k v).own = setField map.own k v ∨
      (k = "__proto__" ∧ (map.set k v).own = map.own) := by
  unfold NameMap.set
  split
  · rename_i h
    split
    · exact Or.inl rfl
    · split
      · exact Or.inl rfl
      · exact Or.inr ⟨h.1, setPrototype_own map v⟩
    · exact Or.inr ⟨h.1, setPrototype_own map v⟩
  · exact Or.inl rfl

/-- An assignment under another name than `__proto__` sets an own property and
leaves the prototype as it is. -/
theorem set_of_ne (map : NameMap) (k : String) (v : JsVal) (h : k ≠ "__proto__") :
    map.set k v = { map with own := setField map.own k v } := by
  simp [NameMap.set, h]

theorem set_getField_other (map : NameMap) (k k1 : String) (v : JsVal) (h : k ≠ k1) :
    getField (map.set k v).own k1 = getField map.own k1 := by
  rcases set_own map k v with h1 | ⟨_, h1⟩
  · rw [h1, getField_setField, if_neg h]
  · rw [h1]

theorem set_getField_same (map : NameMap) (k : String) (v : JsVal) (h : k ≠ "__proto__") :
    getField (map.set k v).own k = v := by
  rw [set_of_ne map k v h]
  simp [getField_setField]

theorem set_keys_sub (map : NameMap) (k k1 : String) (v : JsVal)
    (h : k1 ∈ (map.set k v).own.map (fun p => p.1)) :
    k1 = k ∨ k1 ∈ map.own.map (fun p => p.1) := by
  rcases set_own map k v with h1 | ⟨_, h1⟩
  · rw [h1, mem_setField_keys] at h
    exact h
  · rw [h1] at h
    exact Or.inr h

theorem set_keys_mono (map : NameMap) (k k1 : String) (v : JsVal)
    (h : k1 ∈ map.own.map (fun p => p.1)) : k1 ∈ (map.set k v).own.map (fun p => p.1) := by
  rcases set_own map k v with h1 | ⟨_, h1⟩
  · rw [h1, mem_setField_keys]
    exact Or.inr h
  · rw [h1]
    exact h

theorem set_keys_self (map : NameMap) (k : String) (v : JsVal) (h : k ≠ "__proto__") :
    k ∈ (map.set k v).own.map (fun p => p.1) := by
  rw [set_of_ne map k v h]
  exact (mem_setField_keys map.own k k v).mpr (Or.inl rfl)

theorem set_keys_nodup (map : NameMap) (k : String) (v : JsVal)
    (h : (map.own.map (fun p => p.1)).Nodup) : ((map.set k v).own.map (fun p => p.1)).Nodup := by
  rcases set_own map k v with h1 | ⟨_, h1⟩
  · rw [h1]
    exact setField_keys_nodup map.own k v h
  · rw [h1]
    exact h

theorem nameMap_append (pre rest : List JsVal) :
    ∀ map0, nameMap (pre ++ rest) map0 =
      match nameMap pre map0 with
      | .ok m => nameMap rest m
      | .error e => .error e := by
  induction pre with
  | nil => intro map0; rfl
  | cons r pre ih =>
    intro map0
    simp only [List.cons_append, nameMap]
    cases r.prop "name" with
    | error e => rfl
    | ok name =>
      cases r.prop "id" with
      | error e => rfl
      | ok id => exact ih _

theorem carriesName_cons (r : JsVal) (rest : List JsVal) (k : String) :
    carriesName (r :: rest) k ↔
      (∃ name, r.prop "name" = .ok name ∧ name.toStr = k) ∨ carriesName rest k := by
  unfold carriesName
  constructor
  · rintro ⟨q, hq, n, hn, hk⟩
    rcases List.mem_cons.mp hq with h | h
    · subst h
      exact Or.inl ⟨n, hn, hk⟩
    · exact Or.inr ⟨q, h, n, hn, hk⟩
  · rintro (⟨n, hn, hk⟩ | ⟨q, hq, n, hn, hk⟩)
    · exact ⟨r, List.mem_cons_self _ _, n, hn, hk⟩
    · exact ⟨q, List.mem_cons_of_mem _ hq, n, hn, hk⟩

/-- The own keys of the map built by `nameMap`: no key twice; every key is a
key of the initial map or the name of a record; and every key of the initial
map and every name of a record other than `__proto__` is a key. -/
theorem nameMap_keys (items : List JsVal) :
    ∀ (map0 map : NameMap), nameMap items map0 = .ok map →
      ((map0.own.map (fun p => p.1)).Nodup → (map.own.map (fun p => p.1)).Nodup) ∧
      (∀ k, k ∈ map.own.map (fun p => p.1) →
        k ∈ map0.own.map (fun p => p.1) ∨ carriesName items k) ∧
      (∀ k, k ∈ map0.own.map (fun p => p.1) ∨ (k ≠ "__proto__" ∧ carriesName items k) →
        k ∈ map.own.map (fun p => p.1)) := by
  induction items with
  | nil =>
    intro map0 map h
    simp only [nameMap, Except.ok.injEq] at h
    subst h
    refine ⟨fun h => h, fun k hk => Or.inl hk, ?_⟩
    rintro k (hk | ⟨_, q, hq, _⟩)
    · exact hk
    · simp at hq
  | cons r rest ih =>
    intro map0 map h
    simp only [nameMap] at h
    cases hn : r.prop "name" with
    | error e => simp [hn] at h
    | ok name =>
      cases hi : r.prop "id" with
      | error e => simp [hn, hi] at h
      | ok id =>
        simp only [hn, hi] at h
        obtain ⟨h1, h2, h3⟩ := ih _ map h
        refine ⟨fun hnd => h1 (set_keys_nodup map0 _ _ hnd), ?_, ?_⟩
        · intro k hk
          rcases h2 k hk with h4 | h4
          · rcases set_keys_sub map0 _ k _ h4 with h5 | h5
            · exact Or.inr ((carriesName_cons r rest k).mpr (Or.inl ⟨name, hn, h5.symm⟩))
            · exact Or.inl h5
          · exact Or.inr ((carriesName_cons r rest k).mpr (Or.inr h4))
        · rintro k (hk | ⟨hne, hc⟩)
          · exact h3 k (Or.inl (set_keys_mono map0 _ k _ hk))
          · rcases (carriesName_cons r rest k).mp hc with ⟨n, hrn, hnk⟩ | h4
            · rw [hn] at hrn
              cases hrn
              apply h3 k
              left
              rw [← hnk]
              exact set_keys_self map0 _ _ (by rw [hnk]; exact hne)
            · exact h3 k (Or.inr ⟨hne, h4⟩)

/-- Records filed under other names leave the own entry of a name as it is. -/
theorem nameMap_getField_other (items : List JsVal) (k : String) :
    ∀ (map0 map : NameMap), nameMap items map0 = .ok map →
      (∀ q ∈ items, ∀ n, q.prop "name" = .ok n → n.toStr ≠ k) →
      getField map.own k = getField map0.own k := by
  induction items with
  | nil =>
    intro map0 map h _
    simp only [nameMap, Except.ok.injEq] at h
    rw [h]
  | cons r rest ih =>
    intro map0 map h hk
    simp only [nameMap] at h
    cases hn : r.prop "name" with
    | error e => simp [hn] at h
    | ok name =>
      cases hi : r.prop "id" with
      | error e => simp [hn, hi] at h
      | ok id =>
        simp only [hn, hi] at h
        rw [ih _ map h (fun q hq => hk q (List.mem_cons_of_mem _ hq))]
        exact set_getField_other map0 _ k _ (hk r (List.mem_cons_self _ _) name hn)

/-- The own entry of a name other than `__proto__` in the map built by
`nameMap` is the entry of the initial map or the `id` of a record filed under
that name. -/
theorem nameMap_lookup (items : List JsVal) :
    ∀ (map0 map : NameMap) (k : String), k ≠ "__proto__" → nameMap items map0 = .ok map →
      getField map.own k = getField map0.own k ∨
      ∃ record ∈ items, ∃ name id, record.prop "name" = .ok name ∧ name.toStr = k ∧
        record.prop "id" = .ok id ∧ getField map.own k = id := by
  induction items with
  | nil =>
    intro map0 map k _ h
    simp only [nameMap, Except.ok.injEq] at h
    left; rw [h]
  | cons record rest ih =>
    intro map0 map k hne h
    simp only [nameMap] at h
    cases hn : record.prop "name" with
    | error e => simp [hn] at h
    | ok name =>
      cases hi : record.prop "id" with
      | error e => simp [hn, hi] at h
      | ok id =>
        simp only [hn, hi] at h
        rcases ih _ map k hne h with h1 | ⟨r, hr, nm, i, h2, h3, h4, h5⟩
        · by_cases hk : name.toStr = k
          · right
            refine ⟨record, List.mem_cons_self _ _, name, id, hn, hk, hi, ?_⟩
            rw [h1, hk]
            exact set_getField_same map0 k id hne
          · left
            rw [h1]
            exact set_getField_other map0 _ k _ hk
        · right
          exact ⟨r, List.mem_cons_of_mem _ hr, nm, i, h2, h3, h4, h5⟩

/-- When no record is named `__proto__`, the map built by `nameMap` has the
prototype of the initial map. -/
theorem nameMap_proto (items : List JsVal) :
    ∀ (map0 map : NameMap), nameMap items map0 = .ok map → ¬ carriesName items "__proto__" →
      map.proto = map0.proto := by
  induction items with
  | nil =>
    intro map0 map h _
    simp only [nameMap, Except.ok.injEq] at h
    rw [h]
  | cons r rest ih =>
    intro map0 map h hc
    simp only [nameMap] at h
    cases hn : r.prop "name" with
    | error e => simp [hn] at h
    | ok name =>
      cases hi : r.prop "id" with
      | error e => simp [hn, hi] at h
      | ok id =>
        simp only [hn, hi] at h
        have hne : name.toStr ≠ "__proto__" := fun e =>
          hc ((carriesName_cons r rest _).mpr (Or.inl ⟨name, hn, e⟩))
        rw [ih _ map h (fun h4 => hc ((carriesName_cons r rest _).mpr (Or.inr h4))),
          set_of_ne map0 _ _ hne]

/-! ### Reading the name-resolution map -/

/-- An own property shadows the prototype chain. -/
theorem find_own (map : NameMap) (k : String) (h : k ∈ map.own.map (fun p => p.1)) :
    map.find? k = some (.value (getField map.own k)) := by
  simp [NameMap.find?, hasField, h]

theorem get_own (map : NameMap) (k : String) (h : k ∈ map.own.map (fun p => p.1)) :
    map.get k = .value (getField map.own k) := by
  simp [NameMap.get, find_own map k h]

/-- A map whose prototype is `Object.prototype` resolves nothing for a name
that is neither an own key nor the name of a built-in property. -/
theorem find_plain (map : NameMap) (k : String) (hp : map.proto = .objectPrototype)
    (h : k ∉ map.own.map (fun p => p.1)) (hb : k ∉ objectPrototypeKeys) :
    map.find? k = none := by
  have h1 : k ≠ "__proto__" := by
    intro e
    apply hb
    rw [e]
    decide
  simp [NameMap.find?, hasField, h, hp, objectPrototypeFind, h1, hb]

theorem get_of_find_none (map : NameMap) (k : String) (h : map.find? k = none) :
    map.get k = .value .undefined := by
  simp [NameMap.get, h]

theorem key_of_truthy (fields : List (String × JsVal)) (k : String)
    (h : (getField fields k).truthy = true) : k ∈ fields.map (fun p => p.1) := by
  by_contra hk
  rw [getField_of_not_key fields k hk] at h
  simp [JsVal.truthy] at h

theorem mapExcept_forall2 {α β : Type} (f : α → Except JsError β) (xs : List α) :
    ∀ ys, mapExcept f xs = .ok ys → List.Forall₂ (fun x y => f x = .ok y) xs ys := by
  induction xs with
  | nil =>
    intro ys h
    simp only [mapExcept, Except.ok.injEq] at h
    subst h
    exact List.Forall₂.nil
  | cons x rest ih =>
    intro ys h
    simp only [mapExcept] at h
    cases hx : f x with
    | error e => simp [hx] at h
    | ok y =>
      cases hr : mapExcept f rest with
      | error e => simp [hx, hr] at h
      | ok ys1 =>
        simp only [hx, hr, Except.ok.injEq] at h
        subst h
        exact List.Forall₂.cons hx (ih ys1 hr)

theorem forall2_mem_left {α β : Type} {R : α → β → Prop} {xs : List α} {ys : List β}
    (h : List.Forall₂ R xs ys) : List.Forall₂ (fun x y => x ∈ xs ∧ R x y) xs ys := by
  induction h with
  | nil => exact List.Forall₂.nil
  | cons hr _ ih =>
    exact List.Forall₂.cons ⟨List.mem_cons_self _ _, hr⟩
      (ih.imp (fun _ _ hm => ⟨List.mem_cons_of_mem _ hm.1, hm.2⟩))

theorem withParentId_truthy (map : NameMap) (nameKey idKey label : String)
    (payload : List (String × JsVal))
    (h : (map.get (getField payload nameKey).toStr).truthy = true) :
    withParentId map nameKey idKey label payload =
      .ok (.obj (setField (omitField payload nameKey) idKey
        (map.get (getField payload nameKey).toStr).toJson)) := by
  simp [withParentId, h]

theorem withParentId_falsy (map : NameMap) (nameKey idKey label : String)
    (payload : List (String × JsVal))
    (h : (map.get (getField payload nameKey).toStr).truthy = false) :
    withParentId map nameKey idKey label payload =
      .error (.error (label ++ " \"" ++ (getField payload nameKey).toStr ++ "\" not found")) := by
  simp [withParentId, h]

/-- A payload whose parent name has a truthy own entry gets that entry. -/
theorem withParentId_own (map : NameMap) (nameKey idKey label : String)
    (payload : List (String × JsVal))
    (h : (getField map.own (getField payload nameKey).toStr).truthy = true) :
    (map.get (getField payload nameKey).toStr).truthy = true ∧
    withParentId map nameKey idKey label payload =
      .ok (.obj (setField (omitField payload nameKey) idKey
        (getField map.own (getField payload nameKey).toStr))) := by
  have hg := get_own map _ (key_of_truthy map.own _ h)
  have ht : (map.get (getField payload nameKey).toStr).truthy = true := by
    rw [hg]
    exact h
  refine ⟨ht, ?_⟩
  rw [withParentId_truthy map nameKey idKey label payload ht, hg]
  rfl

/-- A record produced by the mapping callback for a parent name that a returned
parent carries and that is not `__proto__` has the `id` of a returned parent
filed under that name. -/
theorem withParentId_resolved_named (parents : List JsVal) (map : NameMap)
    (nameKey idKey label : String) (payload : List (String × JsVal)) (record : JsVal)
    (hmap : buildNameMap (.arr parents) = .ok map)
    (h : withParentId map nameKey idKey label payload = .ok record) :
    resolvedIfNamed parents nameKey idKey payload record := by
  intro hne hc
  have h0 : nameMap parents NameMap.empty = .ok map := hmap
  have hkey := (nameMap_keys parents _ map h0).2.2 _ (Or.inr ⟨hne, hc⟩)
  have hg := get_own map _ hkey
  unfold withParentId at h
  cases ht : (map.get (getField payload nameKey).toStr).truthy with
  | false => simp [ht] at h
  | true =>
    simp only [ht, Bool.not_true, Bool.false_eq_true, if_false, Except.ok.injEq] at h
    subst h
    rw [hg] at ht
    rcases nameMap_lookup parents _ map (getField payload nameKey).toStr hne h0 with
      h1 | ⟨r, hr, nm, i, h2, h3, h4, h5⟩
    · rw [h1] at ht
      simp [NameMap.empty, getField, Found.truthy, JsVal.truthy] at ht
    · refine ⟨r, hr, nm, i, h2, h3, h4, ?_⟩
      rw [hg]
      simp [JsVal.prop, getField_setField, Found.toJson, h5]

/-- When no returned parent is named `__proto__` and the payload's parent name
is not the name of a built-in property, a record produced by the mapping
callback has the `id` of a returned parent filed under the payload's parent
name. -/
theorem withParentId_resolved (parents : List JsVal) (map : NameMap)
    (nameKey idKey label : String) (payload : List (String × JsVal)) (record : JsVal)
    (hmap : buildNameMap (.arr parents) = .ok map)
    (hproto : ¬ carriesName parents "__proto__")
    (hb : (getField payload nameKey).toStr ∉ objectPrototypeKeys)
    (h : withParentId map nameKey idKey label payload = .ok record) :
    resolvedFrom parents nameKey idKey payload record := by
  have hne : (getField payload nameKey).toStr ≠ "__proto__" := by
    intro e
    apply hb
    rw [e]
    decide
  by_cases hc : carriesName parents (getField payload nameKey).toStr
  · exact withParentId_resolved_named parents map nameKey idKey label payload record hmap h hne hc
  · exfalso
    have h0 : nameMap parents NameMap.empty = .ok map := hmap
    have hnk : (getField payload nameKey).toStr ∉ map.own.map (fun p => p.1) := by
      intro hk
      rcases (nameMap_keys parents _ map h0).2.1 _ hk with h1 | h1
      · simp [NameMap.empty] at h1
      · exact hc h1
    have hp : map.proto = .objectPrototype := nameMap_proto parents _ map h0 hproto
    have hf := get_of_find_none map _ (find_plain map _ hp hnk hb)
    rw [withParentId_falsy map nameKey idKey label payload (by rw [hf]; rfl)] at h
    cases h

theorem buildNameMap_arr (created : JsVal) (map : NameMap)
    (h : buildNameMap created = .ok map) : ∃ items, created = .arr items := by
  cases created with
  | arr items => exact ⟨items, rfl⟩
  | undefined => simp [buildNameMap] at h
  | null => simp [buildNameMap] at h
  | bool b => simp [buildNameMap] at h
  | num n => simp [buildNameMap] at h
  | str s => simp [buildNameMap] at h
  | obj fs => simp [buildNameMap] at h

/-- C10, as the code has it: in a seeding run where `populateCourses` and
`populateLessons` succeed, the lesson batch submitted by `populateLessons`
holds, for each lesson payload in order, a record such that: if the payload's
`course_name` is the name of a course returned by the course batch-create and
is not `__proto__`, the record's `course_id` is the `id` of a returned course of
that name; and when no returned course is named `__proto__` and no payload's
`course_name` is the name of a built-in object property, every record's
`course_id` is the `id` of a returned course whose `name` is the payload's
`course_name`.  Whenever `populateProblems` succeeds the same holds for its
batch, `lesson_id` and the lessons returned by the lesson batch-create. -/
theorem foreign_keys_resolved_by_name {σ : Type} (W : World σ) (demoCourses : List JsVal)
    (lessonPayloads problemPayloads : List (List (String × JsVal)))
    (s0 s1 s2 : Sys σ) (courseMap lessonMap : NameMap)
    (hcourses : populateCourses W demoCourses s0 = (.ok courseMap, s1))
    (hlessons : populateLessons W lessonPayloads courseMap s1 = (.ok lessonMap, s2)) :
    ∃ courses lessons lessonRecords,
      createItems W "courses" demoCourses s0 = (.ok (.arr courses), s1) ∧
      createItems W "lessons" lessonRecords s1 = (.ok (.arr lessons), s2) ∧
      List.Forall₂ (resolvedIfNamed courses "course_name" "course_id") lessonPayloads
        lessonRecords ∧
      (¬ carriesName courses "__proto__" →
        (∀ p ∈ lessonPayloads, (getField p "course_name").toStr ∉ objectPrototypeKeys) →
        List.Forall₂ (resolvedFrom courses "course_name" "course_id") lessonPayloads
          lessonRecords) ∧
      ∀ created s3, populateProblems W problemPayloads lessonMap s2 = (.ok created, s3) →
        ∃ problemRecords,
          createItems W "problems" problemRecords s2 = (.ok created, s3) ∧
          List.Forall₂ (resolvedIfNamed lessons "lesson_name" "lesson_id") problemPayloads
            problemRecords ∧
          (¬ carriesName lessons "__proto__" →
            (∀ p ∈ problemPayloads, (getField p "lesson_name").toStr ∉ objectPrototypeKeys) →
            List.Forall₂ (resolvedFrom lessons "lesson_name" "lesson_id") problemPayloads
              problemRecords) := by
  -- the course tier
  rw [populateCourses, Prog.tryCatch_rethrow] at hcourses
  simp only [Prog.bind_run] at hcourses
  rcases hc : createItems W "courses" demoCourses s0 with ⟨rc, sc⟩
  rw [hc] at hcourses
  cases rc with
  | error e => simp at hcourses
  | ok createdCourses =>
    simp only [Prog.lift, Prod.mk.injEq] at hcourses
    obtain ⟨hcm, hsc⟩ := hcourses
    subst hsc
    obtain ⟨courses, hcarr⟩ := buildNameMap_arr createdCourses courseMap hcm
    subst hcarr
    -- the lesson tier
    rw [populateLessons, Prog.tryCatch_rethrow] at hlessons
    simp only [Prog.bind_run, Prog.lift] at hlessons
    cases hm : mapExcept (lessonWithId courseMap) lessonPayloads with
    | error e => simp [hm] at hlessons
    | ok lessonRecords =>
      simp only [hm] at hlessons
      rcases hl : createItems W "lessons" lessonRecords sc with ⟨rl, sl⟩
      rw [hl] at hlessons
      cases rl with
      | error e => simp at hlessons
      | ok createdLessons =>
        simp only [Prod.mk.injEq] at hlessons
        obtain ⟨hlm, hsl⟩ := hlessons
        subst hsl
        obtain ⟨lessons, hlarr⟩ := buildNameMap_arr createdLessons lessonMap hlm
        subst hlarr
        refine ⟨courses, lessons, lessonRecords, rfl, hl, ?_, ?_, ?_⟩
        · exact (mapExcept_forall2 _ _ _ hm).imp
            (fun p r h => withParentId_resolved_named courses courseMap _ _ _ p r hcm h)
        · intro hproto hb
          exact (forall2_mem_left (mapExcept_forall2 _ _ _ hm)).imp
            (fun p r h => withParentId_resolved courses courseMap _ _ _ p r hcm hproto
              (hb p h.1) h.2)
        · intro created s3 hp
          rw [populateProblems, Prog.tryCatch_rethrow] at hp
          simp only [Prog.bind_run, Prog.lift] at hp
          cases hpm : mapExcept (problemWithId lessonMap) problemPayloads with
          | error e => simp [hpm] at hp
          | ok problemRecords =>
            simp only [hpm] at hp
            refine ⟨problemRecords, hp, ?_, ?_⟩
            · exact (mapExcept_forall2 _ _ _ hpm).imp
                (fun p r h => withParentId_resolved_named lessons lessonMap _ _ _ p r hlm h)
            · intro hproto hb
              exact (forall2_mem_left (mapExcept_forall2 _ _ _ hpm)).imp
                (fun p r h => withParentId_resolved lessons lessonMap _ _ _ p r hlm hproto
                  (hb p h.1) h.2)

/-- A seeding run of `demoLessons` and `demoProblems` after the course
`Mathematics 101` was created with id 1: no returned course is named
`__proto__`, the payloads name no built-in property, and every lesson record
carries the id of the returned course of its name. -/
theorem foreign_keys_resolved_by_name_witness :
    ∃ courses lessonRecords,
      createItems scripted "courses" seedCourses seedStart =
        (.ok (.arr courses), (populateCourses scripted seedCourses seedStart).2) ∧
      ¬ carriesName courses "__proto__" ∧
      List.Forall₂ (resolvedFrom courses "course_name" "course_id") demoLessons lessonRecords := by
  obtain ⟨courses, lessons, lessonRecords, h1, _, _, h4, _⟩ :=
    foreign_keys_resolved_by_name scripted seedCourses demoLessons demoProblems seedStart
      (populateCourses scripted seedCourses seedStart).2
      (populateLessons scripted demoLessons seedCourseMap
        (populateCourses scripted seedCourses seedStart).2).2
      seedCourseMap seedLessonMap rfl rfl
  have hc : courses = seedCreatedCourses := by
    have h5 : createItems scripted "courses" seedCourses seedStart =
        (.ok (.arr seedCreatedCourses), (populateCourses scripted seedCourses seedStart).2) := rfl
    rw [h5] at h1
    simp only [Prod.mk.injEq, Except.ok.injEq, JsVal.arr.injEq, and_true] at h1
    exact h1.symm
  have hproto : ¬ carriesName courses "__proto__" := by
    rw [hc]
    rintro ⟨r, hr, n, hn, hk⟩
    simp only [seedCreatedCourses, List.mem_singleton] at hr
    subst hr
    simp only [JsVal.prop, getField, Except.ok.injEq] at hn
    revert hk
    rw [← hn]
    decide
  exact ⟨courses, lessonRecords, h1, hproto, h4 hproto (by decide)⟩

/-- C10, counterexample: the course batch-create returns one course, named
`__proto__`, whose id is an object with the one property `Mathematics 101`, holding 99.  The map built
from it has no property of its own and that object as prototype;
`populateLessons` succeeds and submits the two lessons with `course_id` 99,
although no returned course is named `Mathematics 101`, so the first lesson
record is not resolved from a returned course. -/
theorem inherited_id_is_submitted :
    createItems scripted "courses" seedCourses protoStart =
      (.ok (.arr protoCreatedCourses), (populateCourses scripted seedCourses protoStart).2) ∧
    (populateCourses scripted seedCourses protoStart).1.toOption = some protoCourseMap ∧
    (populateLessons scripted demoLessons protoCourseMap
      (populateCourses scripted seedCourses protoStart).2).1.toOption = some seedLessonMap ∧
    ((populateLessons scripted demoLessons protoCourseMap
      (populateCourses scripted seedCourses protoStart).2).2.sent.map
        (fun r => (r.method, r.url))) =
      [("POST", "http://localhost:8055/auth/login"),
       ("POST", "http://localhost:8055/api/items/courses"),
       ("POST", "http://localhost:8055/api/items/lessons")] ∧
    (∃ records, mapExcept (lessonWithId protoCourseMap) demoLessons = .ok records ∧
      records.map (fun r => (r.prop "course_id").toOption) =
        [some (.num 99), some (.num 99)] ∧
      ∀ r ∈ records, ¬ resolvedFrom protoCreatedCourses "course_name" "course_id"
        (demoLessons.headD []) r) ∧
    ¬ carriesName protoCreatedCourses "Mathematics 101" := by
  have hno : ¬ carriesName protoCreatedCourses "Mathematics 101" := by
    rintro ⟨r, hr, n, hn, hk⟩
    simp only [protoCreatedCourses, List.mem_singleton] at hr
    subst hr
    simp only [JsVal.prop, getField] at hn
    simp at hn
    revert hk
    rw [← hn]
    decide
  refine ⟨rfl, rfl, rfl, rfl, ⟨_, rfl, rfl, ?_⟩, hno⟩
  rintro r _ ⟨parent, hparent, name, id, hn, hk, _, _⟩
  exact hno ⟨parent, hparent, name, hn, hk⟩

/-! ## Seeding: unresolved and resolved parents -/

/-- The mapping stops at the first element on which the callback throws. -/
theorem mapExcept_first_error {α β : Type} (f : α → Except JsError β) (pre : List α) (p : α)
    (post : List α) (e : JsError) (hpre : ∀ q ∈ pre, ∃ y, f q = .ok y) (hp : f p = .error e) :
    mapExcept f (pre ++ p :: post) = .error e := by
  induction pre with
  | nil => simp [mapExcept, hp]
  | cons q pre ih =>
    obtain ⟨y, hy⟩ := hpre q (List.mem_cons_self _ _)
    have hrest := ih (fun r hr => hpre r (List.mem_cons_of_mem _ hr))
    simp [mapExcept, hy, hrest]

/-- A tier whose mapping throws sends nothing and raises the mapping error. -/
theorem populateLessons_unresolved {σ : Type} (W : World σ) (payloads : List (List (String × JsVal)))
    (map : NameMap) (s : Sys σ) (e : JsError)
    (h : mapExcept (lessonWithId map) payloads = .error e) :
    populateLessons W payloads map s = (.error e, s) := by
  rw [populateLessons, Prog.tryCatch_rethrow]
  simp [Prog.lift, h]

theorem populateProblems_unresolved {σ : Type} (W : World σ)
    (payloads : List (List (String × JsVal))) (map : NameMap) (s : Sys σ)
    (e : JsError) (h : mapExcept (problemWithId map) payloads = .error e) :
    populateProblems W payloads map s = (.error e, s) := by
  rw [populateProblems, Prog.tryCatch_rethrow]
  simp [Prog.lift, h]

/-- The two tiers raise at the first payload whose parent name reads falsy. -/
theorem tiers_raise_on_falsy {σ : Type} (W : World σ) (s : Sys σ) (map : NameMap) :
    (∀ pre p post,
      (∀ q ∈ pre, (map.get (getField q "course_name").toStr).truthy = true) →
      (map.get (getField p "course_name").toStr).truthy = false →
      populateLessons W (pre ++ p :: post) map s =
        (.error (.error ("Course \"" ++ (getField p "course_name").toStr ++ "\" not found")), s)) ∧
    (∀ pre p post,
      (∀ q ∈ pre, (map.get (getField q "lesson_name").toStr).truthy = true) →
      (map.get (getField p "lesson_name").toStr).truthy = false →
      populateProblems W (pre ++ p :: post) map s =
        (.error (.error ("Lesson \"" ++ (getField p "lesson_name").toStr ++ "\" not found")),
          s)) := by
  constructor
  · intro pre p post hpre hp
    apply populateLessons_unresolved
    apply mapExcept_first_error
    · intro q hq
      exact ⟨_, withParentId_truthy map _ _ _ q (hpre q hq)⟩
    · exact withParentId_falsy map _ _ _ p hp
  · intro pre p post hpre hp
    apply populateProblems_unresolved
    apply mapExcept_first_error
    · intro q hq
      exact ⟨_, withParentId_truthy map _ _ _ q (hpre q hq)⟩
    · exact withParentId_falsy map _ _ _ p hp

/-- C11, as the code has it: when the property read of the parent name of a
payload finds nothing in the map, neither a property of its own nor an
inherited one, and the payloads before it resolve, `populateLessons` raises
`Course "<name>" not found` for that name and returns in the state it started
in: no request is sent, no lesson is created.  The same holds for
`populateProblems` with `Lesson "<name>" not found`, and for the script's own
payloads, all of which name `Mathematics 101` (lessons) and `Introduction to
Algebra` (problems).  The read finds nothing when the prototype of the map is
`Object.prototype`, the map has no entry of its own for the name and the name is
not the name of a built-in property; this is so for the map built from returned
records none of which is named `__proto__` or carries the name. -/
theorem unresolved_parent_aborts {σ : Type} (W : World σ) (s : Sys σ) (map : NameMap) :
    (∀ pre p post,
      (∀ q ∈ pre, (map.get (getField q "course_name").toStr).truthy = true) →
      map.find? (getField p "course_name").toStr = none →
      populateLessons W (pre ++ p :: post) map s =
        (.error (.error ("Course \"" ++ (getField p "course_name").toStr ++ "\" not found")), s)) ∧
    (∀ pre p post,
      (∀ q ∈ pre, (map.get (getField q "lesson_name").toStr).truthy = true) →
      map.find? (getField p "lesson_name").toStr = none →
      populateProblems W (pre ++ p :: post) map s =
        (.error (.error ("Lesson \"" ++ (getField p "lesson_name").toStr ++ "\" not found")), s)) ∧
    (map.find? "Mathematics 101" = none →
      populateLessons W demoLessons map s =
        (.error (.error "Course \"Mathematics 101\" not found"), s)) ∧
    (map.find? "Introduction to Algebra" = none →
      populateProblems W demoProblems map s =
        (.error (.error "Lesson \"Introduction to Algebra\" not found"), s)) ∧
    (∀ k, map.proto = .objectPrototype → (∀ v, (k, v) ∉ map.own) → k ∉ objectPrototypeKeys →
      map.find? k = none) ∧
    (∀ created built k, buildNameMap (.arr created) = .ok built →
      ¬ carriesName created "__proto__" → ¬ carriesName created k → k ∉ objectPrototypeKeys →
      built.find? k = none) := by
  have hL := fun pre p post hpre (hp : map.find? (getField p "course_name").toStr = none) =>
    (tiers_raise_on_falsy W s map).1 pre p post hpre (by rw [get_of_find_none map _ hp]; rfl)
  have hP := fun pre p post hpre (hp : map.find? (getField p "lesson_name").toStr = none) =>
    (tiers_raise_on_falsy W s map).2 pre p post hpre (by rw [get_of_find_none map _ hp]; rfl)
  refine ⟨hL, hP, ?_, ?_, ?_, ?_⟩
  · intro h
    exact hL [] _ _ (by simp) h
  · intro h
    exact hP [] _ _ (by simp) h
  · intro k hp hk hb
    apply find_plain map k hp _ hb
    intro hmem
    obtain ⟨⟨k1, v⟩, hkv, hk1⟩ := List.mem_map.mp hmem
    simp only at hk1
    subst hk1
    exact hk v hkv
  · intro created built k hbuilt hproto hc hb
    have h0 : nameMap created NameMap.empty = .ok built := hbuilt
    apply find_plain built k (nameMap_proto created _ built h0 hproto) _ hb
    intro hk
    rcases (nameMap_keys created _ built h0).2.1 _ hk with h1 | h1
    · simp [NameMap.empty] at h1
    · exact hc h1

/-- The script's lesson payloads against the empty course map `{}`. -/
theorem unresolved_parent_aborts_witness :
    NameMap.empty.find? "Mathematics 101" = none ∧
    populateLessons scripted demoLessons NameMap.empty cacheDemoStart =
      (.error (.error "Course \"Mathematics 101\" not found"), cacheDemoStart) :=
  ⟨by decide, (unresolved_parent_aborts scripted cacheDemoStart NameMap.empty).2.2.1 (by decide)⟩

/-- C11, counterexample: the map built from a returned course named
`__proto__` whose id is an object with the one property `Mathematics 101`, holding
99, has no entry for
`Mathematics 101`, it has no property of its own at all; yet `populateLessons`
with the script's payloads does not raise: the read of `Mathematics 101` finds
99 in the prototype, and the create request for the lessons collection is
sent. -/
theorem inherited_name_does_not_abort :
    buildNameMap (.arr protoCreatedCourses) = .ok protoCourseMap ∧
    protoCourseMap.own = [] ∧
    protoCourseMap.get "Mathematics 101" = .value (.num 99) ∧
    (populateLessons scripted demoLessons protoCourseMap lessonTierStart).1.toOption =
      some seedLessonMap ∧
    ((populateLessons scripted demoLessons protoCourseMap lessonTierStart).2.sent.map
        (fun r => (r.method, r.url))) =
      [("POST", "http://localhost:8055/auth/login"),
       ("POST", "http://localhost:8055/api/items/lessons")] :=
  ⟨rfl, rfl, rfl, rfl, rfl⟩

theorem mem_setField_of_ne (map : List (String × JsVal)) (idKey k : String) (x v : JsVal)
    (hk : k ≠ idKey) : (k, v) ∈ setField map idKey x ↔ (k, v) ∈ map := by
  induction map with
  | nil =>
    simp only [setField, List.mem_singleton, Prod.mk.injEq, List.not_mem_nil, iff_false]
    intro h
    exact hk h.1
  | cons p rest ih =>
    obtain ⟨k0, v0⟩ := p
    by_cases h0 : k0 = idKey
    · subst h0
      have hk0 : ¬ k = k0 := hk
      simp [setField, hk0]
    · simp [setField, h0, ih]

theorem mem_omitField (fields : List (String × JsVal)) (nameKey k : String) (v : JsVal) :
    (k, v) ∈ omitField fields nameKey ↔ (k, v) ∈ fields ∧ k ≠ nameKey := by
  simp [omitField]

theorem mapExcept_all_ok {α β : Type} (f : α → Except JsError β) (g : α → β) (xs : List α)
    (h : ∀ x ∈ xs, f x = .ok (g x)) : mapExcept f xs = .ok (xs.map g) := by
  induction xs with
  | nil => rfl
  | cons x rest ih =>
    have hx := h x (List.mem_cons_self _ _)
    have hr := ih (fun y hy => h y (List.mem_cons_of_mem _ hy))
    simp [mapExcept, hx, hr]

/-- The record built for a resolvable payload is the payload with the name
stripped and the identifier substituted. -/
theorem substituted_of_truthy (map : List (String × JsVal)) (nameKey idKey : String)
    (hne : nameKey ≠ idKey) (payload : List (String × JsVal)) :
    substituted map nameKey idKey payload
      (.obj (setField (omitField payload nameKey) idKey
        (getField map (getField payload nameKey).toStr))) := by
  refine ⟨_, rfl, ?_, ?_, ?_⟩
  · intro v hv
    rw [mem_setField_of_ne _ _ _ _ _ hne, mem_omitField] at hv
    exact hv.2 rfl
  · rw [getField_setField]
    simp
  · intro k v hk1 hk2
    rw [mem_setField_of_ne _ _ _ _ _ hk2, mem_omitField]
    exact ⟨fun h => h.1, fun h => ⟨h, hk1⟩⟩

/-- Once the header is obtained, `request` sends its request exactly once,
whatever the answer. -/
theorem request_sent_exact {σ : Type} (W : World σ) (method path : String) (data : JsVal)
    (s s1 : Sys σ) (headers : List (String × String))
    (hauth : getAuthHeader W s = (.ok headers, s1)) :
    (request W method path data s).2.sent =
      s1.sent ++ [apiRequest s1.auth method path headers data] := by
  rw [request_eq, hauth]
  simp only
  rcases W.fetch (apiRequest s1.auth method path headers data) s1.world with ⟨fr, w⟩
  cases fr <;> rfl

theorem createItems_state {σ : Type} (W : World σ) (collection : String) (items : List JsVal)
    (s : Sys σ) :
    (createItems W collection items s).2 =
      (request W "POST" ("/api/items/" ++ collection) (.arr items) s).2 := by
  simp only [createItems, Prog.bind_run]
  rcases request W "POST" ("/api/items/" ++ collection) (.arr items) s with ⟨r, s1⟩
  cases r with
  | error e => rfl
  | ok b =>
    simp only [Prog.lift]
    cases b.prop "data" <;> rfl

theorem populateLessons_state {σ : Type} (W : World σ) (payloads : List (List (String × JsVal)))
    (map : NameMap) (s : Sys σ) (records : List JsVal)
    (h : mapExcept (lessonWithId map) payloads = .ok records) :
    (populateLessons W payloads map s).2 = (createItems W "lessons" records s).2 := by
  rw [populateLessons, Prog.tryCatch_rethrow]
  simp only [Prog.bind_run, Prog.lift, h]
  rcases createItems W "lessons" records s with ⟨r, s1⟩
  cases r with
  | error e => rfl
  | ok created => cases buildNameMap created <;> rfl

theorem populateProblems_state {σ : Type} (W : World σ)
    (payloads : List (List (String × JsVal))) (map : NameMap) (s : Sys σ)
    (records : List JsVal) (h : mapExcept (problemWithId map) payloads = .ok records) :
    (populateProblems W payloads map s).2 = (createItems W "problems" records s).2 := by
  rw [populateProblems, Prog.tryCatch_rethrow]
  simp only [Prog.bind_run, Prog.lift, h]

/-- C12: when every lesson payload resolves, `populateLessons` submits one
record per payload, in payload order; each record has no `course_name`, has
`course_id` set to the identifier the map holds for the payload's course name,
and has exactly the payload's other properties; and once the header is
obtained the batch is sent in one `POST /api/items/lessons` request, the only
request after the header.  The same holds for `populateProblems` with
`lesson_name`, `lesson_id` and `POST /api/items/problems`. -/
theorem name_stripped_and_substituted {σ : Type} (W : World σ) (s s1 : Sys σ)
    (headers : List (String × String)) (courseMap lessonMap : NameMap)
    (lessonPayloads problemPayloads : List (List (String × JsVal)))
    (hauth : getAuthHeader W s = (.ok headers, s1))
    (hlessons : ∀ p ∈ lessonPayloads,
      (getField courseMap.own (getField p "course_name").toStr).truthy = true)
    (hproblems : ∀ p ∈ problemPayloads,
      (getField lessonMap.own (getField p "lesson_name").toStr).truthy = true) :
    (∃ records,
      List.Forall₂ (substituted courseMap.own "course_name" "course_id") lessonPayloads records ∧
      (populateLessons W lessonPayloads courseMap s).2.sent =
        s1.sent ++ [apiRequest s1.auth "POST" "/api/items/lessons" headers (.arr records)]) ∧
    (∃ records,
      List.Forall₂ (substituted lessonMap.own "lesson_name" "lesson_id") problemPayloads records ∧
      (populateProblems W problemPayloads lessonMap s).2.sent =
        s1.sent ++ [apiRequest s1.auth "POST" "/api/items/problems" headers (.arr records)]) ∧
    (s1.sent = s.sent ∨ s1.sent = s.sent ++ [loginRequest s.auth]) := by
  refine ⟨?_, ?_, getAuthHeader_sent W s s1 headers hauth⟩
  · have hm := mapExcept_all_ok (lessonWithId courseMap)
      (fun p => JsVal.obj (setField (omitField p "course_name") "course_id"
        (getField courseMap.own (getField p "course_name").toStr))) lessonPayloads
      (fun p hp => (withParentId_own courseMap _ _ _ p (hlessons p hp)).2)
    refine ⟨lessonPayloads.map (fun p => JsVal.obj (setField (omitField p "course_name")
      "course_id" (getField courseMap.own (getField p "course_name").toStr))), ?_, ?_⟩
    · exact List.forall₂_map_right_iff.mpr (List.forall₂_same.mpr
        (fun p _ => substituted_of_truthy courseMap.own _ _ (by decide) p))
    · rw [populateLessons_state W _ _ s _ hm, createItems_state,
        request_sent_exact W _ _ _ s s1 headers hauth]
      rfl
  · have hm := mapExcept_all_ok (problemWithId lessonMap)
      (fun p => JsVal.obj (setField (omitField p "lesson_name") "lesson_id"
        (getField lessonMap.own (getField p "lesson_name").toStr))) problemPayloads
      (fun p hp => (withParentId_own lessonMap _ _ _ p (hproblems p hp)).2)
    refine ⟨problemPayloads.map (fun p => JsVal.obj (setField (omitField p "lesson_name")
      "lesson_id" (getField lessonMap.own (getField p "lesson_name").toStr))), ?_, ?_⟩
    · exact List.forall₂_map_right_iff.mpr (List.forall₂_same.mpr
        (fun p _ => substituted_of_truthy lessonMap.own _ _ (by decide) p))
    · rw [populateProblems_state W _ _ s _ hm, createItems_state,
        request_sent_exact W _ _ _ s s1 headers hauth]
      rfl

/-- The script's lesson and problem payloads, resolved after the course tier of
`seedStart`. -/
theorem name_stripped_and_substituted_witness :
    ∃ records,
      List.Forall₂ (substituted [("Mathematics 101", .num 1)] "course_name" "course_id")
        demoLessons records ∧
      (populateLessons scripted demoLessons seedCourseMap
          (populateCourses scripted seedCourses seedStart).2).2.sent =
        (getAuthHeader scripted (populateCourses scripted seedCourses seedStart).2).2.sent ++
          [apiRequest (getAuthHeader scripted (populateCourses scripted seedCourses seedStart).2).2.auth
            "POST" "/api/items/lessons" demoHeaders (.arr records)] :=
  (name_stripped_and_substituted scripted (populateCourses scripted seedCourses seedStart).2
    (getAuthHeader scripted (populateCourses scripted seedCourses seedStart).2).2 demoHeaders
    seedCourseMap ⟨[("Introduction to Algebra", .num 10)], .objectPrototype⟩ demoLessons
    demoProblems rfl (by decide) (by decide)).1

/-! ## Requests a program may send -/

theorem SendsOnly.mono {σ α : Type} {base : String} {p q : Request → Prop} {x : Prog σ α}
    (h : SendsOnly base p x) (hpq : ∀ r, p r → q r) : SendsOnly base q x := by
  intro s hs
  obtain ⟨hb, l, hl, hp⟩ := h s hs
  exact ⟨hb, l, hl, fun r hr => hpq r (hp r hr)⟩

theorem SendsOnly.pure {σ α : Type} (base : String) (p : Request → Prop) (a : α) :
    SendsOnly base p (Prog.pure a : Prog σ α) := by
  intro s hs
  exact ⟨hs, [], by simp [Prog.pure], by simp⟩

theorem SendsOnly.lift {σ α : Type} (base : String) (p : Request → Prop)
    (r : Except JsError α) : SendsOnly base p (Prog.lift r : Prog σ α) := by
  intro s hs
  exact ⟨hs, [], by simp [Prog.lift], by simp⟩

theorem SendsOnly.throw {σ α : Type} (base : String) (p : Request → Prop) (e : JsError) :
    SendsOnly base p (Prog.throw e : Prog σ α) := by
  intro s hs
  exact ⟨hs, [], by simp [Prog.throw], by simp⟩

theorem SendsOnly.bind {σ α β : Type} {base : String} {p : Request → Prop} {x : Prog σ α}
    {f : α → Prog σ β} (hx : SendsOnly base p x) (hf : ∀ a, SendsOnly base p (f a)) :
    SendsOnly base p (Prog.bind x f) := by
  intro s hs
  obtain ⟨hb, l, hl, hp⟩ := hx s hs
  unfold Prog.bind
  rcases hxs : x s with ⟨r, s1⟩
  rw [hxs] at hb hl
  cases r with
  | error e => exact ⟨hb, l, hl, hp⟩
  | ok a =>
    obtain ⟨hb2, l2, hl2, hp2⟩ := hf a s1 hb
    refine ⟨hb2, l ++ l2, ?_, ?_⟩
    · simp only at hl
      rw [hl2, hl, List.append_assoc]
    · intro r hr
      rcases List.mem_append.mp hr with h | h
      · exact hp r h
      · exact hp2 r h

theorem SendsOnly.tryCatch {σ α : Type} {base : String} {p : Request → Prop} {x : Prog σ α}
    {handler : JsError → Prog σ α} (hx : SendsOnly base p x)
    (hh : ∀ e, SendsOnly base p (handler e)) : SendsOnly base p (Prog.tryCatch x handler) := by
  intro s hs
  obtain ⟨hb, l, hl, hp⟩ := hx s hs
  unfold Prog.tryCatch
  rcases hxs : x s with ⟨r, s1⟩
  rw [hxs] at hb hl
  cases r with
  | ok a => exact ⟨hb, l, hl, hp⟩
  | error e =>
    obtain ⟨hb2, l2, hl2, hp2⟩ := hh e s1 hb
    refine ⟨hb2, l ++ l2, ?_, ?_⟩
    · simp only at hl
      rw [hl2, hl, List.append_assoc]
    · intro r hr
      rcases List.mem_append.mp hr with h | h
      · exact hp r h
      · exact hp2 r h

/-- A request sends at most the login request and itself. -/
theorem sendsOnly_request {σ : Type} (W : World σ) (base method path : String) (data : JsVal) :
    SendsOnly base (loginOr base method path) (request W method path data) := by
  intro s hs
  have heff := request_effect W method path data s
  have hh := getAuthHeader_effect W s
  refine ⟨by rw [heff.1, hs], ?_⟩
  have hgrow : ∃ l, (request W method path data s).2.sent = s.sent ++ l := by
    rw [request_eq]
    rcases hg : getAuthHeader W s with ⟨r, sh⟩
    rw [hg] at hh
    obtain ⟨_, hsent⟩ := hh
    simp only at hsent
    cases r with
    | error e =>
      rcases hsent with h | h
      · exact ⟨[], by simpa using h⟩
      · exact ⟨_, h⟩
    | ok headers =>
      simp only
      rcases W.fetch (apiRequest sh.auth method path headers data) sh.world with ⟨fr, w⟩
      rcases hsent with h | h
      · cases fr <;> exact ⟨[apiRequest sh.auth method path headers data], by simp [afterSend, h]⟩
      · cases fr <;>
          exact ⟨[loginRequest s.auth, apiRequest sh.auth method path headers data],
            by simp [afterSend, h]⟩
  obtain ⟨l, hl⟩ := hgrow
  refine ⟨l, hl, ?_⟩
  intro r hr
  have hmem : r ∈ sentSince s (request W method path data s).2 := by
    rw [sentSince_append s _ l hl]; exact hr
  rcases heff.2 r hmem with h | ⟨h1, h2⟩
  · left
    rw [h, ← hs]
    exact ⟨rfl, rfl⟩
  · right
    exact ⟨h1, by rw [h2, hs]⟩

theorem isRead_of_loginOr_get (base path : String) (r : Request)
    (h : loginOr base "GET" path r) : isRead base r := by
  rcases h with ⟨_, h⟩ | ⟨h, _⟩
  · exact Or.inr h
  · exact Or.inl h

/-- A read is not a request to create items. -/
theorem not_isCreateItem_of_isRead (base : String) (r : Request) (h : isRead base r) :
    ¬ isCreateItem base r := by
  rintro ⟨hm, c, hu⟩
  rcases h with h | h
  · rw [hm] at h
    exact absurd h (by decide)
  · rw [hu] at h
    have e1 := congrArg String.data h
    simp only [String.data_append, List.append_assoc] at e1
    have e2 := List.append_cancel_left e1
    have e3 : ("/api/items/".data ++ c.data).take 3 = "/auth/login".data.take 3 := by rw [e2]
    simp at e3

theorem sendsOnly_testConnection {σ : Type} (W : World σ) (base : String) :
    SendsOnly base (isRead base) (testConnection W) := by
  unfold testConnection
  apply SendsOnly.tryCatch
  · apply SendsOnly.bind
    · exact (sendsOnly_request W base "GET" "/api/server/info" .null).mono
        (isRead_of_loginOr_get base _)
    · intro result
      apply SendsOnly.bind (SendsOnly.lift _ _ _)
      intro data
      apply SendsOnly.bind (SendsOnly.lift _ _ _)
      intro directus
      apply SendsOnly.bind (SendsOnly.lift _ _ _)
      intro _
      exact SendsOnly.pure _ _ _
  · intro _
    exact SendsOnly.pure _ _ _

theorem sendsOnly_getCollections {σ : Type} (W : World σ) (base : String) :
    SendsOnly base (isRead base) (getCollections W) := by
  unfold getCollections
  apply SendsOnly.bind
  · exact (sendsOnly_request W base "GET" "/api/collections" .null).mono
      (isRead_of_loginOr_get base _)
  · intro result
    apply SendsOnly.bind (SendsOnly.lift _ _ _)
    intro data
    exact SendsOnly.pure _ _ _

/-- C13: when the live collection list lacks one of the four required
collections, the seeding script exits with code 1 right after the listing, its
error line names exactly the required collections that the list lacks, in the
order courses, lessons, problems, ai_prompts, and none of the requests it sent
asks to create items. -/
theorem seeding_requires_collections {σ : Type} (W : World σ) (env : Env) (token : String)
    (demo : DemoData) (w : σ) (sA sB : Sys σ) (collections : JsVal) (names : List JsVal)
    (htoken : env.setupToken = some token) (hne : token ≠ "")
    (hconn : testConnection W (Sys.start w env.url token) = (.ok true, sA))
    (hlist : getCollections W sA = (.ok collections, sB))
    (hnames : collectionNamesOf collections = .ok names)
    (hmissing : ∃ c ∈ requiredCollections, includesName names c = false) :
    populateDataMain W env demo w =
      { code := 1, world := sB.world, sent := sB.sent
        report := some ("Missing collections: " ++
          ", ".intercalate (requiredCollections.filter (fun c => !includesName names c))) } ∧
    (∀ c, c ∈ requiredCollections.filter (fun c => !includesName names c) ↔
      c ∈ requiredCollections ∧ includesName names c = false) ∧
    ∀ r ∈ sB.sent, ¬ isCreateItem env.url r := by
  have hpos : (missingCollections names).length > 0 := by
    obtain ⟨c, hc, hinc⟩ := hmissing
    apply List.length_pos_of_mem (a := c)
    simp only [missingCollections, List.mem_filter]
    exact ⟨hc, by simp [hinc]⟩
  refine ⟨?_, ?_, ?_⟩
  · have hpos1 : (List.filter (fun c => !includesName names c) requiredCollections).length > 0 :=
      hpos
    simp only [populateDataMain, htoken, hne, if_false, hconn, hlist, hnames, missingCollections,
      hpos1, if_true]
  · intro c
    simp [List.mem_filter]
  · intro r hr
    apply not_isCreateItem_of_isRead
    have h1 := sendsOnly_testConnection W env.url (Sys.start w env.url token) rfl
    rw [hconn] at h1
    obtain ⟨hbA, l1, hl1, hp1⟩ := h1
    have h2 := sendsOnly_getCollections W env.url sA hbA
    rw [hlist] at h2
    obtain ⟨_, l2, hl2, hp2⟩ := h2
    simp only at hl1 hl2
    rw [hl2, hl1] at hr
    simp only [Sys.start, List.nil_append, List.mem_append] at hr
    rcases hr with h | h
    · exact hp1 r h
    · exact hp2 r h

/-- A run against a backend whose listing lacks `lessons`. -/
theorem seeding_requires_collections_witness :
    populateDataMain scripted demoEnv demoData lessonsMissingScript =
      { code := 1
        world := { answers := [], clock := [] }
        sent := (getCollections scripted (testConnection scripted
          (Sys.start lessonsMissingScript "http://localhost:8055" "setup-key")).2).2.sent
        report := some "Missing collections: lessons" } :=
  (seeding_requires_collections scripted demoEnv "setup-key" demoData lessonsMissingScript
    (testConnection scripted (Sys.start lessonsMissingScript "http://localhost:8055" "setup-key")).2
    (getCollections scripted (testConnection scripted
      (Sys.start lessonsMissingScript "http://localhost:8055" "setup-key")).2).2
    (.arr [listingEntry "courses", listingEntry "problems", listingEntry "ai_prompts"])
    [.str "courses", .str "problems", .str "ai_prompts"]
    rfl (by decide) rfl rfl rfl ⟨"lessons", by decide, by decide⟩).1

/-! ## Seeding: tier order -/

theorem sends_of_only {σ α : Type} {base : String} {p : Request → Prop} {x : Prog σ α}
    (h : SendsOnly base p x) : Sends base (fun l => ∀ r ∈ l, p r) x := h

/-- Sequential composition splits the requests sent into those of the first
program and those of its continuation. -/
theorem sends_bind {σ α β : Type} {base : String} {P Q : List Request → Prop} {x : Prog σ α}
    {f : α → Prog σ β} (hx : Sends base P x) (hf : ∀ a, Sends base Q (f a)) (hQ : Q []) :
    Sends base (fun l => ∃ l1 l2, l = l1 ++ l2 ∧ P l1 ∧ Q l2) (Prog.bind x f) := by
  intro s hs
  obtain ⟨hb, l, hl, hp⟩ := hx s hs
  unfold Prog.bind
  rcases hxs : x s with ⟨r, s1⟩
  rw [hxs] at hb hl
  cases r with
  | error e => exact ⟨hb, l, hl, l, [], by simp, hp, hQ⟩
  | ok a =>
    obtain ⟨hb2, l2, hl2, hp2⟩ := hf a s1 hb
    refine ⟨hb2, l ++ l2, ?_, l, l2, rfl, hp, hp2⟩
    simp only at hl
    rw [hl2, hl, List.append_assoc]

theorem sendsOnly_createItems {σ : Type} (W : World σ) (base collection : String)
    (items : List JsVal) :
    SendsOnly base (loginOr base "POST" ("/api/items/" ++ collection))
      (createItems W collection items) := by
  unfold createItems
  apply SendsOnly.bind (sendsOnly_request W base "POST" _ _)
  intro result
  apply SendsOnly.bind (SendsOnly.lift _ _ _)
  intro data
  exact SendsOnly.pure _ _ _

theorem sendsOnly_populateCourses {σ : Type} (W : World σ) (base : String)
    (demoCourses : List JsVal) :
    SendsOnly base (loginOr base "POST" "/api/items/courses") (populateCourses W demoCourses) := by
  unfold populateCourses
  apply SendsOnly.tryCatch
  · apply SendsOnly.bind (sendsOnly_createItems W base "courses" _)
    intro created
    exact SendsOnly.lift _ _ _
  · intro e
    exact SendsOnly.throw _ _ _

theorem sendsOnly_populateLessons {σ : Type} (W : World σ) (base : String)
    (payloads : List (List (String × JsVal))) (map : NameMap) :
    SendsOnly base (loginOr base "POST" "/api/items/lessons") (populateLessons W payloads map) := by
  unfold populateLessons
  apply SendsOnly.tryCatch
  · apply SendsOnly.bind (SendsOnly.lift _ _ _)
    intro records
    apply SendsOnly.bind (sendsOnly_createItems W base "lessons" _)
    intro created
    exact SendsOnly.lift _ _ _
  · intro e
    exact SendsOnly.throw _ _ _

theorem sendsOnly_populateProblems {σ : Type} (W : World σ) (base : String)
    (payloads : List (List (String × JsVal))) (map : NameMap) :
    SendsOnly base (loginOr base "POST" "/api/items/problems")
      (populateProblems W payloads map) := by
  unfold populateProblems
  apply SendsOnly.tryCatch
  · apply SendsOnly.bind (SendsOnly.lift _ _ _)
    intro records
    exact sendsOnly_createItems W base "problems" _
  · intro e
    exact SendsOnly.throw _ _ _

theorem sendsOnly_populateAiPrompts {σ : Type} (W : World σ) (base : String)
    (payload : List JsVal) :
    SendsOnly base (loginOr base "POST" "/api/items/ai_prompts") (populateAiPrompts W payload) := by
  unfold populateAiPrompts
  apply SendsOnly.tryCatch
  · exact sendsOnly_createItems W base "ai_prompts" _
  · intro e
    exact SendsOnly.throw _ _ _

theorem loginOr_post_method (base path : String) (r : Request)
    (h : loginOr base "POST" path r) : r.method = "POST" := by
  rcases h with ⟨h, _⟩ | ⟨h, _⟩ <;> exact h

/-- The requests of the four tiers, in tier order. -/
theorem seedTiers_segments {σ : Type} (W : World σ) (base : String) (demo : DemoData)
    (s : Sys σ) (hs : s.auth.directusUrl = base) :
    ∃ l1 l2 l3 l4, (seedTiers W demo s).2.sent = s.sent ++ l1 ++ l2 ++ l3 ++ l4 ∧
      (∀ r ∈ l1, loginOr base "POST" "/api/items/courses" r) ∧
      (∀ r ∈ l2, loginOr base "POST" "/api/items/lessons" r) ∧
      (∀ r ∈ l3, loginOr base "POST" "/api/items/problems" r) ∧
      (∀ r ∈ l4, loginOr base "POST" "/api/items/ai_prompts" r) := by
  have h4 : Sends base (fun l => ∀ r ∈ l, loginOr base "POST" "/api/items/ai_prompts" r)
      (Prog.bind (populateAiPrompts W demo.aiPrompts) (fun _ => (Prog.pure () : Prog σ Unit))) :=
    sends_of_only (SendsOnly.bind (sendsOnly_populateAiPrompts W base _)
      (fun _ => SendsOnly.pure _ _ _))
  have h3 : ∀ lessonMap, Sends base _
      (Prog.bind (populateProblems W demo.problems lessonMap) (fun _ =>
        Prog.bind (populateAiPrompts W demo.aiPrompts) (fun _ => (Prog.pure () : Prog σ Unit)))) :=
    fun lessonMap => sends_bind (sends_of_only (sendsOnly_populateProblems W base _ lessonMap))
      (fun _ => h4) (by simp)
  have h2 : ∀ courseMap, Sends base _
      (Prog.bind (populateLessons W demo.lessons courseMap) (fun lessonMap =>
        Prog.bind (populateProblems W demo.problems lessonMap) (fun _ =>
          Prog.bind (populateAiPrompts W demo.aiPrompts)
            (fun _ => (Prog.pure () : Prog σ Unit))))) :=
    fun courseMap => sends_bind (sends_of_only (sendsOnly_populateLessons W base _ courseMap))
      h3 ⟨[], [], by simp⟩
  have h1 : Sends base _ (seedTiers W demo) :=
    sends_bind (sends_of_only (sendsOnly_populateCourses W base demo.courses)) h2
      ⟨[], [], rfl, by simp, [], [], by simp⟩
  obtain ⟨_, l, hl, l1, r1, e1, p1, l2, r2, e2, p2, l3, l4, e3, p3, p4⟩ := h1 s hs
  refine ⟨l1, l2, l3, l4, ?_, p1, p2, p3, p4⟩
  rw [hl, e1, e2, e3]
  simp [List.append_assoc]

/-- C14: in a seeding run that has passed its collection check, the requests
are those of the course tier, then the lesson tier, then the problem tier, then
the prompt tier, each tier sending only login requests and its own `POST
/api/items/<tier>`; a tier that raises ends the tiers in the state it left, so
no later tier sends anything; the script then exits with code 1 (code 0 when
all four succeed); and every request of the tiers is a `POST`, never a delete
or an update. -/
theorem seeding_tiers_in_order {σ : Type} (W : World σ) (env : Env) (token : String)
    (demo : DemoData) (w : σ) (sA sB : Sys σ) (collections : JsVal) (names : List JsVal)
    (htoken : env.setupToken = some token) (hne : token ≠ "")
    (hconn : testConnection W (Sys.start w env.url token) = (.ok true, sA))
    (hlist : getCollections W sA = (.ok collections, sB))
    (hnames : collectionNamesOf collections = .ok names)
    (hall : ∀ c ∈ requiredCollections, includesName names c = true) :
    (∃ l1 l2 l3 l4, (seedTiers W demo sB).2.sent = sB.sent ++ l1 ++ l2 ++ l3 ++ l4 ∧
      (∀ r ∈ l1, loginOr env.url "POST" "/api/items/courses" r) ∧
      (∀ r ∈ l2, loginOr env.url "POST" "/api/items/lessons" r) ∧
      (∀ r ∈ l3, loginOr env.url "POST" "/api/items/problems" r) ∧
      (∀ r ∈ l4, loginOr env.url "POST" "/api/items/ai_prompts" r) ∧
      ∀ r ∈ l1 ++ l2 ++ l3 ++ l4, r.method = "POST") ∧
    (∀ e s1, populateCourses W demo.courses sB = (.error e, s1) →
      seedTiers W demo sB = (.error e, s1)) ∧
    (∀ courseMap s1 e s2, populateCourses W demo.courses sB = (.ok courseMap, s1) →
      populateLessons W demo.lessons courseMap s1 = (.error e, s2) →
      seedTiers W demo sB = (.error e, s2)) ∧
    (∀ courseMap s1 lessonMap s2 e s3, populateCourses W demo.courses sB = (.ok courseMap, s1) →
      populateLessons W demo.lessons courseMap s1 = (.ok lessonMap, s2) →
      populateProblems W demo.problems lessonMap s2 = (.error e, s3) →
      seedTiers W demo sB = (.error e, s3)) ∧
    (∀ courseMap s1 lessonMap s2 created s3 e s4,
      populateCourses W demo.courses sB = (.ok courseMap, s1) →
      populateLessons W demo.lessons courseMap s1 = (.ok lessonMap, s2) →
      populateProblems W demo.problems lessonMap s2 = (.ok created, s3) →
      populateAiPrompts W demo.aiPrompts s3 = (.error e, s4) →
      seedTiers W demo sB = (.error e, s4)) ∧
    (∀ e s3, seedTiers W demo sB = (.error e, s3) →
      populateDataMain W env demo w =
        { code := 1, world := s3.world, sent := s3.sent, report := none }) ∧
    (∀ s3, seedTiers W demo sB = (.ok (), s3) →
      populateDataMain W env demo w =
        { code := 0, world := s3.world, sent := s3.sent, report := none }) := by
  have hbA := (sendsOnly_testConnection W env.url (Sys.start w env.url token) rfl).1
  rw [hconn] at hbA
  have hbB := (sendsOnly_getCollections W env.url sA hbA).1
  rw [hlist] at hbB
  have hnone : ¬ (missingCollections names).length > 0 := by
    have : missingCollections names = [] := by
      simp only [missingCollections, List.filter_eq_nil_iff]
      intro c hc
      simp [hall c hc]
    simp [this]
  refine ⟨?_, ?_, ?_, ?_, ?_, ?_, ?_⟩
  · obtain ⟨l1, l2, l3, l4, hl, p1, p2, p3, p4⟩ := seedTiers_segments W env.url demo sB hbB
    refine ⟨l1, l2, l3, l4, hl, p1, p2, p3, p4, ?_⟩
    intro r hr
    simp only [List.mem_append] at hr
    rcases hr with ((h | h) | h) | h
    · exact loginOr_post_method _ _ r (p1 r h)
    · exact loginOr_post_method _ _ r (p2 r h)
    · exact loginOr_post_method _ _ r (p3 r h)
    · exact loginOr_post_method _ _ r (p4 r h)
  · intro e s1 h1
    simp [seedTiers, h1]
  · intro courseMap s1 e s2 h1 h2
    simp [seedTiers, h1, h2]
  · intro courseMap s1 lessonMap s2 e s3 h1 h2 h3
    simp [seedTiers, h1, h2, h3]
  · intro courseMap s1 lessonMap s2 created s3 e s4 h1 h2 h3 h4
    simp [seedTiers, h1, h2, h3, h4]
  · intro e s3 h
    simp only [populateDataMain, htoken, hne, if_false, hconn, hlist, hnames, hnone, h]
  · intro s3 h
    simp only [populateDataMain, htoken, hne, if_false, hconn, hlist, hnames, hnone, h]

/-- A run in which the lesson tier fails: the script exits with code 1 after
the lesson request; nothing is sent for problems or prompts. -/
theorem seeding_tiers_in_order_witness :
    (populateDataMain scripted demoEnv demoData lessonsFailScript).code = 1 ∧
    (populateDataMain scripted demoEnv demoData lessonsFailScript).sent.map
        (fun r => (r.method, r.url)) =
      [("POST", "http://localhost:8055/auth/login"),
       ("GET", "http://localhost:8055/api/server/info"),
       ("GET", "http://localhost:8055/api/collections"),
       ("POST", "http://localhost:8055/api/items/courses"),
       ("POST", "http://localhost:8055/api/items/lessons")] := by
  have h := (seeding_tiers_in_order scripted demoEnv "setup-key" demoData lessonsFailScript
    (testConnection scripted (Sys.start lessonsFailScript "http://localhost:8055" "setup-key")).2
    (getCollections scripted (testConnection scripted
      (Sys.start lessonsFailScript "http://localhost:8055" "setup-key")).2).2
    (.arr [listingEntry "courses", listingEntry "lessons", listingEntry "problems",
      listingEntry "ai_prompts"])
    [.str "courses", .str "lessons", .str "problems", .str "ai_prompts"]
    rfl (by decide) rfl rfl rfl (by decide)).2.2.2.2.2.1 (.error "HTTP 500: boom")
    (seedTiers scripted demoData (getCollections scripted (testConnection scripted
      (Sys.start lessonsFailScript "http://localhost:8055" "setup-key")).2).2).2 rfl
  rw [h]
  exact ⟨rfl, rfl⟩

/-! ## Integrity verifier -/

theorem prop_ok_of_ne (x : JsVal) (k : String) (h : x ≠ .null ∧ x ≠ .undefined) :
    ∃ v, x.prop k = .ok v := by
  cases x with
  | undefined => exact absurd rfl h.2
  | null => exact absurd rfl h.1
  | bool b => exact ⟨_, rfl⟩
  | num n => exact ⟨_, rfl⟩
  | str t => exact ⟨_, rfl⟩
  | arr xs => exact ⟨_, rfl⟩
  | obj fs => exact ⟨_, rfl⟩

theorem someIdEq_spec (fk : String) (child : JsVal) (hc : child ≠ .null ∧ child ≠ .undefined) :
    ∀ parents : List JsVal, (∀ p ∈ parents, p ≠ .null ∧ p ≠ .undefined) →
      ∃ b, someIdEq parents child fk = .ok b ∧
        (b = true ↔ ∃ p ∈ parents, refersTo child p fk) := by
  intro parents
  induction parents with
  | nil =>
    intro _
    exact ⟨false, rfl, by simp⟩
  | cons p rest ih =>
    intro hp
    obtain ⟨pid, hpid⟩ := prop_ok_of_ne p "id" (hp p (List.mem_cons_self _ _))
    obtain ⟨ck, hck⟩ := prop_ok_of_ne child fk hc
    obtain ⟨b, hb, hspec⟩ := ih (fun q hq => hp q (List.mem_cons_of_mem _ hq))
    cases heq : strictEq pid ck with
    | true =>
      refine ⟨true, by simp [someIdEq, hpid, hck, heq], ?_⟩
      simp only [true_iff]
      exact ⟨p, List.mem_cons_self _ _, pid, ck, hpid, hck, heq⟩
    | false =>
      refine ⟨b, by simp [someIdEq, hpid, hck, heq, hb], ?_⟩
      rw [hspec]
      constructor
      · rintro ⟨q, hq, hr⟩
        exact ⟨q, List.mem_cons_of_mem _ hq, hr⟩
      · rintro ⟨q, hq, hr⟩
        rcases List.mem_cons.mp hq with h | h
        · subst h
          obtain ⟨pid1, ck1, h1, h2, h3⟩ := hr
          rw [hpid] at h1
          rw [hck] at h2
          cases h1
          cases h2
          rw [heq] at h3
          cases h3
        · exact ⟨q, h, hr⟩

theorem everyChild_spec (fk : String) (parents : List JsVal)
    (hp : ∀ p ∈ parents, p ≠ .null ∧ p ≠ .undefined) :
    ∀ children : List JsVal, (∀ c ∈ children, c ≠ .null ∧ c ≠ .undefined) →
      ∃ b, everyChild children (.arr parents) fk = .ok b ∧
        (b = true ↔ ∀ c ∈ children, ∃ p ∈ parents, refersTo c p fk) := by
  intro children
  induction children with
  | nil =>
    intro _
    exact ⟨true, rfl, by simp⟩
  | cons c rest ih =>
    intro hc
    obtain ⟨found, hfound, hspec⟩ := someIdEq_spec fk c (hc c (List.mem_cons_self _ _)) parents hp
    obtain ⟨b, hb, hrest⟩ := ih (fun q hq => hc q (List.mem_cons_of_mem _ hq))
    cases found with
    | true =>
      refine ⟨b, by simp [everyChild, someParent, hfound, hb], ?_⟩
      rw [hrest]
      constructor
      · intro h q hq
        rcases List.mem_cons.mp hq with h1 | h1
        · subst h1
          exact hspec.mp rfl
        · exact h q h1
      · intro h q hq
        exact h q (List.mem_cons_of_mem _ hq)
    | false =>
      refine ⟨false, by simp [everyChild, someParent, hfound], ?_⟩
      constructor
      · intro h; cases h
      · intro h
        have := hspec.mpr (h c (List.mem_cons_self _ _))
        cases this

/-- A relation check whose two fetches return arrays of records pushes the
valid or the broken row, according to whether every child refers to a parent. -/
theorem checkRelation_fetched {σ : Type} (W : World σ) (relationship children parents fk : String)
    (s s1 s2 : Sys σ) (childItems parentItems : List JsVal)
    (h1 : getItems W children [] s = (.ok (.arr childItems), s1))
    (h2 : getItems W parents [] s1 = (.ok (.arr parentItems), s2))
    (hc : ∀ c ∈ childItems, c ≠ .null ∧ c ≠ .undefined)
    (hp : ∀ p ∈ parentItems, p ≠ .null ∧ p ≠ .undefined) :
    ∃ row, checkRelation W relationship children parents fk s = (.ok row, s2) ∧
      row.relationship = relationship ∧
      (row.status = "✅ Valid" ↔ ∀ c ∈ childItems, ∃ p ∈ parentItems, refersTo c p fk) ∧
      (row.status ≠ "✅ Valid" → row.status = "⚠️  Broken") := by
  obtain ⟨b, hb, hspec⟩ := everyChild_spec fk parentItems hp childItems hc
  refine ⟨{ relationship := relationship
            status := if b then "✅ Valid" else "⚠️  Broken"
            details := .text ((JsVal.num childItems.length).toStr ++ " " ++ children ++ ", " ++
              (JsVal.num parentItems.length).toStr ++ " " ++ parents) }, ?_, rfl, ?_, ?_⟩
  · simp [checkRelation, Prog.tryCatch, h1, h2, Prog.lift, everyHasParent, hb, JsVal.length, pure,
      Prog.pure]
  · rw [← hspec]
    cases b <;> simp
  · cases b <;> simp

/-- A relation check never raises. -/
theorem checkRelation_total {σ : Type} (W : World σ) (relationship children parents fk : String)
    (s : Sys σ) : ∃ row s1, checkRelation W relationship children parents fk s = (.ok row, s1) := by
  unfold checkRelation Prog.tryCatch
  rcases h : (do
      let childItems ← getItems W children []
      let parentItems ← getItems W parents []
      let allValid ← Prog.lift (everyHasParent childItems parentItems fk)
      let childCount ← Prog.lift childItems.length
      let parentCount ← Prog.lift parentItems.length
      pure ({ relationship := relationship
              status := if allValid then "✅ Valid" else "⚠️  Broken"
              details := .text (childCount.toStr ++ " " ++ children ++ ", " ++
                parentCount.toStr ++ " " ++ parents) } : RelationRow) : Prog σ RelationRow) s
    with ⟨r, s1⟩
  cases r with
  | ok row => exact ⟨row, s1, rfl⟩
  | error e => exact ⟨_, s1, rfl⟩

/-- A handler that always returns makes `try`/`catch` return. -/
theorem tryCatch_total {σ α : Type} (x : Prog σ α) (handler : JsError → Prog σ α)
    (hh : ∀ e s, ∃ a s1, handler e s = (.ok a, s1)) (s : Sys σ) :
    ∃ a s1, Prog.tryCatch x handler s = (.ok a, s1) := by
  unfold Prog.tryCatch
  rcases x s with ⟨r, s1⟩
  cases r with
  | ok a => exact ⟨a, s1, rfl⟩
  | error e => exact hh e s1

/-- C15: when the fetches of `verifyRelationships` return lists of records, the
row `Lessons → Courses` is the valid row if and only if every fetched lesson's
`course_id` is strictly equal to the `id` of some fetched course (so an empty
lesson list is valid) and the broken row otherwise; likewise the row `Problems →
Lessons` with `lesson_id` and the fetched lessons.  In every case
`verifyRelationships` returns its rows and does not raise. -/
theorem relationships_checked {σ : Type} (W : World σ) (s s1 s2 s3 s4 : Sys σ)
    (lessons courses problems lessonsAgain : List JsVal)
    (h1 : getItems W "lessons" [] s = (.ok (.arr lessons), s1))
    (h2 : getItems W "courses" [] s1 = (.ok (.arr courses), s2))
    (h3 : getItems W "problems" [] s2 = (.ok (.arr problems), s3))
    (h4 : getItems W "lessons" [] s3 = (.ok (.arr lessonsAgain), s4))
    (hrec : ∀ x ∈ lessons ++ courses ++ problems ++ lessonsAgain, x ≠ .null ∧ x ≠ .undefined) :
    (∃ row1 row2, verifyRelationships W s = (.ok [row1, row2], s4) ∧
      row1.relationship = "Lessons → Courses" ∧ row2.relationship = "Problems → Lessons" ∧
      (row1.status = "✅ Valid" ↔
        ∀ lesson ∈ lessons, ∃ course ∈ courses, refersTo lesson course "course_id") ∧
      (row1.status ≠ "✅ Valid" → row1.status = "⚠️  Broken") ∧
      (row2.status = "✅ Valid" ↔
        ∀ problem ∈ problems, ∃ lesson ∈ lessonsAgain, refersTo problem lesson "lesson_id") ∧
      (row2.status ≠ "✅ Valid" → row2.status = "⚠️  Broken")) ∧
    (lessons = [] → ∃ row1 row2, verifyRelationships W s = (.ok [row1, row2], s4) ∧
      row1.status = "✅ Valid") ∧
    ∀ s0, ∃ rows s5, verifyRelationships W s0 = (.ok rows, s5) ∧ rows.length = 2 := by
  have hmem : ∀ x, (x ∈ lessons ∨ x ∈ courses ∨ x ∈ problems ∨ x ∈ lessonsAgain) →
      x ≠ .null ∧ x ≠ .undefined := by
    intro x hx
    apply hrec x
    simp only [List.mem_append]
    tauto
  obtain ⟨row1, hrow1, hrel1, hspec1, hbroken1⟩ := checkRelation_fetched W "Lessons → Courses"
    "lessons" "courses" "course_id" s s1 s2 lessons courses h1 h2
    (fun x hx => hmem x (Or.inl hx)) (fun x hx => hmem x (Or.inr (Or.inl hx)))
  obtain ⟨row2, hrow2, hrel2, hspec2, hbroken2⟩ := checkRelation_fetched W "Problems → Lessons"
    "problems" "lessons" "lesson_id" s2 s3 s4 problems lessonsAgain h3 h4
    (fun x hx => hmem x (Or.inr (Or.inr (Or.inl hx))))
    (fun x hx => hmem x (Or.inr (Or.inr (Or.inr hx))))
  have hrun : verifyRelationships W s = (.ok [row1, row2], s4) := by
    simp only [verifyRelationships, Prog.bind_run, hrow1, hrow2]
    rfl
  refine ⟨⟨row1, row2, hrun, hrel1, hrel2, hspec1, hbroken1, hspec2, hbroken2⟩, ?_, ?_⟩
  · intro hnil
    exact ⟨row1, row2, hrun, hspec1.mpr (by simp [hnil])⟩
  · intro s0
    obtain ⟨r1, sa, hr1⟩ := checkRelation_total W "Lessons → Courses" "lessons" "courses"
      "course_id" s0
    obtain ⟨r2, sb, hr2⟩ := checkRelation_total W "Problems → Lessons" "problems" "lessons"
      "lesson_id" sa
    exact ⟨[r1, r2], sb, by simp [verifyRelationships, hr1, hr2, pure, Prog.pure], rfl⟩

/-- Two lessons of which one refers to a missing course, and a problem that
refers to an existing lesson: the first row is broken, the second valid. -/
theorem relationships_checked_witness :
    (verifyRelationships scripted relationsStart).1 =
      .ok [{ relationship := "Lessons → Courses", status := "⚠️  Broken",
             details := .text "2 lessons, 1 courses" },
           { relationship := "Problems → Lessons", status := "✅ Valid",
             details := .text "1 problems, 2 lessons" }] ∧
    ∀ s0, ∃ rows s5, verifyRelationships scripted s0 = (.ok rows, s5) ∧ rows.length = 2 :=
  ⟨rfl, (relationships_checked scripted relationsStart
    (getItems scripted "lessons" [] relationsStart).2
    (getItems scripted "courses" [] (getItems scripted "lessons" [] relationsStart).2).2
    (getItems scripted "problems" []
      (getItems scripted "courses" [] (getItems scripted "lessons" [] relationsStart).2).2).2
    (getItems scripted "lessons" [] (getItems scripted "problems" []
      (getItems scripted "courses" [] (getItems scripted "lessons" [] relationsStart).2).2).2).2
    orphanLessons seedCreatedCourses linkedProblems orphanLessons rfl rfl rfl rfl
    (by decide)).2.2⟩

/-! ## Verifier: record counts -/

theorem countRow_collection (c : String) (count : JsVal) (row : DataRow)
    (h : countRow c count = .ok row) : row.collection = c := by
  unfold countRow at h
  cases hl : count.length with
  | error e => simp [hl] at h
  | ok len =>
    simp only [hl] at h
    cases hpos : positive len with
    | false =>
      simp only [hpos, Bool.false_eq_true, if_false, Except.ok.injEq] at h
      rw [← h]
    | true =>
      simp only [hpos, if_true] at h
      cases hs : sampleOf (firstOf count) with
      | error e => simp [hs] at h
      | ok sample =>
        simp only [hs, Except.ok.injEq] at h
        rw [← h]

/-- A closed form of one iteration of `verifyData`. -/
theorem dataRow_eq {σ : Type} (W : World σ) (c : String) (s : Sys σ) :
    dataRow W c s =
      match fetchCount W c s with
      | (.error e, s1) => (.ok (errorRow c e), s1)
      | (.ok count, s1) =>
        match countRow c count with
        | .error e => (.ok (errorRow c e), s1)
        | .ok row => (.ok row, s1) := by
  simp only [dataRow, Prog.tryCatch, Prog.bind_run]
  rcases fetchCount W c s with ⟨r, s1⟩
  cases r with
  | error e => rfl
  | ok count =>
    simp only [Prog.lift]
    cases countRow c count <;> rfl

/-- One iteration of `verifyData` never raises and pushes a row for its
collection. -/
theorem dataRow_total {σ : Type} (W : World σ) (c : String) (s : Sys σ) :
    ∃ row s1, dataRow W c s = (.ok row, s1) ∧ row.collection = c := by
  rw [dataRow_eq]
  rcases fetchCount W c s with ⟨r, s1⟩
  cases r with
  | error e => exact ⟨_, s1, rfl, rfl⟩
  | ok count =>
    dsimp only
    cases hc : countRow c count with
    | error e => exact ⟨_, s1, rfl, rfl⟩
    | ok row => exact ⟨row, s1, rfl, countRow_collection c count row hc⟩

theorem dataRows_total {σ : Type} (W : World σ) (names : List String) :
    ∀ s : Sys σ, ∃ rows s1, dataRows W names s = (.ok rows, s1) ∧
      rows.map (fun r => r.collection) = names := by
  induction names with
  | nil => intro s; exact ⟨[], s, rfl, rfl⟩
  | cons c rest ih =>
    intro s
    obtain ⟨row, s1, hrow, hc⟩ := dataRow_total W c s
    obtain ⟨rows, s2, hrows, hmap⟩ := ih s1
    refine ⟨row :: rows, s2, ?_, by simp [hc, hmap]⟩
    simp [dataRows, hrow, hrows, pure, Prog.pure]

theorem fetchCount_error {σ : Type} (W : World σ) (c : String) (s s1 : Sys σ) (e : JsError)
    (h : getItems W c [("limit", "1")] s = (.error e, s1)) :
    fetchCount W c s = (.error e, s1) := by
  simp only [fetchCount, Prog.bind_run, h]

theorem fetchCount_empty {σ : Type} (W : World σ) (c : String) (s s1 : Sys σ)
    (h : getItems W c [("limit", "1")] s = (.ok (.arr []), s1)) :
    fetchCount W c s = (.ok (.arr []), s1) := by
  simp only [fetchCount, Prog.bind_run, h]
  rfl

theorem fetchCount_nonempty {σ : Type} (W : World σ) (c : String) (s s1 : Sys σ)
    (first : JsVal) (rest : List JsVal)
    (h : getItems W c [("limit", "1")] s = (.ok (.arr (first :: rest)), s1)) :
    fetchCount W c s = getItems W c [] s1 := by
  have hpos : positive (.num ((first :: rest).length : Nat)) = true := by
    simp [positive]
  simp only [fetchCount, Prog.bind_run, h, Prog.lift, JsVal.length, hpos, if_true]

theorem sampleOf_ok (first : JsVal) (h : first ≠ .null ∧ first ≠ .undefined) :
    ∃ sample, sampleOf first = .ok sample := by
  obtain ⟨name, hn⟩ := prop_ok_of_ne first "name" h
  obtain ⟨question, hq⟩ := prop_ok_of_ne first "question" h
  unfold sampleOf
  simp only [hn, hq]
  cases h1 : name.truthy with
  | true => exact ⟨name.toStr, by simp⟩
  | false =>
    cases h2 : question.truthy with
    | true => exact ⟨question.toStr, by simp⟩
    | false => exact ⟨"Item", by simp⟩

/-- The row of a fetched list of records: its count is the length of the list. -/
theorem countRow_arr (c : String) (all : List JsVal)
    (h : ∀ r ∈ all.head?, r ≠ .null ∧ r ≠ .undefined) :
    ∃ sample, countRow c (.arr all) =
      .ok { collection := c, records := .num all.length, sample := sample } := by
  cases all with
  | nil => exact ⟨_, rfl⟩
  | cons first rest =>
    obtain ⟨sample, hs⟩ := sampleOf_ok first (h first rfl)
    have hpos : positive (.num ((first :: rest).length : Nat)) = true := by
      simp [positive]
    refine ⟨.text sample, ?_⟩
    simp only [countRow, JsVal.length, hpos, if_true, firstOf, hs]

/-- C18: `verifyData` always returns, with exactly one row for each of `courses`,
`lessons`, `problems`, `ai_prompts`, in that order, each row being the result
of one iteration run from the state the previous iteration left.  In an
iteration: when the `limit: 1` fetch returns the empty list, the row has count 0
and sample `Empty`; when it returns a non-empty list and the full fetch returns
the records `all` (the first of them neither `null` nor undefined), the count is
the number of records; when either fetch fails, the row is the error row of that
collection and the iteration returns all the same. -/
theorem verifyData_rows {σ : Type} (W : World σ) :
    (∀ s : Sys σ, ∃ r1 r2 r3 r4 s1 s2 s3 s4,
      dataRow W "courses" s = (.ok r1, s1) ∧ dataRow W "lessons" s1 = (.ok r2, s2) ∧
      dataRow W "problems" s2 = (.ok r3, s3) ∧ dataRow W "ai_prompts" s3 = (.ok r4, s4) ∧
      r1.collection = "courses" ∧ r2.collection = "lessons" ∧ r3.collection = "problems" ∧
      r4.collection = "ai_prompts" ∧
      verifyData W s = (.ok ([r1, r2, r3, r4], [r1, r2, r3, r4].all rowOk), s4)) ∧
    (∀ (c : String) (s s1 : Sys σ),
      getItems W c [("limit", "1")] s = (.ok (.arr []), s1) →
      dataRow W c s =
        (.ok { collection := c, records := .num 0, sample := .text "Empty" }, s1)) ∧
    (∀ (c : String) (s s1 s2 : Sys σ) (first : JsVal) (rest all : List JsVal),
      getItems W c [("limit", "1")] s = (.ok (.arr (first :: rest)), s1) →
      getItems W c [] s1 = (.ok (.arr all), s2) →
      (∀ r ∈ all.head?, r ≠ .null ∧ r ≠ .undefined) →
      ∃ sample, dataRow W c s =
        (.ok { collection := c, records := .num all.length, sample := sample }, s2)) ∧
    (∀ (c : String) (s s1 : Sys σ) (e : JsError),
      getItems W c [("limit", "1")] s = (.error e, s1) →
      dataRow W c s =
        (.ok { collection := c, records := .str "❌ Error", sample := .message e (some 30) },
          s1)) ∧
    (∀ (c : String) (s s1 s2 : Sys σ) (first : JsVal) (rest : List JsVal) (e : JsError),
      getItems W c [("limit", "1")] s = (.ok (.arr (first :: rest)), s1) →
      getItems W c [] s1 = (.error e, s2) →
      dataRow W c s =
        (.ok { collection := c, records := .str "❌ Error", sample := .message e (some 30) },
          s2)) := by
  refine ⟨?_, ?_, ?_, ?_, ?_⟩
  · intro s
    obtain ⟨r1, s1, h1, c1⟩ := dataRow_total W "courses" s
    obtain ⟨r2, s2, h2, c2⟩ := dataRow_total W "lessons" s1
    obtain ⟨r3, s3, h3, c3⟩ := dataRow_total W "problems" s2
    obtain ⟨r4, s4, h4, c4⟩ := dataRow_total W "ai_prompts" s3
    refine ⟨r1, r2, r3, r4, s1, s2, s3, s4, h1, h2, h3, h4, c1, c2, c3, c4, ?_⟩
    simp only [verifyData, expectedCollections, dataRows, Prog.bind_run, h1, h2, h3, h4,
      pure, Prog.pure]
  · intro c s s1 h
    rw [dataRow_eq, fetchCount_empty W c s s1 h]
    rfl
  · intro c s s1 s2 first rest all h1 h2 hall
    obtain ⟨sample, hs⟩ := countRow_arr c all hall
    refine ⟨sample, ?_⟩
    rw [dataRow_eq, fetchCount_nonempty W c s s1 first rest h1, h2]
    simp only [hs]
  · intro c s s1 e h
    rw [dataRow_eq, fetchCount_error W c s s1 e h]
    rfl
  · intro c s s1 s2 first rest e h1 h2
    rw [dataRow_eq, fetchCount_nonempty W c s s1 first rest h1, h2]
    rfl

theorem verifyData_rows_witness :
    dataRow scripted "problems" noneHeldStart =
      (.ok { collection := "problems", records := .num 0, sample := .text "Empty" },
        (getItems scripted "problems" [("limit", "1")] noneHeldStart).2) ∧
    (∃ sample, dataRow scripted "lessons" twoHeldStart =
      (.ok { collection := "lessons", records := .num 2, sample := sample },
        (dataRow scripted "lessons" twoHeldStart).2)) ∧
    dataRow scripted "courses" fetchFailsStart =
      (.ok { collection := "courses", records := .str "❌ Error",
             sample := .message (.error "HTTP 500: boom") (some 30) },
        (getItems scripted "courses" [("limit", "1")] fetchFailsStart).2) :=
  ⟨(verifyData_rows scripted).2.1 "problems" noneHeldStart _ rfl,
   (verifyData_rows scripted).2.2.1 "lessons" twoHeldStart _ _ _ [] seedCreatedLessons rfl rfl
     (by intro r hr; cases hr; exact ⟨by decide, by decide⟩),
   (verifyData_rows scripted).2.2.2.1 "courses" fetchFailsStart _ _ rfl⟩

/-! ## Verifier: the script -/

theorem collectionMapOf_ok (items : List JsVal) (h : ∀ c ∈ items, c ≠ .null ∧ c ≠ .undefined) :
    ∀ map, ∃ m, collectionMapOf items map = .ok m := by
  induction items with
  | nil => intro map; exact ⟨map, rfl⟩
  | cons c rest ih =>
    intro map
    obtain ⟨name, hn⟩ := prop_ok_of_ne c "collection" (h c (List.mem_cons_self _ _))
    obtain ⟨m, hm⟩ := ih (fun x hx => h x (List.mem_cons_of_mem _ hx)) (setField map name.toStr c)
    exact ⟨m, by simp only [collectionMapOf, hn, hm]⟩

/-- The check `verifyCollections` returns when the listing is an array without
`null` entries, with one row per expected collection. -/
theorem verifyCollections_ok {σ : Type} (W : World σ) (s s1 : Sys σ) (items : List JsVal)
    (hlist : getCollections W s = (.ok (.arr items), s1))
    (h : ∀ c ∈ items, c ≠ .null ∧ c ≠ .undefined) :
    ∃ tbl, verifyCollections W s = (.ok tbl, s1) ∧
      tbl.1.map (fun r => r.collection) = expectedCollections := by
  obtain ⟨m, hm⟩ := collectionMapOf_ok items h []
  refine ⟨(expectedCollections.map (collectionRow m),
    expectedCollections.all (fun c => (getField m c).truthy)), ?_, ?_⟩
  · simp only [verifyCollections, Prog.bind_run, hlist, Prog.lift, buildCollectionMap, hm,
      pure, Prog.pure]
  · simp only [List.map_map]
    have : ((fun r : CollectionRow => r.collection) ∘ collectionRow m) = id := by
      funext c
      simp only [Function.comp, collectionRow, id]
      split <;> rfl
    rw [this, List.map_id]

/-- The check `verifyData` never raises. -/
theorem verifyData_total {σ : Type} (W : World σ) (s : Sys σ) :
    ∃ tbl s1, verifyData W s = (.ok tbl, s1) ∧
      tbl.1.map (fun r => r.collection) = expectedCollections := by
  obtain ⟨rows, s1, hrows, hmap⟩ := dataRows_total W expectedCollections s
  exact ⟨(rows, rows.all rowOk), s1, by simp only [verifyData, Prog.bind_run, hrows, pure,
    Prog.pure], hmap⟩

/-- The check `verifyRelationships` never raises. -/
theorem verifyRelationships_total {σ : Type} (W : World σ) (s : Sys σ) :
    ∃ rows s1, verifyRelationships W s = (.ok rows, s1) ∧ rows.length = 2 := by
  obtain ⟨r1, s1, h1⟩ := checkRelation_total W "Lessons → Courses" "lessons" "courses"
    "course_id" s
  obtain ⟨r2, s2, h2⟩ := checkRelation_total W "Problems → Lessons" "problems" "lessons"
    "lesson_id" s1
  exact ⟨[r1, r2], s2, by simp only [verifyRelationships, Prog.bind_run, h1, h2, pure,
    Prog.pure], rfl⟩

/-- C16, as the code has it: after a successful connectivity pre-flight, when
the collection listing is read as an array without `null` entries, the
verification script produces its report (one row per expected collection in the
first two tables, two relationship rows) and ends with exit code 0, whatever the
later item fetches do; when the collection listing fails, the error reaches the
`catch` block of `main` and the script ends with exit code 1 and no report. -/
theorem verify_nonfatal_after_listing {σ : Type} (W : World σ) (env : Env) (token : String)
    (w : σ) (sA : Sys σ) (htoken : env.setupToken = some token) (hne : token ≠ "")
    (hconn : testConnection W (Sys.start w env.url token) = (.ok true, sA)) :
    (∀ items sB, getCollections W sA = (.ok (.arr items), sB) →
      (∀ c ∈ items, c ≠ .null ∧ c ≠ .undefined) →
      ∃ report, (verifySetupMain W env w).code = 0 ∧
        (verifySetupMain W env w).report = some report ∧
        report.collections.map (fun r => r.collection) = expectedCollections ∧
        report.data.map (fun r => r.collection) = expectedCollections ∧
        report.relationships.length = 2) ∧
    (∀ e sB, getCollections W sA = (.error e, sB) →
      (verifySetupMain W env w).code = 1 ∧ (verifySetupMain W env w).report = none) := by
  constructor
  · intro items sB hlist hitems
    obtain ⟨tbl, hvc, hc⟩ := verifyCollections_ok W sA sB items hlist hitems
    obtain ⟨data, sC, hvd, hd⟩ := verifyData_total W sB
    obtain ⟨rels, sD, hvr, hr⟩ := verifyRelationships_total W sC
    have hrun : verifyRun W sA = (.ok ⟨tbl.1, tbl.2, data.1, rels⟩, sD) := by
      simp only [verifyRun, Prog.bind_run, hvc, hvd, hvr, pure, Prog.pure]
    refine ⟨⟨tbl.1, tbl.2, data.1, rels⟩, ?_, ?_, hc, hd, hr⟩
    · simp only [verifySetupMain, htoken, hne, if_false, hconn, hrun]
    · simp only [verifySetupMain, htoken, hne, if_false, hconn, hrun]
  · intro e sB hlist
    have hrun : verifyRun W sA = (.error e, sB) := by
      simp only [verifyRun, verifyCollections, Prog.bind_run, hlist]
    constructor
    · simp only [verifySetupMain, htoken, hne, if_false, hconn, hrun]
    · simp only [verifySetupMain, htoken, hne, if_false, hconn, hrun]

theorem verify_nonfatal_after_listing_witness :
    (∃ report, (verifySetupMain scripted demoEnv itemsFailScript).code = 0 ∧
      (verifySetupMain scripted demoEnv itemsFailScript).report = some report ∧
      report.collections.map (fun r => r.collection) = expectedCollections ∧
      report.data.map (fun r => r.collection) = expectedCollections ∧
      report.relationships.length = 2) ∧
    (verifySetupMain scripted demoEnv listingFailsScript).code = 1 ∧
    (verifySetupMain scripted demoEnv listingFailsScript).report = none :=
  ⟨(verify_nonfatal_after_listing scripted demoEnv "setup-key" itemsFailScript _ rfl
      (by decide) rfl).1
      [listingEntry "courses", listingEntry "lessons", listingEntry "problems",
        listingEntry "ai_prompts"] _ rfl (by decide),
   (verify_nonfatal_after_listing scripted demoEnv "setup-key" listingFailsScript _ rfl
      (by decide) rfl).2 _ _ rfl⟩

/-- C16, counterexample: the connectivity pre-flight succeeds, the collection
listing then fails with status 500, and the verification script ends with exit
code 1 without a report. -/
theorem verify_listing_failure_is_fatal :
    (testConnection scripted (Sys.start listingFailsScript demoEnv.url "setup-key")).1 =
      .ok true ∧
    (verifyCollections scripted
      (testConnection scripted (Sys.start listingFailsScript demoEnv.url "setup-key")).2).1 =
      .error (.error "HTTP 500: boom") ∧
    (verifySetupMain scripted demoEnv listingFailsScript).code = 1 ∧
    (verifySetupMain scripted demoEnv listingFailsScript).report = none :=
  ⟨rfl, rfl, rfl, rfl⟩

/-! ## Verifier: reads against a backend that answers from its data -/

theorem stable_pure {σ δ α : Type} (W : World σ) (data : σ → δ) (base tok : String) (w0 : σ)
    (a : α) : Stable W data base tok w0 (Prog.pure a : Prog σ α) :=
  ⟨.ok a, fun _ hs => ⟨rfl, hs⟩⟩

theorem stable_lift {σ δ α : Type} (W : World σ) (data : σ → δ) (base tok : String) (w0 : σ)
    (r : Except JsError α) : Stable W data base tok w0 (Prog.lift r : Prog σ α) :=
  ⟨r, fun _ hs => ⟨rfl, hs⟩⟩

theorem stable_bind {σ δ α β : Type} {W : World σ} {data : σ → δ} {base tok : String} {w0 : σ}
    {x : Prog σ α} {f : α → Prog σ β} (hx : Stable W data base tok w0 x)
    (hf : ∀ a, Stable W data base tok w0 (f a)) : Stable W data base tok w0 (Prog.bind x f) := by
  obtain ⟨r, hr⟩ := hx
  cases r with
  | error e =>
    refine ⟨.error e, fun s hs => ?_⟩
    obtain ⟨h1, h2⟩ := hr s hs
    unfold Prog.bind
    rcases hxs : x s with ⟨r1, s1⟩
    rw [hxs] at h1 h2
    cases h1
    exact ⟨rfl, h2⟩
  | ok a =>
    obtain ⟨rf, hrf⟩ := hf a
    refine ⟨rf, fun s hs => ?_⟩
    obtain ⟨h1, h2⟩ := hr s hs
    unfold Prog.bind
    rcases hxs : x s with ⟨r1, s1⟩
    rw [hxs] at h1 h2
    cases h1
    exact hrf s1 h2

theorem stable_tryCatch {σ δ α : Type} {W : World σ} {data : σ → δ} {base tok : String} {w0 : σ}
    {x : Prog σ α} {handler : JsError → Prog σ α} (hx : Stable W data base tok w0 x)
    (hh : ∀ e, Stable W data base tok w0 (handler e)) :
    Stable W data base tok w0 (Prog.tryCatch x handler) := by
  obtain ⟨r, hr⟩ := hx
  cases r with
  | ok a =>
    refine ⟨.ok a, fun s hs => ?_⟩
    obtain ⟨h1, h2⟩ := hr s hs
    unfold Prog.tryCatch
    rcases hxs : x s with ⟨r1, s1⟩
    rw [hxs] at h1 h2
    cases h1
    exact ⟨rfl, h2⟩
  | error e =>
    obtain ⟨rh, hrh⟩ := hh e
    refine ⟨rh, fun s hs => ?_⟩
    obtain ⟨h1, h2⟩ := hr s hs
    unfold Prog.tryCatch
    rcases hxs : x s with ⟨r1, s1⟩
    rw [hxs] at h1 h2
    cases h1
    exact hrh s1 h2

theorem loginRequest_config (a : DirectusAuth) (base tok : String) (h1 : a.directusUrl = base)
    (h2 : a.accessToken = tok) : loginRequest a = loginRequest (DirectusAuth.new base tok) := by
  subst h1
  subst h2
  rfl

theorem tokenStillValid_true {σ : Type} (W : World σ) (s s1 : Sys σ)
    (h : tokenStillValid W s = (.ok true, s1)) : s.auth.jwtToken.truthy = true := by
  cases ht : s.auth.jwtToken.truthy with
  | true => rfl
  | false =>
    rw [tokenStillValid_no_token W s ht] at h
    simp at h

/-- The result of `refreshToken` is the outcome of the exchange, and the state
it leaves keeps the configuration; its token is the cached one or the one
returned. -/
theorem refreshToken_outcome {σ : Type} (W : World σ) (s : Sys σ) :
    (refreshToken W s).1 = exchangeOutcome (W.fetch (loginRequest s.auth) s.world).1 ∧
    (refreshToken W s).2.auth.directusUrl = s.auth.directusUrl ∧
    (refreshToken W s).2.auth.accessToken = s.auth.accessToken ∧
    ((refreshToken W s).2.auth.jwtToken = s.auth.jwtToken ∨
      (refreshToken W s).1 = .ok (refreshToken W s).2.auth.jwtToken) ∧
    ((refreshToken W s).2.world = (W.fetch (loginRequest s.auth) s.world).2 ∨
      (refreshToken W s).2.world = (W.now (W.fetch (loginRequest s.auth) s.world).2).2) := by
  rw [refreshToken_eq]
  rcases W.fetch (loginRequest s.auth) s.world with ⟨r, w⟩
  cases r with
  | rejected m => exact ⟨rfl, rfl, rfl, Or.inl rfl, Or.inl rfl⟩
  | response resp =>
    cases hok : resp.ok
    · simp [afterLogin, hok, exchangeOutcome]
    · cases ha : accessTokenOf resp <;> simp [afterLogin, hok, ha, exchangeOutcome]

theorem stable_getToken {σ δ : Type} (W : World σ) (data : σ → δ) (base tok : String) (w0 : σ)
    (hB : ReadOnlyBackend W base data) : Stable W data base tok w0 (getToken W) := by
  refine ⟨exchangeOutcome (W.fetch (loginRequest (DirectusAuth.new base tok)) w0).1,
    fun s hs => ?_⟩
  obtain ⟨hd, hu, ha, hc⟩ := hs
  obtain ⟨b, s1, hs1, hauth, _, hworld⟩ := tokenStillValid_cases W s
  have hd1 : data s1.world = data w0 := by
    rcases hworld with h | h
    · rw [h, hd]
    · rw [h, hB.clock, hd]
  rw [getToken_of_check W s s1 b hs1]
  cases b with
  | true =>
    have ht := tokenStillValid_true W s s1 hs1
    simp only [if_true]
    refine ⟨?_, hd1, by rw [hauth]; exact hu, by rw [hauth]; exact ha, by rw [hauth]; exact hc⟩
    rw [hauth]
    exact (hc ht).symm
  | false =>
    simp only [Bool.false_eq_true, if_false]
    obtain ⟨h1, h2, h3, h4, h5⟩ := refreshToken_outcome W s1
    have hreq : loginRequest s1.auth = loginRequest (DirectusAuth.new base tok) :=
      loginRequest_config s1.auth base tok (by rw [hauth, hu]) (by rw [hauth, ha])
    have hread : isRead base (loginRequest (DirectusAuth.new base tok)) := Or.inr rfl
    rw [hreq] at h1 h5
    have hres : (refreshToken W s1).1 =
        exchangeOutcome (W.fetch (loginRequest (DirectusAuth.new base tok)) w0).1 := by
      rw [h1, hB.answers _ s1.world w0 hread hd1]
    refine ⟨hres, ?_, by rw [h2, hauth, hu], by rw [h3, hauth, ha], ?_⟩
    · rcases h5 with h | h
      · rw [h, hB.keeps _ _ hread, hd1]
      · rw [h, hB.clock, hB.keeps _ _ hread, hd1]
    · intro ht
      rcases h4 with h | h
      · rw [h, hauth]
        rw [h, hauth] at ht
        exact hc ht
      · rw [← hres, h]

theorem getAuthHeader_eq {σ : Type} (W : World σ) (s : Sys σ) :
    getAuthHeader W s =
      match getToken W s with
      | (.ok token, s1) =>
        (.ok [("Authorization", "Bearer " ++ token.toStr), ("Content-Type", "application/json")],
          s1)
      | (.error e, s1) => (.error e, s1) := by
  simp only [getAuthHeader, Prog.bind_run]
  rcases getToken W s with ⟨r, s1⟩
  cases r <;> rfl

/-- A `GET` request gives one and the same result from every sound state. -/
theorem stable_get {σ δ : Type} (W : World σ) (data : σ → δ) (base tok : String) (w0 : σ)
    (hB : ReadOnlyBackend W base data) (path : String) (body : JsVal) :
    Stable W data base tok w0 (request W "GET" path body) := by
  obtain ⟨rt, hrt⟩ := stable_getToken W data base tok w0 hB
  cases rt with
  | error e =>
    refine ⟨.error e, fun s hs => ?_⟩
    obtain ⟨h1, h2⟩ := hrt s hs
    rw [request_eq, getAuthHeader_eq]
    rcases hg : getToken W s with ⟨r1, s1⟩
    rw [hg] at h1 h2
    cases h1
    exact ⟨rfl, h2⟩
  | ok token =>
    refine ⟨match (W.fetch (apiRequest (DirectusAuth.new base tok) "GET" path
        [("Authorization", "Bearer " ++ token.toStr), ("Content-Type", "application/json")]
        body) w0).1 with
      | .rejected m => .error (.fetchFailed m)
      | .response resp => responseOutcome resp, fun s hs => ?_⟩
    obtain ⟨h1, h2⟩ := hrt s hs
    rw [request_eq, getAuthHeader_eq]
    rcases hg : getToken W s with ⟨r1, s1⟩
    rw [hg] at h1 h2
    cases h1
    have hd : data s1.world = data w0 := h2.1
    have hu : s1.auth.directusUrl = base := h2.2.1
    have ha : s1.auth.accessToken = tok := h2.2.2.1
    have hc : s1.auth.jwtToken.truthy = true →
        exchangeOutcome (W.fetch (loginRequest (DirectusAuth.new base tok)) w0).1 =
          .ok s1.auth.jwtToken := h2.2.2.2
    have hreq : apiRequest s1.auth "GET" path
        [("Authorization", "Bearer " ++ token.toStr), ("Content-Type", "application/json")] body =
        apiRequest (DirectusAuth.new base tok) "GET" path
        [("Authorization", "Bearer " ++ token.toStr), ("Content-Type", "application/json")]
        body := by
      simp only [apiRequest, hu, DirectusAuth.new]
    have hread : isRead base (apiRequest (DirectusAuth.new base tok) "GET" path
        [("Authorization", "Bearer " ++ token.toStr), ("Content-Type", "application/json")]
        body) := Or.inl rfl
    simp only [hreq]
    have hans := hB.answers _ s1.world w0 hread hd
    have hkeep := hB.keeps _ s1.world hread
    rw [← hans]
    rcases hf : W.fetch (apiRequest (DirectusAuth.new base tok) "GET" path
        [("Authorization", "Bearer " ++ token.toStr), ("Content-Type", "application/json")]
        body) s1.world with ⟨r, w⟩
    rw [hf] at hkeep
    have hw : data w = data w0 := hkeep.trans hd
    cases r with
    | rejected m => exact ⟨rfl, hw, hu, ha, hc⟩
    | response resp => exact ⟨rfl, hw, hu, ha, hc⟩

theorem stable_getItems {σ δ : Type} (W : World σ) (data : σ → δ) (base tok : String) (w0 : σ)
    (hB : ReadOnlyBackend W base data) (collection : String) (options : List (String × String)) :
    Stable W data base tok w0 (getItems W collection options) := by
  unfold getItems
  apply stable_bind (stable_get W data base tok w0 hB _ _)
  intro result
  apply stable_bind (stable_lift _ _ _ _ _ _)
  intro d
  exact stable_pure _ _ _ _ _ _

theorem stable_getCollections {σ δ : Type} (W : World σ) (data : σ → δ) (base tok : String)
    (w0 : σ) (hB : ReadOnlyBackend W base data) :
    Stable W data base tok w0 (getCollections W) := by
  unfold getCollections
  apply stable_bind (stable_get W data base tok w0 hB _ _)
  intro result
  apply stable_bind (stable_lift _ _ _ _ _ _)
  intro d
  exact stable_pure _ _ _ _ _ _

theorem stable_verifyCollections {σ δ : Type} (W : World σ) (data : σ → δ) (base tok : String)
    (w0 : σ) (hB : ReadOnlyBackend W base data) :
    Stable W data base tok w0 (verifyCollections W) := by
  unfold verifyCollections
  apply stable_bind (stable_getCollections W data base tok w0 hB)
  intro collections
  apply stable_bind (stable_lift _ _ _ _ _ _)
  intro m
  exact stable_pure _ _ _ _ _ _

theorem stable_dataRow {σ δ : Type} (W : World σ) (data : σ → δ) (base tok : String) (w0 : σ)
    (hB : ReadOnlyBackend W base data) (c : String) :
    Stable W data base tok w0 (dataRow W c) := by
  unfold dataRow
  apply stable_tryCatch
  · apply stable_bind
    · unfold fetchCount
      apply stable_bind (stable_getItems W data base tok w0 hB _ _)
      intro items
      apply stable_bind (stable_lift _ _ _ _ _ _)
      intro len
      split
      · exact stable_getItems W data base tok w0 hB _ _
      · exact stable_pure _ _ _ _ _ _
    · intro count
      exact stable_lift _ _ _ _ _ _
  · intro e
    exact stable_pure _ _ _ _ _ _

theorem stable_dataRows {σ δ : Type} (W : World σ) (data : σ → δ) (base tok : String) (w0 : σ)
    (hB : ReadOnlyBackend W base data) (names : List String) :
    Stable W data base tok w0 (dataRows W names) := by
  induction names with
  | nil => exact stable_pure _ _ _ _ _ _
  | cons c rest ih =>
    unfold dataRows
    apply stable_bind (stable_dataRow W data base tok w0 hB c)
    intro row
    apply stable_bind ih
    intro rows
    exact stable_pure _ _ _ _ _ _

theorem stable_verifyData {σ δ : Type} (W : World σ) (data : σ → δ) (base tok : String) (w0 : σ)
    (hB : ReadOnlyBackend W base data) : Stable W data base tok w0 (verifyData W) := by
  unfold verifyData
  apply stable_bind (stable_dataRows W data base tok w0 hB _)
  intro rows
  exact stable_pure _ _ _ _ _ _

theorem stable_checkRelation {σ δ : Type} (W : World σ) (data : σ → δ) (base tok : String)
    (w0 : σ) (hB : ReadOnlyBackend W base data) (relationship children parents fk : String) :
    Stable W data base tok w0 (checkRelation W relationship children parents fk) := by
  unfold checkRelation
  apply stable_tryCatch
  · apply stable_bind (stable_getItems W data base tok w0 hB _ _)
    intro childItems
    apply stable_bind (stable_getItems W data base tok w0 hB _ _)
    intro parentItems
    apply stable_bind (stable_lift _ _ _ _ _ _)
    intro allValid
    apply stable_bind (stable_lift _ _ _ _ _ _)
    intro childCount
    apply stable_bind (stable_lift _ _ _ _ _ _)
    intro parentCount
    exact stable_pure _ _ _ _ _ _
  · intro e
    exact stable_pure _ _ _ _ _ _

theorem stable_verifyRun {σ δ : Type} (W : World σ) (data : σ → δ) (base tok : String) (w0 : σ)
    (hB : ReadOnlyBackend W base data) : Stable W data base tok w0 (verifyRun W) := by
  unfold verifyRun
  apply stable_bind (stable_verifyCollections W data base tok w0 hB)
  intro collections
  apply stable_bind (stable_verifyData W data base tok w0 hB)
  intro d
  apply stable_bind
  · unfold verifyRelationships
    apply stable_bind (stable_checkRelation W data base tok w0 hB _ _ _ _)
    intro r1
    apply stable_bind (stable_checkRelation W data base tok w0 hB _ _ _ _)
    intro r2
    exact stable_pure _ _ _ _ _ _
  · intro relationships
    exact stable_pure _ _ _ _ _ _

/-- A fresh client is in a sound state. -/
theorem cacheSound_start {σ δ : Type} (W : World σ) (data : σ → δ) (base tok : String)
    (w0 w : σ) (h : data w = data w0) : CacheSound W data base tok w0 (Sys.start w base tok) :=
  ⟨h, rfl, rfl, fun ht => by simp [Sys.start, DirectusAuth.new, JsVal.truthy] at ht⟩

theorem sendsOnly_getItems {σ : Type} (W : World σ) (base collection : String)
    (options : List (String × String)) :
    SendsOnly base (isRead base) (getItems W collection options) := by
  unfold getItems
  apply SendsOnly.bind
  · exact (sendsOnly_request W base "GET" _ .null).mono (isRead_of_loginOr_get base _)
  · intro result
    apply SendsOnly.bind (SendsOnly.lift _ _ _)
    intro d
    exact SendsOnly.pure _ _ _

theorem sendsOnly_verifyCollections {σ : Type} (W : World σ) (base : String) :
    SendsOnly base (isRead base) (verifyCollections W) := by
  unfold verifyCollections
  apply SendsOnly.bind (sendsOnly_getCollections W base)
  intro collections
  apply SendsOnly.bind (SendsOnly.lift _ _ _)
  intro m
  exact SendsOnly.pure _ _ _

theorem sendsOnly_dataRows {σ : Type} (W : World σ) (base : String) (names : List String) :
    SendsOnly base (isRead base) (dataRows W names) := by
  induction names with
  | nil => exact SendsOnly.pure _ _ _
  | cons c rest ih =>
    unfold dataRows
    apply SendsOnly.bind
    · unfold dataRow
      apply SendsOnly.tryCatch
      · apply SendsOnly.bind
        · unfold fetchCount
          apply SendsOnly.bind (sendsOnly_getItems W base _ _)
          intro items
          apply SendsOnly.bind (SendsOnly.lift _ _ _)
          intro len
          split
          · exact sendsOnly_getItems W base _ _
          · exact SendsOnly.pure _ _ _
        · intro count
          exact SendsOnly.lift _ _ _
      · intro e
        exact SendsOnly.pure _ _ _
    · intro row
      apply SendsOnly.bind ih
      intro rows
      exact SendsOnly.pure _ _ _

theorem sendsOnly_checkRelation {σ : Type} (W : World σ) (base : String)
    (relationship children parents fk : String) :
    SendsOnly base (isRead base) (checkRelation W relationship children parents fk) := by
  unfold checkRelation
  apply SendsOnly.tryCatch
  · apply SendsOnly.bind (sendsOnly_getItems W base _ _)
    intro childItems
    apply SendsOnly.bind (sendsOnly_getItems W base _ _)
    intro parentItems
    apply SendsOnly.bind (SendsOnly.lift _ _ _)
    intro allValid
    apply SendsOnly.bind (SendsOnly.lift _ _ _)
    intro childCount
    apply SendsOnly.bind (SendsOnly.lift _ _ _)
    intro parentCount
    exact SendsOnly.pure _ _ _
  · intro e
    exact SendsOnly.pure _ _ _

theorem sendsOnly_verifyRun {σ : Type} (W : World σ) (base : String) :
    SendsOnly base (isRead base) (verifyRun W) := by
  unfold verifyRun
  apply SendsOnly.bind (sendsOnly_verifyCollections W base)
  intro collections
  apply SendsOnly.bind
  · unfold verifyData
    apply SendsOnly.bind (sendsOnly_dataRows W base _)
    intro rows
    exact SendsOnly.pure _ _ _
  · intro d
    apply SendsOnly.bind
    · unfold verifyRelationships
      apply SendsOnly.bind (sendsOnly_checkRelation W base _ _ _ _)
      intro r1
      apply SendsOnly.bind (sendsOnly_checkRelation W base _ _ _ _)
      intro r2
      exact SendsOnly.pure _ _ _
    · intro relationships
      exact SendsOnly.pure _ _ _

/-- The simulated backend answers reads from its list of collections. -/
theorem directusSim_readOnly : ReadOnlyBackend directusSim "http://localhost:8055" id where
  clock := fun _ => rfl
  keeps := by
    intro r w h
    rcases h with h | h
    · simp [directusSim, h]
      split <;> rfl
    · simp [directusSim, h]
  answers := by
    intro r w w1 _ h
    have hw : w = w1 := h
    rw [hw]

/-- C17: in front of a backend on which reads are pure (reading the clock, the
credential exchange and `GET` requests leave its data as they are, and the
answers to these requests are determined by the request and the data), running
the three checks twice in succession, by a second fresh client or by the same
client, gives the same report (or the same error) as the first run, and the
data after each run are the data before it; whatever the backend, every request
the checks send is a `GET` request or the credential exchange. -/
theorem verification_idempotent_read_only {σ δ : Type} (W : World σ) (base tok : String)
    (data : σ → δ) (hB : ReadOnlyBackend W base data) (w : σ) :
    (verifyRun W (Sys.start (verifyRun W (Sys.start w base tok)).2.world base tok)).1 =
      (verifyRun W (Sys.start w base tok)).1 ∧
    (verifyRun W (verifyRun W (Sys.start w base tok)).2).1 =
      (verifyRun W (Sys.start w base tok)).1 ∧
    data (verifyRun W (Sys.start w base tok)).2.world = data w ∧
    data (verifyRun W (Sys.start (verifyRun W (Sys.start w base tok)).2.world base tok)).2.world =
      data w ∧
    ∀ s : Sys σ, s.auth.directusUrl = base →
      ∀ r ∈ sentSince s (verifyRun W s).2, isRead base r := by
  obtain ⟨res, hres⟩ := stable_verifyRun W data base tok w hB
  have h0 := hres _ (cacheSound_start W data base tok w w rfl)
  have h1 := hres _ (cacheSound_start W data base tok w
    (verifyRun W (Sys.start w base tok)).2.world h0.2.1)
  have h2 := hres _ h0.2
  refine ⟨by rw [h1.1, h0.1], by rw [h2.1, h0.1], h0.2.1, h1.2.1, ?_⟩
  intro s hs r hr
  obtain ⟨_, l, hl, hp⟩ := sendsOnly_verifyRun W base s hs
  rw [sentSince, hl, List.drop_left] at hr
  exact hp r hr

theorem verification_idempotent_read_only_witness :
    (verifyRun directusSim
      (Sys.start (verifyRun directusSim
        (Sys.start ["courses"] "http://localhost:8055" "setup-key")).2.world
        "http://localhost:8055" "setup-key")).1 =
      (verifyRun directusSim (Sys.start ["courses"] "http://localhost:8055" "setup-key")).1 ∧
    (verifyRun directusSim (Sys.start ["courses"] "http://localhost:8055" "setup-key")).2.world =
      ["courses"] :=
  ⟨(verification_idempotent_read_only directusSim "http://localhost:8055" "setup-key" id
      directusSim_readOnly ["courses"]).1,
   (verification_idempotent_read_only directusSim "http://localhost:8055" "setup-key" id
      directusSim_readOnly ["courses"]).2.2.1⟩

/-! ## Teardown -/

theorem sendsOnly_getItems_get {σ : Type} (W : World σ) (base collection : String)
    (options : List (String × String)) :
    SendsOnly base (loginOr base "GET" (itemsPath collection options))
      (getItems W collection options) := by
  unfold getItems
  apply SendsOnly.bind (sendsOnly_request W base "GET" _ .null)
  intro result
  apply SendsOnly.bind (SendsOnly.lift _ _ _)
  intro d
  exact SendsOnly.pure _ _ _

theorem cleanStep_of_get (base c path : String) (r : Request) (h : loginOr base "GET" path r) :
    cleanStep base c r := by
  rcases h with ⟨h, _⟩ | ⟨h, _⟩
  · exact Or.inl (by rw [h]; decide)
  · exact Or.inl (by rw [h]; decide)

theorem cleanStep_of_delete (base c id : String) (r : Request)
    (h : loginOr base "DELETE" ("/api/items/" ++ c ++ "/" ++ id) r) : cleanStep base c r := by
  rcases h with ⟨h, _⟩ | ⟨h1, h2⟩
  · exact Or.inl (by rw [h]; decide)
  · exact Or.inr ⟨h1, id, h2⟩

theorem sendsOnly_deleteItem {σ : Type} (W : World σ) (base c : String) (id : JsVal) :
    SendsOnly base (cleanStep base c) (deleteItem W c id) := by
  unfold deleteItem
  apply SendsOnly.bind
  · exact (sendsOnly_request W base "DELETE" _ .null).mono (cleanStep_of_delete base c id.toStr)
  · intro result
    exact SendsOnly.pure _ _ _

theorem sendsOnly_deleteEach {σ : Type} (W : World σ) (base c : String) (items : List JsVal) :
    SendsOnly base (cleanStep base c) (deleteEach W c items) := by
  induction items with
  | nil => exact SendsOnly.pure _ _ _
  | cons item rest ih =>
    unfold deleteEach
    apply SendsOnly.bind
    · unfold deleteAttempt
      apply SendsOnly.tryCatch
      · apply SendsOnly.bind (SendsOnly.lift _ _ _)
        intro id
        exact sendsOnly_deleteItem W base c id
      · intro e
        apply SendsOnly.bind (SendsOnly.lift _ _ _)
        intro id
        exact SendsOnly.pure _ _ _
    · intro u
      exact ih

/-- The cleanup of a collection sends no `DELETE` request for another
collection. -/
theorem sendsOnly_cleanCollection {σ : Type} (W : World σ) (base c : String) :
    SendsOnly base (cleanStep base c) (cleanCollection W c) := by
  unfold cleanCollection
  apply SendsOnly.tryCatch
  · apply SendsOnly.bind
    · exact (sendsOnly_getItems_get W base c []).mono (cleanStep_of_get base c _)
    · intro items
      apply SendsOnly.bind (SendsOnly.lift _ _ _)
      intro len
      split
      · exact SendsOnly.pure _ _ _
      · apply SendsOnly.bind (SendsOnly.lift _ _ _)
        intro elements
        apply SendsOnly.bind (sendsOnly_deleteEach W base c elements)
        intro u
        exact SendsOnly.pure _ _ _
  · intro e
    exact SendsOnly.pure _ _ _

/-- The cleanup of a collection never raises. -/
theorem cleanCollection_total {σ : Type} (W : World σ) (c : String) (s : Sys σ) :
    ∃ n s1, cleanCollection W c s = (.ok n, s1) := by
  unfold cleanCollection
  exact tryCatch_total _ _ (fun _ s1 => ⟨JsVal.num 0, s1, rfl⟩) s

theorem segmented_nil (base : String) (names : List String) : Segmented base names [] := by
  induction names with
  | nil => rfl
  | cons c rest ih => exact ⟨[], [], rfl, by simp, ih⟩

/-- The requests of the loop of `main` split into one segment for each
collection of the order. -/
theorem cleanEach_segmented {σ : Type} (W : World σ) (base : String) (collections : JsVal)
    (names : List String) : Sends base (Segmented base names) (cleanEach W collections names) := by
  induction names with
  | nil =>
    intro s hs
    exact ⟨hs, [], by simp [cleanEach, pure, Prog.pure], rfl⟩
  | cons c rest ih =>
    intro s hs
    simp only [cleanEach, Prog.bind_run, Prog.lift]
    cases hasCollection collections (.str c) with
    | error e => exact ⟨hs, [], by simp, segmented_nil base _⟩
    | ok present =>
      cases present with
      | false =>
        obtain ⟨hb, l2, hl2, hseg⟩ := ih s hs
        exact ⟨hb, l2, hl2, [], l2, rfl, by simp, hseg⟩
      | true =>
        obtain ⟨hb1, l1, hl1, hp1⟩ := sendsOnly_cleanCollection W base c s hs
        obtain ⟨n, s1, hc⟩ := cleanCollection_total W c s
        rw [hc] at hb1 hl1
        obtain ⟨hb2, l2, hl2, hseg⟩ := ih s1 hb1
        simp only [if_true, Prog.bind_run, hc]
        rcases hrest : cleanEach W collections rest s1 with ⟨r2, s2⟩
        rw [hrest] at hb2 hl2
        have hsent : s2.sent = s.sent ++ (l1 ++ l2) := by
          have e2 : s2.sent = s1.sent ++ l2 := hl2
          have e1 : s1.sent = s.sent ++ l1 := hl1
          rw [e2, e1, List.append_assoc]
        cases r2 with
        | error e => exact ⟨hb2, l1 ++ l2, hsent, l1, l2, rfl, hp1, hseg⟩
        | ok rows => exact ⟨hb2, l1 ++ l2, hsent, l1, l2, rfl, hp1, hseg⟩

theorem delete_url_data (base a b id1 id2 : String)
    (h : base ++ ("/api/items/" ++ a ++ "/" ++ id1) = base ++ ("/api/items/" ++ b ++ "/" ++ id2)) :
    a.data ++ '/' :: id1.data = b.data ++ '/' :: id2.data := by
  have e1 := congrArg String.data h
  simp only [String.data_append] at e1
  have e2 := List.append_cancel_left e1
  simp only [List.append_assoc] at e2
  have e3 := List.append_cancel_left e2
  simpa using e3

/-- A request deletes a record of at most one collection of the order. -/
theorem cleanOrder_disjoint (base : String) (i j : Nat) (a b : String) (r : Request)
    (hi : cleanOrder[i]? = some a) (hj : cleanOrder[j]? = some b)
    (ha : isDeleteOf base a r) (hb : isDeleteOf base b r) : i = j := by
  obtain ⟨_, id1, h1⟩ := ha
  obtain ⟨_, id2, h2⟩ := hb
  have h := delete_url_data base a b id1 id2 (h1.symm.trans h2)
  match i, j with
  | 0, 0 => rfl
  | 1, 1 => rfl
  | 2, 2 => rfl
  | 3, 3 => rfl
  | 0, 1 | 0, 2 | 0, 3 | 1, 0 | 1, 2 | 1, 3 | 2, 0 | 2, 1 | 2, 3 | 3, 0 | 3, 1 | 3, 2 =>
    simp only [cleanOrder, List.getElem?_cons_zero, List.getElem?_cons_succ, Option.some.injEq]
      at hi hj
    subst hi
    subst hj
    simp at h
  | n + 4, _ => simp [cleanOrder] at hi
  | _, n + 4 => simp [cleanOrder] at hj

/-- Requests sent segment by segment respect the order of the segments. -/
theorem segmented_inOrder (base : String) (names : List String)
    (hD : ∀ (i j : Nat) (a b : String) (r : Request), names[i]? = some a → names[j]? = some b →
      isDeleteOf base a r → isDeleteOf base b r → i = j) :
    ∀ (rest : List String) (k : Nat), names.drop k = rest → ∀ l, Segmented base rest l →
      l.Pairwise (InOrder base names) ∧
      ∀ r ∈ l, ∀ (i : Nat) (a : String), names[i]? = some a → isDeleteOf base a r → k ≤ i := by
  intro rest
  induction rest with
  | nil =>
    intro k _ l hl
    have hnil : l = [] := hl
    subst hnil
    exact ⟨List.Pairwise.nil, by simp⟩
  | cons c rest ih =>
    intro k hk l hl
    obtain ⟨l1, l2, rfl, h1, h2⟩ := hl
    have hc : names[k]? = some c := by
      have h := congrArg List.head? hk
      simpa [List.head?_drop] using h
    have hk1 : names.drop (k + 1) = rest := by
      have h := congrArg List.tail hk
      simpa [List.tail_drop] using h
    obtain ⟨ihp, ihk⟩ := ih (k + 1) hk1 l2 h2
    have hseg : ∀ r ∈ l1, ∀ (i : Nat) (a : String), names[i]? = some a →
        isDeleteOf base a r → i = k := by
      intro r hr i a hi ha
      rcases h1 r hr with hn | hd
      · exact absurd ha.1 hn
      · exact hD i k a c r hi hc ha hd
    refine ⟨?_, ?_⟩
    · rw [List.pairwise_append]
      refine ⟨?_, ihp, ?_⟩
      · apply List.pairwise_of_forall_mem_list
        intro x hx y hy i j a b hi hj ha hb
        rw [hseg x hx i a hi ha, hseg y hy j b hj hb]
      · intro x hx y hy i j a b hi hj ha hb
        rw [hseg x hx i a hi ha]
        have h := ihk y hy j b hj hb
        omega
    · intro r hr i a hi ha
      rcases List.mem_append.mp hr with h | h
      · rw [hseg r h i a hi ha]
      · have h3 := ihk r h i a hi ha
        omega

/-- Reads followed by the segments of the order respect the order. -/
theorem inOrder_of_segments (base : String) (l0 l : List Request)
    (h0 : ∀ r ∈ l0, r.method ≠ "DELETE") (hl : Segmented base cleanOrder l) :
    (l0 ++ l).Pairwise (InOrder base cleanOrder) := by
  rw [List.pairwise_append]
  refine ⟨?_, ?_, ?_⟩
  · apply List.pairwise_of_forall_mem_list
    intro x hx y _ i j a b _ _ ha _
    exact absurd ha.1 (h0 x hx)
  · exact (segmented_inOrder base cleanOrder
      (fun i j a b r hi hj ha hb => cleanOrder_disjoint base i j a b r hi hj ha hb)
      cleanOrder 0 rfl l hl).1
  · intro x hx y _ i j a b _ _ ha _
    exact absurd ha.1 (h0 x hx)

theorem notDelete_of_get (base path : String) (r : Request) (h : loginOr base "GET" path r) :
    r.method ≠ "DELETE" := by
  rcases h with ⟨h, _⟩ | ⟨h, _⟩
  · rw [h]; decide
  · rw [h]; decide

theorem testConnection_no_delete {σ : Type} (W : World σ) (base : String) :
    SendsOnly base (fun r => r.method ≠ "DELETE") (testConnection W) := by
  unfold testConnection
  apply SendsOnly.tryCatch
  · apply SendsOnly.bind
    · exact (sendsOnly_request W base "GET" "/api/server/info" .null).mono
        (notDelete_of_get base _)
    · intro result
      apply SendsOnly.bind (SendsOnly.lift _ _ _)
      intro d
      apply SendsOnly.bind (SendsOnly.lift _ _ _)
      intro directus
      apply SendsOnly.bind (SendsOnly.lift _ _ _)
      intro v
      exact SendsOnly.pure _ _ _
  · intro e
    exact SendsOnly.pure _ _ _

theorem getCollections_no_delete {σ : Type} (W : World σ) (base : String) :
    SendsOnly base (fun r => r.method ≠ "DELETE") (getCollections W) := by
  unfold getCollections
  apply SendsOnly.bind
  · exact (sendsOnly_request W base "GET" "/api/collections" .null).mono
      (notDelete_of_get base _)
  · intro result
    apply SendsOnly.bind (SendsOnly.lift _ _ _)
    intro d
    exact SendsOnly.pure _ _ _

/-- The requests of the `try` block of the cleanup script: the listing, then
one segment for each collection of the order. -/
theorem cleanRun_trace {σ : Type} (W : World σ) (base : String) (s : Sys σ)
    (hs : s.auth.directusUrl = base) :
    ∃ l0 l, (cleanRun W s).2.sent = s.sent ++ (l0 ++ l) ∧ (∀ r ∈ l0, r.method ≠ "DELETE") ∧
      Segmented base cleanOrder l := by
  obtain ⟨hb, l0, hl0, hp0⟩ := getCollections_no_delete W base s hs
  simp only [cleanRun, Prog.bind_run]
  rcases hg : getCollections W s with ⟨r, s1⟩
  rw [hg] at hb hl0
  cases r with
  | error e =>
    exact ⟨l0, [], by simpa using hl0, hp0, segmented_nil base _⟩
  | ok collections =>
    obtain ⟨_, l, hl, hseg⟩ := cleanEach_segmented W base collections cleanOrder s1 hb
    refine ⟨l0, l, ?_, hp0, hseg⟩
    have e1 : s1.sent = s.sent ++ l0 := hl0
    simp only []
    rw [hl, e1, List.append_assoc]

/-- The rows of the loop of `main` are those of the collections of the order
that the listing shows, in the order. -/
theorem cleanEach_rows {σ : Type} (W : World σ) (collections : JsVal) (names : List String) :
    ∀ (s s1 : Sys σ) (rows : List CleanRow),
      cleanEach W collections names s = (.ok rows, s1) →
      rows.map (fun r => r.collection) = names.filter (fun c =>
        match hasCollection collections (.str c) with
        | .ok b => b
        | .error _ => false) := by
  induction names with
  | nil =>
    intro s s1 rows h
    simp only [cleanEach, pure, Prog.pure, Prod.mk.injEq, Except.ok.injEq] at h
    rw [← h.1]
    rfl
  | cons c rest ih =>
    intro s s1 rows h
    simp only [cleanEach, Prog.bind_run, Prog.lift] at h
    cases hp : hasCollection collections (.str c) with
    | error e => simp [hp] at h
    | ok present =>
      simp only [hp] at h
      cases present with
      | false =>
        simp only [Bool.false_eq_true, if_false] at h
        simp only [List.filter, hp]
        exact ih s s1 rows h
      | true =>
        simp only [if_true, Prog.bind_run] at h
        rcases hc : cleanCollection W c s with ⟨r1, s2⟩
        rw [hc] at h
        cases r1 with
        | error e => simp at h
        | ok deleted =>
          simp only [] at h
          rcases hrest : cleanEach W collections rest s2 with ⟨r2, s3⟩
          rw [hrest] at h
          cases r2 with
          | error e => simp at h
          | ok rows2 =>
            simp only [pure, Prog.pure, Prod.mk.injEq, Except.ok.injEq] at h
            rw [← h.1]
            simp only [List.filter, hp, List.map_cons]
            rw [ih s2 s3 rows2 hrest]

/-- C19: in every run of the cleanup script, the requests sent respect the
order problems, lessons, courses, ai_prompts: whenever a request that deletes a
record of one of these collections is sent before a request that deletes a
record of another, the first collection comes first in the order.  The rows of
the printed table are those of the collections of the order that the listing
shows, in that same order. -/
theorem teardown_in_reverse_dependency_order {σ : Type} (W : World σ) (env : Env) (w : σ) :
    (cleanCollectionsMain W env w).sent.Pairwise (InOrder env.url cleanOrder) ∧
    (∀ rows, (cleanCollectionsMain W env w).report = some rows →
      (rows.map (fun r => r.collection)).Sublist cleanOrder) ∧
    ∀ (collections : JsVal) (s s1 : Sys σ) (rows : List CleanRow),
      cleanEach W collections cleanOrder s = (.ok rows, s1) →
      rows.map (fun r => r.collection) = cleanOrder.filter (fun c =>
        match hasCollection collections (.str c) with
        | .ok b => b
        | .error _ => false) := by
  refine ⟨?_, ?_, fun collections s s1 rows h => cleanEach_rows W collections cleanOrder s s1 rows h⟩
  · unfold cleanCollectionsMain
    cases env.setupToken with
    | none => exact List.Pairwise.nil
    | some token =>
      simp only []
      by_cases hne : token = ""
      · simp only [hne, if_true]
        exact List.Pairwise.nil
      · simp only [hne, if_false]
        by_cases hconfirm : env.confirmCleanup ≠ some "true"
        · rw [if_pos hconfirm]
          exact List.Pairwise.nil
        · rw [if_neg hconfirm]
          obtain ⟨hb, lt, hlt, hpt⟩ :=
            testConnection_no_delete W env.url (Sys.start w env.url token) rfl
          rcases htc : testConnection W (Sys.start w env.url token) with ⟨r, s1⟩
          rw [htc] at hb hlt
          have hsent1 : s1.sent = lt := by
            have e : s1.sent = (Sys.start w env.url token).sent ++ lt := hlt
            simpa [Sys.start] using e
          have hnodel : s1.sent.Pairwise (InOrder env.url cleanOrder) := by
            rw [hsent1]
            have h := inOrder_of_segments env.url lt [] hpt (segmented_nil _ _)
            simpa using h
          obtain ⟨l0, l, hl, hp0, hseg⟩ := cleanRun_trace W env.url s1 hb
          have hrun : (cleanRun W s1).2.sent.Pairwise (InOrder env.url cleanOrder) := by
            rw [hl, hsent1, ← List.append_assoc]
            apply inOrder_of_segments env.url (lt ++ l0) l _ hseg
            intro x hx
            rcases List.mem_append.mp hx with h | h
            · exact hpt x h
            · exact hp0 x h
          cases r with
          | error e => exact hnodel
          | ok connected =>
            cases connected with
            | false => exact hnodel
            | true =>
              simp only []
              rcases hc : cleanRun W s1 with ⟨r2, s2⟩
              rw [hc] at hrun
              cases r2 with
              | error e => exact hrun
              | ok rows => exact hrun
  · intro rows hrows
    unfold cleanCollectionsMain at hrows
    cases htok : env.setupToken with
    | none => simp [htok] at hrows
    | some token =>
      simp only [htok] at hrows
      by_cases hne : token = ""
      · simp [hne] at hrows
      · simp only [hne, if_false] at hrows
        by_cases hconfirm : env.confirmCleanup ≠ some "true"
        · rw [if_pos hconfirm] at hrows
          simp at hrows
        · rw [if_neg hconfirm] at hrows
          rcases htc : testConnection W (Sys.start w env.url token) with ⟨r, s1⟩
          rw [htc] at hrows
          cases r with
          | error e => simp at hrows
          | ok connected =>
            cases connected with
            | false => simp at hrows
            | true =>
              simp only [] at hrows
              rcases hc : cleanRun W s1 with ⟨r2, s2⟩
              rw [hc] at hrows
              cases r2 with
              | error e => simp at hrows
              | ok rows2 =>
                simp only [Option.some.injEq] at hrows
                subst hrows
                simp only [cleanRun, Prog.bind_run] at hc
                rcases hg : getCollections W s1 with ⟨r3, s3⟩
                rw [hg] at hc
                cases r3 with
                | error e => simp at hc
                | ok collections =>
                  rw [cleanEach_rows W collections cleanOrder s3 s2 rows2 hc]
                  exact List.filter_sublist _

theorem teardown_in_reverse_dependency_order_witness :
    (cleanCollectionsMain scripted cleanEnv teardownScript).sent.Pairwise
      (InOrder "http://localhost:8055" cleanOrder) ∧
    ∀ rows, (cleanCollectionsMain scripted cleanEnv teardownScript).report = some rows →
      (rows.map (fun r => r.collection)).Sublist cleanOrder :=
  ⟨(teardown_in_reverse_dependency_order scripted cleanEnv teardownScript).1,
   (teardown_in_reverse_dependency_order scripted cleanEnv teardownScript).2.1⟩

/-! ## Teardown: failures of single deletes -/

theorem deleteUrls_append (l1 l2 : List Request) :
    deleteUrls (l1 ++ l2) = deleteUrls l1 ++ deleteUrls l2 := by
  simp [deleteUrls]

theorem deleteUrls_login (a : DirectusAuth) : deleteUrls [loginRequest a] = [] := by
  simp [deleteUrls, loginRequest]

theorem prop_id_of_ne (item : JsVal) (h : item ≠ .null ∧ item ≠ .undefined) :
    item.prop "id" = .ok (idOf item) := by
  obtain ⟨v, hv⟩ := prop_ok_of_ne item "id" h
  simp only [idOf, hv]

/-- One iteration of the loop of `cleanCollection` on a record returns, and
leaves the state that the delete leaves, whether the delete failed or not. -/
theorem deleteAttempt_eq {σ : Type} (W : World σ) (c : String) (item : JsVal) (s : Sys σ)
    (h : item ≠ .null ∧ item ≠ .undefined) :
    deleteAttempt W c item s = (.ok (), (deleteItem W c (idOf item) s).2) := by
  simp only [deleteAttempt, Prog.tryCatch, Prog.bind_run, Prog.lift, prop_id_of_ne item h]
  rcases deleteItem W c (idOf item) s with ⟨r, s1⟩
  cases r <;> rfl

theorem deleteEach_eq {σ : Type} (W : World σ) (c : String) (items : List JsVal)
    (h : ∀ item ∈ items, item ≠ .null ∧ item ≠ .undefined) :
    ∀ s : Sys σ, deleteEach W c items s =
      (.ok (), items.foldl (fun st item => (deleteItem W c (idOf item) st).2) s) := by
  induction items with
  | nil => intro s; rfl
  | cons item rest ih =>
    intro s
    simp only [deleteEach, Prog.bind_run,
      deleteAttempt_eq W c item s (h item (List.mem_cons_self _ _)), List.foldl_cons]
    exact ih (fun x hx => h x (List.mem_cons_of_mem _ hx)) _

theorem deleteItem_state {σ : Type} (W : World σ) (c : String) (id : JsVal) (s : Sys σ) :
    (deleteItem W c id s).2 =
      (request W "DELETE" ("/api/items/" ++ c ++ "/" ++ id.toStr) .null s).2 := by
  simp only [deleteItem, Prog.bind_run]
  rcases request W "DELETE" ("/api/items/" ++ c ++ "/" ++ id.toStr) .null s with ⟨r, s1⟩
  cases r <;> rfl

/-- What one `deleteItem` call adds to the log: at most one `DELETE` request,
for the record, and exactly one when the header is obtained. -/
theorem deleteItem_log {σ : Type} (W : World σ) (c : String) (id : JsVal) (s : Sys σ) :
    (deleteItem W c id s).2.auth.directusUrl = s.auth.directusUrl ∧
    ∃ l, (deleteItem W c id s).2.sent = s.sent ++ l ∧
      (deleteUrls l = [] ∨
        deleteUrls l = [s.auth.directusUrl ++ ("/api/items/" ++ c ++ "/" ++ id.toStr)]) ∧
      ((∃ h s1, getAuthHeader W s = (.ok h, s1)) →
        deleteUrls l = [s.auth.directusUrl ++ ("/api/items/" ++ c ++ "/" ++ id.toStr)]) := by
  rw [deleteItem_state, request_eq]
  have heff := getAuthHeader_effect W s
  rcases hg : getAuthHeader W s with ⟨r, s1⟩
  rw [hg] at heff
  have hu : s1.auth.directusUrl = s.auth.directusUrl := heff.1
  have hsent : s1.sent = s.sent ∨ s1.sent = s.sent ++ [loginRequest s.auth] := heff.2
  cases r with
  | error e =>
    refine ⟨hu, ?_⟩
    rcases hsent with h | h
    · exact ⟨[], by simpa using h, Or.inl rfl, fun ⟨_, _, hh⟩ => by simp at hh⟩
    · exact ⟨[loginRequest s.auth], h, Or.inl (deleteUrls_login _),
        fun ⟨_, _, hh⟩ => by simp at hh⟩
  | ok headers =>
    have hdel : deleteUrls [apiRequest s1.auth "DELETE" ("/api/items/" ++ c ++ "/" ++ id.toStr)
        headers .null] = [s.auth.directusUrl ++ ("/api/items/" ++ c ++ "/" ++ id.toStr)] := by
      simp [deleteUrls, apiRequest, hu]
    have key : ∀ w, (afterSend s1 (apiRequest s1.auth "DELETE"
        ("/api/items/" ++ c ++ "/" ++ id.toStr) headers .null) w).auth.directusUrl =
          s.auth.directusUrl ∧
        ∃ l, (afterSend s1 (apiRequest s1.auth "DELETE"
          ("/api/items/" ++ c ++ "/" ++ id.toStr) headers .null) w).sent = s.sent ++ l ∧
          (deleteUrls l = [] ∨
            deleteUrls l = [s.auth.directusUrl ++ ("/api/items/" ++ c ++ "/" ++ id.toStr)]) ∧
          ((∃ h s2, (Except.ok headers, s1) = ((.ok h, s2) :
              Except JsError (List (String × String)) × Sys σ)) →
            deleteUrls l = [s.auth.directusUrl ++ ("/api/items/" ++ c ++ "/" ++ id.toStr)]) := by
      intro w
      refine ⟨hu, ?_⟩
      rcases hsent with h | h
      · refine ⟨[apiRequest s1.auth "DELETE" ("/api/items/" ++ c ++ "/" ++ id.toStr)
          headers .null], by simp [afterSend, h], Or.inr hdel, fun _ => hdel⟩
      · have hd2 : deleteUrls ([loginRequest s.auth] ++ [apiRequest s1.auth "DELETE"
            ("/api/items/" ++ c ++ "/" ++ id.toStr) headers .null]) =
            [s.auth.directusUrl ++ ("/api/items/" ++ c ++ "/" ++ id.toStr)] := by
          rw [deleteUrls_append, deleteUrls_login, hdel, List.nil_append]
        exact ⟨[loginRequest s.auth] ++ [apiRequest s1.auth "DELETE"
          ("/api/items/" ++ c ++ "/" ++ id.toStr) headers .null],
          by simp [afterSend, h], Or.inr hd2, fun _ => hd2⟩
    simp only []
    rcases W.fetch (apiRequest s1.auth "DELETE" ("/api/items/" ++ c ++ "/" ++ id.toStr)
        headers .null) s1.world with ⟨a, w⟩
    cases a with
    | rejected m => exact key w
    | response resp => exact key w

/-- What the loop of `cleanCollection` adds to the log: the `DELETE` requests
are requests for the records, in order, at most one for each, and exactly one
for each when every header is obtained. -/
theorem deleteFold_log {σ : Type} (W : World σ) (base c : String) (items : List JsVal) :
    ∀ s : Sys σ, s.auth.directusUrl = base →
      ∃ l, (items.foldl (fun st item => (deleteItem W c (idOf item) st).2) s).sent = s.sent ++ l ∧
        (deleteUrls l).Sublist (items.map (deleteUrl base c)) ∧
        ((∀ st, ∃ h st1, getAuthHeader W st = (.ok h, st1)) →
          deleteUrls l = items.map (deleteUrl base c)) := by
  induction items with
  | nil =>
    intro s _
    exact ⟨[], by simp, by simp [deleteUrls], fun _ => by simp [deleteUrls]⟩
  | cons item rest ih =>
    intro s hs
    obtain ⟨hu, l1, hl1, hcase, hall⟩ := deleteItem_log W c (idOf item) s
    obtain ⟨l2, hl2, hsub, heq⟩ := ih (deleteItem W c (idOf item) s).2 (by rw [hu, hs])
    rw [hs] at hcase hall
    refine ⟨l1 ++ l2, ?_, ?_, ?_⟩
    · rw [List.foldl_cons, hl2, hl1, List.append_assoc]
    · rw [deleteUrls_append, List.map_cons]
      rcases hcase with h | h
      · rw [h, List.nil_append]
        exact List.Sublist.cons _ hsub
      · rw [h]
        exact List.Sublist.cons₂ _ hsub
    · intro hauth
      rw [deleteUrls_append, hall (hauth s), heq hauth]
      rfl

/-- A backend that always accepts the credential exchange always gives a
header. -/
theorem getAuthHeader_ok_of_login {σ : Type} (W : World σ)
    (hlogin : ∀ (a : DirectusAuth) (w : σ), ∃ resp w1 t,
      W.fetch (loginRequest a) w = (.response resp, w1) ∧ resp.ok = true ∧
        accessTokenOf resp = .ok t) (s : Sys σ) :
    ∃ h s1, getAuthHeader W s = (.ok h, s1) := by
  rw [getAuthHeader_eq]
  obtain ⟨b, s0, hs0, _, _, _⟩ := tokenStillValid_cases W s
  rw [getToken_of_check W s s0 b hs0]
  cases b with
  | true => exact ⟨_, _, rfl⟩
  | false =>
    obtain ⟨resp, w1, t, hf, hok, ht⟩ := hlogin s0.auth s0.world
    simp only [Bool.false_eq_true, if_false, refreshToken_eq, hf, hok, if_true, ht]
    exact ⟨_, _, rfl⟩

/-- The cleanup of a collection whose records were fetched. -/
theorem cleanCollection_eq {σ : Type} (W : World σ) (c : String) (s s1 : Sys σ)
    (items : List JsVal) (hlist : getItems W c [] s = (.ok (.arr items), s1))
    (h : ∀ item ∈ items, item ≠ .null ∧ item ≠ .undefined) :
    cleanCollection W c s =
      (.ok (.num items.length),
        items.foldl (fun st item => (deleteItem W c (idOf item) st).2) s1) := by
  cases items with
  | nil =>
    simp only [cleanCollection, Prog.tryCatch, Prog.bind_run, hlist, Prog.lift, JsVal.length]
    rfl
  | cons item rest =>
    have hne : strictEq (.num (((item :: rest).length : Nat) : Int)) (.num 0) = false := by
      simp [strictEq]
      omega
    simp only [cleanCollection, Prog.tryCatch, Prog.bind_run, hlist, Prog.lift, JsVal.length,
      hne, Bool.false_eq_true, if_false, iterate, deleteEach_eq W c (item :: rest) h]
    rfl

theorem someNamed_ok (entries : List JsVal) (name : JsVal)
    (h : ∀ e ∈ entries, e ≠ .null ∧ e ≠ .undefined) : ∃ b, someNamed entries name = .ok b := by
  induction entries with
  | nil => exact ⟨false, rfl⟩
  | cons e rest ih =>
    obtain ⟨v, hv⟩ := prop_ok_of_ne e "collection" (h e (List.mem_cons_self _ _))
    obtain ⟨b, hb⟩ := ih (fun x hx => h x (List.mem_cons_of_mem _ hx))
    cases hs : strictEq v name with
    | true => exact ⟨true, by simp only [someNamed, hv, hs, if_true]⟩
    | false => exact ⟨b, by simp only [someNamed, hv, hs, Bool.false_eq_true, if_false, hb]⟩

/-- The loop of `main` returns when the listing can be searched. -/
theorem cleanEach_total {σ : Type} (W : World σ) (collections : JsVal) (names : List String)
    (h : ∀ name ∈ names, ∃ b, hasCollection collections (.str name) = .ok b) :
    ∀ s : Sys σ, ∃ rows s1, cleanEach W collections names s = (.ok rows, s1) := by
  induction names with
  | nil => intro s; exact ⟨[], s, rfl⟩
  | cons c rest ih =>
    intro s
    obtain ⟨b, hb⟩ := h c (List.mem_cons_self _ _)
    have ih1 := ih (fun x hx => h x (List.mem_cons_of_mem _ hx))
    simp only [cleanEach, Prog.bind_run, Prog.lift, hb]
    cases b with
    | false => simpa using ih1 s
    | true =>
      obtain ⟨n, s1, hc⟩ := cleanCollection_total W c s
      obtain ⟨rows, s2, hr⟩ := ih1 s1
      exact ⟨{ collection := c, deleted := n } :: rows, s2,
        by simp only [if_true, Prog.bind_run, hc, hr, pure, Prog.pure]⟩

/-- C20: `cleanCollection` never raises.  When the records of the collection
were fetched (none of them `null`), it returns their number and leaves the state
reached by calling `deleteItem` once for each record in order, whatever the
outcome of each call; the `DELETE` requests it sends are requests for these
records in order, at most one for each, and exactly one for each when the
backend always accepts the credential exchange.  The loop of the script over a
listing (no entry `null`) returns with one row for every collection of the
order that the listing shows, whatever happened in the collections before. -/
theorem teardown_tolerates_item_failures {σ : Type} (W : World σ) (base c : String) :
    (∀ s : Sys σ, ∃ n s1, cleanCollection W c s = (.ok n, s1)) ∧
    (∀ (s s1 : Sys σ) (items : List JsVal), s.auth.directusUrl = base →
      getItems W c [] s = (.ok (.arr items), s1) →
      (∀ item ∈ items, item ≠ .null ∧ item ≠ .undefined) →
      cleanCollection W c s =
        (.ok (.num items.length),
          items.foldl (fun st item => (deleteItem W c (idOf item) st).2) s1) ∧
      (deleteUrls (sentSince s1 (cleanCollection W c s).2)).Sublist
        (items.map (deleteUrl base c)) ∧
      ((∀ (a : DirectusAuth) (w : σ), ∃ resp w1 t,
          W.fetch (loginRequest a) w = (.response resp, w1) ∧ resp.ok = true ∧
            accessTokenOf resp = .ok t) →
        deleteUrls (sentSince s1 (cleanCollection W c s).2) = items.map (deleteUrl base c))) ∧
    (∀ (entries : List JsVal) (s : Sys σ), (∀ e ∈ entries, e ≠ .null ∧ e ≠ .undefined) →
      ∃ rows s1, cleanEach W (.arr entries) cleanOrder s = (.ok rows, s1) ∧
        rows.map (fun r => r.collection) = cleanOrder.filter (fun name =>
          match hasCollection (.arr entries) (.str name) with
          | .ok b => b
          | .error _ => false)) := by
  refine ⟨cleanCollection_total W c, ?_, ?_⟩
  · intro s s1 items hs hlist hitems
    have heq := cleanCollection_eq W c s s1 items hlist hitems
    have hb : s1.auth.directusUrl = base := by
      have h := (sendsOnly_getItems_get W base c [] s hs).1
      rw [hlist] at h
      exact h
    obtain ⟨l, hl, hsub, hall⟩ := deleteFold_log W base c items s1 hb
    have hsince : sentSince s1 (cleanCollection W c s).2 = l := by
      rw [heq, sentSince]
      simp only []
      rw [hl, List.drop_left]
    rw [hsince]
    exact ⟨heq, hsub, fun hlogin => hall (getAuthHeader_ok_of_login W hlogin)⟩
  · intro entries s hentries
    obtain ⟨rows, s1, h⟩ := cleanEach_total W (.arr entries) cleanOrder
      (fun name _ => someNamed_ok entries (.str name) hentries) s
    exact ⟨rows, s1, h, cleanEach_rows W (.arr entries) cleanOrder s s1 rows h⟩

theorem teardown_tolerates_item_failures_witness :
    (cleanCollection deleteFailsSim "problems"
      (Sys.start () "http://localhost:8055" "setup-key")).1 = .ok (.num 2) ∧
    deleteUrls (sentSince
      (getItems deleteFailsSim "problems" [] (Sys.start () "http://localhost:8055" "setup-key")).2
      (cleanCollection deleteFailsSim "problems"
        (Sys.start () "http://localhost:8055" "setup-key")).2) =
      ["http://localhost:8055/api/items/problems/1",
       "http://localhost:8055/api/items/problems/2"] := by
  obtain ⟨h1, _, h3⟩ := (teardown_tolerates_item_failures deleteFailsSim "http://localhost:8055"
    "problems").2.1 (Sys.start () "http://localhost:8055" "setup-key")
    (getItems deleteFailsSim "problems" [] (Sys.start () "http://localhost:8055" "setup-key")).2
    [.obj [("id", .num 1)], .obj [("id", .num 2)]] rfl rfl
    (by intro item hi; simp at hi; rcases hi with h | h <;> subst h <;> exact ⟨by decide, by decide⟩)
  exact ⟨congrArg Prod.fst h1,
    (h3 (fun a _ => ⟨_, (), .str "jwt-1", rfl, rfl, rfl⟩)).trans rfl⟩

/-! ## Seeding: falsy identifiers -/

/-- C29: when the read of the parent name of a payload in the map gives a falsy
identifier (in particular when the map holds 0, the empty string or `null`
under that name: an entry of the map itself is what the read gives) and the
payloads before it resolve, `populateLessons` raises `Course "<name>" not
found`, the error raised for a name the map does not hold, and returns in the
state it started in: no request is sent, no lesson is submitted.  The same holds
for `populateProblems` with `Lesson "<name>" not found`. -/
theorem falsy_identifier_unresolved {σ : Type} (W : World σ) (s : Sys σ) (map : NameMap) :
    (∀ pre p post,
      (∀ q ∈ pre, (map.get (getField q "course_name").toStr).truthy = true) →
      (map.get (getField p "course_name").toStr).truthy = false →
      populateLessons W (pre ++ p :: post) map s =
        (.error (.error ("Course \"" ++ (getField p "course_name").toStr ++ "\" not found")), s)) ∧
    (∀ pre p post,
      (∀ q ∈ pre, (map.get (getField q "lesson_name").toStr).truthy = true) →
      (map.get (getField p "lesson_name").toStr).truthy = false →
      populateProblems W (pre ++ p :: post) map s =
        (.error (.error ("Lesson \"" ++ (getField p "lesson_name").toStr ++ "\" not found")), s)) ∧
    (∀ id : JsVal, id = .num 0 ∨ id = .str "" ∨ id = .null ∨ id = .undefined →
      id.truthy = false) ∧
    (∀ k, k ∈ map.own.map (fun p => p.1) → map.get k = .value (getField map.own k)) := by
  refine ⟨(tiers_raise_on_falsy W s map).1, (tiers_raise_on_falsy W s map).2, ?_,
    fun k hk => get_own map k hk⟩
  intro id h
  rcases h with h | h | h | h <;> subst h <;> rfl

/-- The script's lesson payloads against a map that files the identifier 0
under `Mathematics 101`, and a problem payload against a map that files the
empty string under its lesson. -/
theorem falsy_identifier_unresolved_witness :
    populateLessons scripted ([] ++ [("course_name", .str "Mathematics 101")] :: [])
        zeroCourseMap cacheDemoStart =
      (.error (.error ("Course \"" ++
        (getField [("course_name", JsVal.str "Mathematics 101")] "course_name").toStr ++
        "\" not found")), cacheDemoStart) ∧
    populateProblems scripted ([] ++ [("lesson_name", .str "Introduction to Algebra")] :: [])
        blankLessonMap cacheDemoStart =
      (.error (.error ("Lesson \"" ++
        (getField [("lesson_name", JsVal.str "Introduction to Algebra")] "lesson_name").toStr ++
        "\" not found")), cacheDemoStart) :=
  ⟨(falsy_identifier_unresolved scripted cacheDemoStart zeroCourseMap).1
      [] [("course_name", .str "Mathematics 101")] [] (by simp) rfl,
   (falsy_identifier_unresolved scripted cacheDemoStart blankLessonMap).2.1
      [] [("lesson_name", .str "Introduction to Algebra")] [] (by simp) rfl⟩

/-! ## Seeding: the name-resolution map -/

/-- C27, as the code has it: the name-resolution map built from a list of
created records has no key twice; its keys other than `__proto__` are exactly
the names of the records other than `__proto__` (as property keys); the read of
a name other than `__proto__` gives the `id` of the last record of the list that
carries that name, which is the entry of the map under that name; and when no
record is named `__proto__`, the keys are exactly the names of the records and
the prototype of the map is `Object.prototype`, as for an empty object
literal. -/
theorem name_map_last_write_wins (created : List JsVal) (map : NameMap)
    (h : buildNameMap (.arr created) = .ok map) :
    (map.own.map (fun p => p.1)).Nodup ∧
    (∀ k, k ≠ "__proto__" → (k ∈ map.own.map (fun p => p.1) ↔ carriesName created k)) ∧
    (∀ (pre post : List JsVal) (r name id : JsVal), created = pre ++ r :: post →
      r.prop "name" = .ok name → r.prop "id" = .ok id → name.toStr ≠ "__proto__" →
      (∀ q ∈ post, ∀ n, q.prop "name" = .ok n → n.toStr ≠ name.toStr) →
      map.get name.toStr = .value id ∧ getField map.own name.toStr = id ∧
        (name.toStr, id) ∈ map.own) ∧
    (¬ carriesName created "__proto__" →
      map.proto = .objectPrototype ∧
      ∀ k, k ∈ map.own.map (fun p => p.1) ↔ carriesName created k) := by
  have h0 : nameMap created NameMap.empty = .ok map := h
  obtain ⟨hnd, hsub, hsup⟩ := nameMap_keys created _ map h0
  have hempty : ∀ k, k ∉ NameMap.empty.own.map (fun p => p.1) := by
    intro k hk
    simp [NameMap.empty] at hk
  have hkeys : ∀ k, k ≠ "__proto__" → (k ∈ map.own.map (fun p => p.1) ↔ carriesName created k) := by
    intro k hne
    constructor
    · intro hk
      rcases hsub k hk with h1 | h1
      · exact absurd h1 (hempty k)
      · exact h1
    · intro hc
      exact hsup k (Or.inr ⟨hne, hc⟩)
  refine ⟨hnd (by simp [NameMap.empty]), hkeys, ?_, ?_⟩
  · intro pre post r name id hsplit hn hi hne hlast
    have hk : name.toStr ∈ map.own.map (fun p => p.1) :=
      (hkeys _ hne).mpr ⟨r, by rw [hsplit]; simp, name, hn, rfl⟩
    have hget : getField map.own name.toStr = id := by
      rw [hsplit, nameMap_append] at h0
      cases hpre : nameMap pre NameMap.empty with
      | error e => simp [hpre] at h0
      | ok m =>
        simp only [hpre, nameMap, hn, hi] at h0
        rw [nameMap_getField_other post name.toStr _ map h0 hlast]
        exact set_getField_same m _ id hne
    refine ⟨?_, hget, ?_⟩
    · rw [get_own map _ hk, hget]
    · have hm := getField_mem map.own name.toStr hk
      rw [hget] at hm
      exact hm
  · intro hproto
    refine ⟨nameMap_proto created _ map h0 hproto, fun k => ?_⟩
    by_cases hne : k = "__proto__"
    · subst hne
      constructor
      · intro hk
        rcases hsub _ hk with h1 | h1
        · exact absurd h1 (hempty _)
        · exact h1
      · intro hc
        exact absurd hc hproto
    · exact hkeys k hne

/-- Two records named `Algebra`: the map has the two keys `Algebra` and
`Geometry`, and `Algebra` resolves to the identifier 3 of the later record. -/
theorem name_map_last_write_wins_witness :
    buildNameMap (.arr duplicateCreated) =
      .ok ⟨[("Algebra", .num 3), ("Geometry", .num 2)], .objectPrototype⟩ ∧
    (⟨[("Algebra", .num 3), ("Geometry", .num 2)], .objectPrototype⟩ : NameMap).get
      (JsVal.str "Algebra").toStr = .value (.num 3) :=
  ⟨rfl, ((name_map_last_write_wins duplicateCreated
    ⟨[("Algebra", .num 3), ("Geometry", .num 2)], .objectPrototype⟩ rfl).2.2.1
    [.obj [("id", .num 1), ("name", .str "Algebra")],
     .obj [("id", .num 2), ("name", .str "Geometry")]] []
    (.obj [("id", .num 3), ("name", .str "Algebra")]) (.str "Algebra") (.num 3) rfl rfl rfl
    (by decide) (by simp)).1⟩

/-- C27, counterexample: one created record, named `__proto__`, with the
identifier 5.  The map built from it is the empty map: it has no entry under
`__proto__` (it has no key at all), and the read of `__proto__` gives the object
`Object.prototype`, not the identifier 5 of the record. -/
theorem proto_name_is_not_filed :
    carriesName protoNamedCreated "__proto__" ∧
    buildNameMap (.arr protoNamedCreated) = .ok NameMap.empty ∧
    NameMap.empty.own = [] ∧
    NameMap.empty.get "__proto__" = .objectPrototype ∧
    NameMap.empty.get "__proto__" ≠ .value (.num 5) :=
  ⟨⟨_, List.mem_singleton.mpr rfl, .str "__proto__", rfl, rfl⟩, rfl, rfl, rfl, by decide⟩

/-! ## Credential cache: a failed refresh -/

/-- A refresh that raises leaves the cache as it was. -/
theorem refreshToken_error_auth {σ : Type} (W : World σ) (s s1 : Sys σ) (e : JsError)
    (h : refreshToken W s = (.error e, s1)) :
    s1.auth = s.auth ∧ s1.sent = s.sent ++ [loginRequest s.auth] := by
  rw [refreshToken_eq] at h
  rcases hf : W.fetch (loginRequest s.auth) s.world with ⟨r, w⟩
  rw [hf] at h
  cases r with
  | rejected m =>
    simp only [Prod.mk.injEq] at h
    rw [← h.2]
    exact ⟨rfl, rfl⟩
  | response resp =>
    cases hok : resp.ok
    · simp only [hok, Bool.false_eq_true, if_false, Prod.mk.injEq] at h
      rw [← h.2]
      exact ⟨rfl, rfl⟩
    · cases ha : accessTokenOf resp with
      | error e1 =>
        simp only [hok, ha, if_true, Prod.mk.injEq] at h
        rw [← h.2]
        exact ⟨rfl, rfl⟩
      | ok token => simp [hok, ha] at h

/-- A `getToken` call that raises leaves the cache as it was. -/
theorem getToken_error_auth {σ : Type} (W : World σ) (s s1 : Sys σ) (e : JsError)
    (h : getToken W s = (.error e, s1)) : s1.auth = s.auth := by
  obtain ⟨b, s0, hs0, hauth, _, _⟩ := tokenStillValid_cases W s
  rw [getToken_of_check W s s0 b hs0] at h
  cases b with
  | true => simp at h
  | false =>
    simp only [Bool.false_eq_true, if_false] at h
    rw [(refreshToken_error_auth W s0 s1 e h).1, hauth]

/-- A call made with a falsy token or no expiry in the cache sends the login
request. -/
theorem getToken_empty_sent {σ : Type} (W : World σ) (s : Sys σ)
    (h : s.auth.jwtToken.truthy = false ∨ s.auth.tokenExpiry = none) :
    (getToken W s).2.sent = s.sent ++ [loginRequest s.auth] := by
  have hcheck : tokenStillValid W s = (.ok false, s) := by
    rcases h with h | h
    · exact tokenStillValid_no_token W s h
    · exact tokenStillValid_no_expiry W s h
  rw [getToken_of_check W s s false hcheck]
  simp only [Bool.false_eq_true, if_false]
  exact refreshToken_sent W s

/-- C28: a `refreshToken` call that raises sends its one login request and
leaves the cache (token and expiry) exactly as it was, and so does a `getToken`
call that raises.  The next `getToken` call then returns the token that was
cached before, without a request, or sends a new login request; from a cache
without a truthy token or without an expiry it always sends a new login
request.  `refreshToken` raises exactly when the exchange gives an error:
transport error, non-success status, a body that does not parse or from which
`data.access_token` cannot be read.  A refresh that returns a falsy token (a
body whose `data` has no `access_token`) is followed by a new exchange as
well. -/
theorem failed_refresh_keeps_cache {σ : Type} (W : World σ) :
    (∀ (s s1 : Sys σ) (e : JsError), refreshToken W s = (.error e, s1) →
      s1.auth = s.auth ∧ s1.auth.jwtToken = s.auth.jwtToken ∧
      s1.auth.tokenExpiry = s.auth.tokenExpiry ∧
      s1.sent = s.sent ++ [loginRequest s.auth]) ∧
    (∀ (s s1 : Sys σ) (e : JsError), getToken W s = (.error e, s1) → s1.auth = s.auth) ∧
    (∀ (s s1 s2 : Sys σ) (e : JsError) (tok : JsVal), refreshToken W s = (.error e, s1) →
      getToken W s1 = (.ok tok, s2) →
      (tok = s.auth.jwtToken ∧ s2.sent = s1.sent) ∨
        s2.sent = s1.sent ++ [loginRequest s.auth]) ∧
    (∀ (s s1 : Sys σ) (e : JsError), getToken W s = (.error e, s1) →
      s.auth.jwtToken.truthy = false ∨ s.auth.tokenExpiry = none →
      (getToken W s1).2.sent = s1.sent ++ [loginRequest s.auth]) ∧
    (∀ s : Sys σ, (refreshToken W s).1 =
      exchangeOutcome (W.fetch (loginRequest s.auth) s.world).1) ∧
    (∀ (s s1 : Sys σ) (tok : JsVal), refreshToken W s = (.ok tok, s1) → tok.truthy = false →
      (getToken W s1).2.sent = s1.sent ++ [loginRequest s.auth]) := by
  refine ⟨?_, ?_, ?_, ?_, ?_, ?_⟩
  · intro s s1 e h
    obtain ⟨h1, h2⟩ := refreshToken_error_auth W s s1 e h
    exact ⟨h1, by rw [h1], by rw [h1], h2⟩
  · intro s s1 e h
    exact getToken_error_auth W s s1 e h
  · intro s s1 s2 e tok h hget
    obtain ⟨h1, _⟩ := refreshToken_error_auth W s s1 e h
    obtain ⟨b, s0, hs0, hauth, hsent, _⟩ := tokenStillValid_cases W s1
    rw [getToken_of_check W s1 s0 b hs0] at hget
    cases b with
    | true =>
      simp only [if_true, Prod.mk.injEq, Except.ok.injEq] at hget
      left
      rw [← hget.1, ← hget.2, hauth, h1, hsent]
      exact ⟨rfl, rfl⟩
    | false =>
      simp only [Bool.false_eq_true, if_false] at hget
      right
      have hs := refreshToken_sent W s0
      rw [hget] at hs
      rw [show s2.sent = s0.sent ++ [loginRequest s0.auth] from hs, hsent, hauth, h1]
  · intro s s1 e h hempty
    have h1 := getToken_error_auth W s s1 e h
    have h2 := getToken_empty_sent W s1 (by rw [h1]; exact hempty)
    rw [h2, h1]
  · intro s
    exact (refreshToken_outcome W s).1
  · intro s s1 tok h hfalsy
    obtain ⟨h1, h2, h3, h4, _⟩ := refreshToken_outcome W s
    rw [h] at h1 h2 h3 h4
    have hurl : s1.auth.directusUrl = s.auth.directusUrl := h2
    have hacc : s1.auth.accessToken = s.auth.accessToken := h3
    have hjwt : s1.auth.jwtToken = tok := by
      rw [refreshToken_eq] at h
      rcases hf : W.fetch (loginRequest s.auth) s.world with ⟨r, w⟩
      rw [hf] at h
      cases r with
      | rejected m => simp at h
      | response resp =>
        cases hok : resp.ok
        · simp [hok] at h
        · cases ha : accessTokenOf resp with
          | error e1 => simp [hok, ha] at h
          | ok token =>
            simp only [hok, ha, if_true, Prod.mk.injEq, Except.ok.injEq] at h
            rw [← h.2, ← h.1]
    have h5 := getToken_empty_sent W s1 (Or.inl (by rw [hjwt]; exact hfalsy))
    rw [h5]
    have hreq : loginRequest s1.auth = loginRequest s.auth := by
      simp only [loginRequest, hurl, hacc]
    rw [hreq]

/-- A login answered with status 401 from a cache that holds the token `jwt-1`:
the cache still holds `jwt-1` and its expiry. -/
theorem failed_refresh_keeps_cache_witness :
    (refreshToken scripted
      { cacheDemoAfter with
        world := { answers := [.response { status := 401, text := "", json := none }],
                   clock := [] } }).2.auth = cacheDemoAfter.auth :=
  ((failed_refresh_keeps_cache scripted).1
    { cacheDemoAfter with
      world := { answers := [.response { status := 401, text := "", json := none }],
                 clock := [] } } _
    (.error (authFailedMessage 401)) rfl).1

/-! ## The pre-flight checks of the scripts -/

/-- The connectivity check sends the login request and the server-info read
only. -/
theorem sendsOnly_testConnection_info {σ : Type} (W : World σ) (base : String) :
    SendsOnly base (loginOr base "GET" "/api/server/info") (testConnection W) := by
  unfold testConnection
  apply SendsOnly.tryCatch
  · apply SendsOnly.bind (sendsOnly_request W base "GET" "/api/server/info" .null)
    intro result
    apply SendsOnly.bind (SendsOnly.lift _ _ _)
    intro d
    apply SendsOnly.bind (SendsOnly.lift _ _ _)
    intro directus
    apply SendsOnly.bind (SendsOnly.lift _ _ _)
    intro v
    exact SendsOnly.pure _ _ _
  · intro e
    exact SendsOnly.pure _ _ _

/-- The requests logged by the connectivity check of a fresh client. -/
theorem testConnection_start_sent {σ : Type} (W : World σ) (base token : String) (w : σ)
    (b : Bool) (s1 : Sys σ) (h : testConnection W (Sys.start w base token) = (.ok b, s1)) :
    ∀ r ∈ s1.sent, loginOr base "GET" "/api/server/info" r := by
  obtain ⟨_, l, hl, hp⟩ := sendsOnly_testConnection_info W base (Sys.start w base token) rfl
  rw [h] at hl
  have e : s1.sent = l := by simpa [Sys.start] using hl
  rw [e]
  exact hp

/-- C24: in the provisioning, seeding and teardown scripts, a missing access
key (unset or empty) ends the run with exit code 1 before anything is sent and
before the clock is read; and when the key is set and `testConnection` returns
`false` (in the teardown script it is called only once the cleanup is
confirmed), the run ends with exit code 1 in the state the check left, where
every request sent is the login request or the read of `/api/server/info`, so
none creates or deletes anything. -/
theorem preflight_gate {σ : Type} (W : World σ) (env : Env)
    (schema : Except JsError (List JsVal)) (demo : DemoData) (w : σ) :
    (env.setupToken = none ∨ env.setupToken = some "" →
      ((createCollectionsMain W env schema w).code = 1 ∧
        (createCollectionsMain W env schema w).sent = [] ∧
        (createCollectionsMain W env schema w).world = w) ∧
      ((populateDataMain W env demo w).code = 1 ∧ (populateDataMain W env demo w).sent = [] ∧
        (populateDataMain W env demo w).world = w) ∧
      ((cleanCollectionsMain W env w).code = 1 ∧ (cleanCollectionsMain W env w).sent = [] ∧
        (cleanCollectionsMain W env w).world = w)) ∧
    (∀ (token : String) (s1 : Sys σ), env.setupToken = some token → token ≠ "" →
      testConnection W (Sys.start w env.url token) = (.ok false, s1) →
      ((createCollectionsMain W env schema w).code = 1 ∧
        (createCollectionsMain W env schema w).sent = s1.sent) ∧
      ((populateDataMain W env demo w).code = 1 ∧
        (populateDataMain W env demo w).sent = s1.sent) ∧
      (env.confirmCleanup = some "true" →
        (cleanCollectionsMain W env w).code = 1 ∧
        (cleanCollectionsMain W env w).sent = s1.sent) ∧
      ∀ r ∈ s1.sent, (r.method = "POST" ∧ r.url = env.url ++ "/auth/login") ∨
        (r.method = "GET" ∧ r.url = env.url ++ "/api/server/info")) := by
  constructor
  · intro h
    rcases h with h | h
    · simp [createCollectionsMain, populateDataMain, cleanCollectionsMain, h]
    · simp [createCollectionsMain, populateDataMain, cleanCollectionsMain, h]
  · intro token s1 htoken hne hconn
    refine ⟨?_, ?_, ?_, ?_⟩
    · simp [createCollectionsMain, htoken, hne, hconn]
    · simp [populateDataMain, htoken, hne, hconn]
    · intro hconfirm
      simp [cleanCollectionsMain, htoken, hne, hconn, hconfirm]
    · exact testConnection_start_sent W env.url token w false s1 hconn

/-- A backend that fails the server-info read: the three scripts end with exit
code 1 after the login request and that read. -/
theorem preflight_gate_witness :
    (createCollectionsMain scripted demoEnv (.ok schemaDefs) unreachableScript).code = 1 ∧
    (populateDataMain scripted demoEnv demoData unreachableScript).code = 1 ∧
    (cleanCollectionsMain scripted cleanEnv unreachableScript).code = 1 ∧
    (cleanCollectionsMain scripted bareEnv unreachableScript).code = 1 ∧
    (cleanCollectionsMain scripted bareEnv unreachableScript).sent = [] :=
  ⟨((preflight_gate scripted demoEnv (.ok schemaDefs) demoData unreachableScript).2
      "setup-key" _ rfl (by decide) rfl).1.1,
   ((preflight_gate scripted demoEnv (.ok schemaDefs) demoData unreachableScript).2
      "setup-key" _ rfl (by decide) rfl).2.1.1,
   (((preflight_gate scripted cleanEnv (.ok schemaDefs) demoData unreachableScript).2
      "setup-key" _ rfl (by decide) rfl).2.2.1 rfl).1,
   ((preflight_gate scripted bareEnv (.ok schemaDefs) demoData unreachableScript).1
      (Or.inl rfl)).2.2.1,
   ((preflight_gate scripted bareEnv (.ok schemaDefs) demoData unreachableScript).1
      (Or.inl rfl)).2.2.2.1⟩

/-! ## The confirmation of the cleanup -/

/-- C25, as the code has it: when `CONFIRM_CLEANUP` is not the string `true`,
the cleanup script ends before a client is constructed: nothing is sent, the
backend and the clock are not touched and no table is printed.  The exit code
is 0 when the access key is set and 1 when it is missing, the key being checked
first. -/
theorem cleanup_requires_confirmation {σ : Type} (W : World σ) (env : Env) (w : σ)
    (h : env.confirmCleanup ≠ some "true") :
    (cleanCollectionsMain W env w).sent = [] ∧
    (cleanCollectionsMain W env w).world = w ∧
    (cleanCollectionsMain W env w).report = none ∧
    (∀ token, env.setupToken = some token → token ≠ "" →
      (cleanCollectionsMain W env w).code = 0) ∧
    (env.setupToken = none ∨ env.setupToken = some "" →
      (cleanCollectionsMain W env w).code = 1) := by
  unfold cleanCollectionsMain
  cases htok : env.setupToken with
  | none => simp
  | some token =>
    by_cases hne : token = ""
    · simp [hne]
    · simp only [hne, if_false]
      rw [if_pos h]
      simp [hne]

/-- The key is set and the confirmation reads `yes`: exit code 0, nothing
sent. -/
theorem cleanup_requires_confirmation_witness :
    (cleanCollectionsMain scripted unconfirmedEnv teardownScript).sent = [] ∧
    (cleanCollectionsMain scripted unconfirmedEnv teardownScript).code = 0 :=
  ⟨(cleanup_requires_confirmation scripted unconfirmedEnv teardownScript (by decide)).1,
   (cleanup_requires_confirmation scripted unconfirmedEnv teardownScript (by decide)).2.2.2.1
     "setup-key" rfl (by decide)⟩

/-- C25, counterexample: `CONFIRM_CLEANUP` is unset and so is the access key;
the cleanup script ends with exit code 1, not 0 (nothing is sent). -/
theorem unconfirmed_cleanup_without_key_exits_1 :
    bareEnv.confirmCleanup ≠ some "true" ∧
    (cleanCollectionsMain scripted bareEnv teardownScript).code = 1 ∧
    (cleanCollectionsMain scripted bareEnv teardownScript).sent = [] :=
  ⟨by decide, rfl, rfl⟩

/-! ## Orchestrator -/

/-- C26: once the access key is set and the connectivity check has passed, the
orchestrator launches `create-collections`, then `populate-data` in the world
the first child left, whatever way the first child ended.  When `populate-data`
does not close with code 0, the run ends with exit code 1 and `verify-setup` is
not launched; when it does, `verify-setup` is launched in the world it left and
the run ends with exit code 0 whatever way `verify-setup` ended. -/
theorem setup_stage_policy {σ : Type} (W : World σ) (spawn : String → σ → ChildEnd × σ)
    (env : Env) (w : σ) (token : String) (s1 : Sys σ)
    (htoken : env.setupToken = some token) (hne : token ≠ "")
    (hconn : testConnection W (Sys.start w env.url token) = (.ok true, s1)) :
    ((spawn "populate-data" (spawn "create-collections" s1.world).2).1.resolves = false →
      (setupMain W spawn env w).code = 1 ∧
      (setupMain W spawn env w).launched = ["create-collections", "populate-data"] ∧
      (setupMain W spawn env w).world =
        (spawn "populate-data" (spawn "create-collections" s1.world).2).2) ∧
    ((spawn "populate-data" (spawn "create-collections" s1.world).2).1.resolves = true →
      (setupMain W spawn env w).code = 0 ∧
      (setupMain W spawn env w).launched =
        ["create-collections", "populate-data", "verify-setup"] ∧
      (setupMain W spawn env w).world =
        (spawn "verify-setup"
          (spawn "populate-data" (spawn "create-collections" s1.world).2).2).2) ∧
    (∀ c : ChildEnd, c.resolves = true ↔ c = .closed (some 0)) := by
  refine ⟨?_, ?_, ?_⟩
  · intro h
    simp [setupMain, htoken, hne, hconn, h]
  · intro h
    simp [setupMain, htoken, hne, hconn, h]
  · intro c
    cases c with
    | failed m => simp [ChildEnd.resolves]
    | closed code =>
      cases code with
      | none => simp [ChildEnd.resolves]
      | some n =>
        cases n with
        | zero => simp [ChildEnd.resolves]
        | succ k => simp [ChildEnd.resolves]

/-- On the simulated backend, with `create-collections` and `verify-setup`
failing: exit code 0 and three launches when `populate-data` closes with code
0, exit code 1 and two launches when it closes with code 1. -/
theorem setup_stage_policy_witness :
    ((setupMain directusSim (demoSpawn 0) demoEnv []).code = 0 ∧
      (setupMain directusSim (demoSpawn 0) demoEnv []).launched =
        ["create-collections", "populate-data", "verify-setup"]) ∧
    ((setupMain directusSim (demoSpawn 1) demoEnv []).code = 1 ∧
      (setupMain directusSim (demoSpawn 1) demoEnv []).launched =
        ["create-collections", "populate-data"]) :=
  ⟨⟨((setup_stage_policy directusSim (demoSpawn 0) demoEnv [] "setup-key"
        (testConnection directusSim (Sys.start [] demoEnv.url "setup-key")).2
        rfl (by decide) rfl).2.1 rfl).1,
    ((setup_stage_policy directusSim (demoSpawn 0) demoEnv [] "setup-key"
        (testConnection directusSim (Sys.start [] demoEnv.url "setup-key")).2
        rfl (by decide) rfl).2.1 rfl).2.1⟩,
   ⟨((setup_stage_policy directusSim (demoSpawn 1) demoEnv [] "setup-key"
        (testConnection directusSim (Sys.start [] demoEnv.url "setup-key")).2
        rfl (by decide) rfl).1 rfl).1,
    ((setup_stage_policy directusSim (demoSpawn 1) demoEnv [] "setup-key"
        (testConnection directusSim (Sys.start [] demoEnv.url "setup-key")).2
        rfl (by decide) rfl).1 rfl).2.1⟩⟩

/-! ## Teardown on a backend that holds records -/

theorem deleteUrls_snoc_other (l : List Request) (r : Request) (h : r.method ≠ "DELETE") :
    deleteUrls (l ++ [r]) = deleteUrls l := by
  simp [deleteUrls, List.filter_append, h]

theorem deleteUrls_snoc_delete (l : List Request) (r : Request) (h : r.method = "DELETE") :
    deleteUrls (l ++ [r]) = deleteUrls l ++ [r.url] := by
  simp [deleteUrls, List.filter_append, h]

theorem afterDeletes_nil (base : String) (h : String → List JsVal) :
    afterDeletes base h [] = h := by
  funext c
  simp [afterDeletes]

theorem afterDeletes_snoc (base : String) (h : String → List JsVal) (urls : List String)
    (u c : String) :
    afterDeletes base h (urls ++ [u]) c =
      (afterDeletes base h urls c).filter (fun item => decide (deleteUrl base c item ≠ u)) := by
  simp only [afterDeletes, List.filter_filter]
  congr 1
  funext item
  simp only [List.mem_append, List.mem_singleton, not_or, Bool.decide_and, Bool.and_comm]

/-- A step that reads the clock keeps the invariant. -/
theorem storeInv_clock {σ : Type} {W : World σ} {held : σ → String → List JsVal} {base : String}
    {h0 : String → List JsVal} {G : σ → Prop} {Good : (String → List JsVal) → Prop}
    (hS : ItemStore W base held) (hG : Ghost W held G Good) (s s1 : Sys σ)
    (hI : StoreInv held base h0 G Good s) (hu : s1.auth.directusUrl = base)
    (hw : s1.world = s.world ∨ s1.world = (W.now s.world).2) (hsent : s1.sent = s.sent) :
    StoreInv held base h0 G Good s1 := by
  obtain ⟨_, hg, hh, hgood⟩ := hI
  rcases hw with hw | hw
  · exact ⟨hu, by rw [hw]; exact hg, by rw [hw, hsent]; exact hh, by rw [hw]; exact hgood⟩
  · exact ⟨hu, by rw [hw]; exact hG.clock _ hg, by rw [hw, hsent, hS.clock]; exact hh,
      by rw [hw, hS.clock]; exact hgood⟩

/-- A read keeps the invariant. -/
theorem storeInv_read {σ : Type} {W : World σ} {held : σ → String → List JsVal} {base : String}
    {h0 : String → List JsVal} {G : σ → Prop} {Good : (String → List JsVal) → Prop}
    (hS : ItemStore W base held) (hG : Ghost W held G Good) (s s1 : Sys σ) (r : Request)
    (hI : StoreInv held base h0 G Good s)
    (hr : r.method = "GET" ∨ (r.method = "POST" ∧ r.url = base ++ "/auth/login"))
    (hm : r.method ≠ "DELETE")
    (hu : s1.auth.directusUrl = base) (hw : s1.world = (W.fetch r s.world).2)
    (hsent : s1.sent = s.sent ++ [r]) :
    StoreInv held base h0 G Good s1 := by
  obtain ⟨_, hg, hh, hgood⟩ := hI
  have hheld : held s1.world = held s.world := by rw [hw, hS.reads r _ hr]
  refine ⟨hu, ?_, ?_, by rw [hheld]; exact hgood⟩
  · rw [hw]
    exact hG.fetch r _ hg (by rw [hS.reads r _ hr]; exact hgood)
  · rw [hheld, hsent, deleteUrls_snoc_other _ _ hm]
    exact hh

/-- On a backend that holds records the header is obtained, and obtaining it
keeps the invariant and sends no `DELETE` request. -/
theorem header_inv {σ : Type} {W : World σ} {held : σ → String → List JsVal} {base : String}
    {h0 : String → List JsVal} {G : σ → Prop} {Good : (String → List JsVal) → Prop}
    (hS : ItemStore W base held) (hG : Ghost W held G Good) (s : Sys σ)
    (hI : StoreInv held base h0 G Good s) :
    ∃ headers s1, getAuthHeader W s = (.ok headers, s1) ∧ StoreInv held base h0 G Good s1 ∧
      deleteUrls s1.sent = deleteUrls s.sent := by
  rw [getAuthHeader_eq]
  obtain ⟨b, s0, hs0, hauth, hsent, hworld⟩ := tokenStillValid_cases W s
  have hu0 : s0.auth.directusUrl = base := by rw [hauth]; exact hI.1
  have hI0 : StoreInv held base h0 G Good s0 := storeInv_clock hS hG s s0 hI hu0 hworld hsent
  rw [getToken_of_check W s s0 b hs0]
  cases b with
  | true => exact ⟨_, s0, rfl, hI0, by rw [hsent]⟩
  | false =>
    obtain ⟨resp, token, hf, hok, ht⟩ := hS.login s0.auth s0.world hu0
    have hread : (loginRequest s0.auth).method = "GET" ∨
        ((loginRequest s0.auth).method = "POST" ∧
          (loginRequest s0.auth).url = base ++ "/auth/login") :=
      Or.inr ⟨rfl, by simp [loginRequest, hu0]⟩
    have hm : (loginRequest s0.auth).method ≠ "DELETE" := by simp [loginRequest]
    rcases hfe : W.fetch (loginRequest s0.auth) s0.world with ⟨r, w1⟩
    rw [hfe] at hf
    have hr : r = .response resp := hf
    subst hr
    have hI1 : StoreInv held base h0 G Good (afterLogin s0 w1) :=
      storeInv_read hS hG s0 (afterLogin s0 w1) (loginRequest s0.auth) hI0 hread hm hu0
        (by rw [hfe]; rfl) rfl
    have hI2 : StoreInv held base h0 G Good
        { world := (W.now w1).2, sent := s0.sent ++ [loginRequest s0.auth],
          auth := { s0.auth with jwtToken := token,
                                 tokenExpiry := some ((W.now w1).1 + 600000) } } :=
      storeInv_clock hS hG (afterLogin s0 w1) _ hI1 hu0 (Or.inr rfl) rfl
    simp only [Bool.false_eq_true, if_false, refreshToken_eq, hfe, hok, if_true, ht]
    exact ⟨_, _, rfl, hI2, by
      show deleteUrls (s0.sent ++ [loginRequest s0.auth]) = deleteUrls s.sent
      rw [deleteUrls_snoc_other _ _ hm, hsent]⟩

/-- A `GET` request on a backend that holds records: its result is the
outcome of the answer the backend gives on the records held, and it keeps the
invariant. -/
theorem get_inv {σ : Type} {W : World σ} {held : σ → String → List JsVal} {base : String}
    {h0 : String → List JsVal} {G : σ → Prop} {Good : (String → List JsVal) → Prop}
    (hS : ItemStore W base held) (hG : Ghost W held G Good) (s : Sys σ)
    (hI : StoreInv held base h0 G Good s) (path : String) :
    ∃ (a : DirectusAuth) (headers : List (String × String)) (w0 : σ) (s1 : Sys σ),
      a.directusUrl = base ∧ held w0 = held s.world ∧
      request W "GET" path .null s =
        (fetchOutcome (W.fetch (apiRequest a "GET" path headers .null) w0).1, s1) ∧
      StoreInv held base h0 G Good s1 ∧ deleteUrls s1.sent = deleteUrls s.sent ∧
      held s1.world = held s.world := by
  obtain ⟨headers, s1, hh, hI1, hd1⟩ := header_inv hS hG s hI
  have hheld1 : held s1.world = held s.world := by rw [hI1.2.2.1, hI.2.2.1, hd1]
  have hread : (apiRequest s1.auth "GET" path headers .null).method = "GET" ∨
      ((apiRequest s1.auth "GET" path headers .null).method = "POST" ∧
        (apiRequest s1.auth "GET" path headers .null).url = base ++ "/auth/login") := Or.inl rfl
  have hm : (apiRequest s1.auth "GET" path headers .null).method ≠ "DELETE" := by
    simp [apiRequest]
  have hI2 : StoreInv held base h0 G Good (afterSend s1 (apiRequest s1.auth "GET" path headers
      .null) (W.fetch (apiRequest s1.auth "GET" path headers .null) s1.world).2) :=
    storeInv_read hS hG s1 _ _ hI1 hread hm hI1.1 rfl rfl
  refine ⟨s1.auth, headers, s1.world, _, hI1.1, hheld1, ?_, hI2, ?_, ?_⟩
  · rw [request_eq, hh]
    simp only []
    rcases W.fetch (apiRequest s1.auth "GET" path headers .null) s1.world with ⟨r, w⟩
    cases r <;> rfl
  · show deleteUrls (s1.sent ++ [_]) = deleteUrls s.sent
    rw [deleteUrls_snoc_other _ _ hm, hd1]
  · show held (W.fetch _ s1.world).2 = held s.world
    rw [hS.reads _ _ hread, hheld1]

/-- Fetching the records of a collection of the order returns the records held
and keeps the invariant. -/
theorem getItems_inv {σ : Type} {W : World σ} {held : σ → String → List JsVal} {base : String}
    {h0 : String → List JsVal} {G : σ → Prop} {Good : (String → List JsVal) → Prop}
    (hS : ItemStore W base held) (hG : Ghost W held G Good) (s : Sys σ)
    (hI : StoreInv held base h0 G Good s) (c : String) (hc : c ∈ cleanOrder) :
    ∃ s1, getItems W c [] s = (.ok (.arr (held s.world c)), s1) ∧
      StoreInv held base h0 G Good s1 ∧ deleteUrls s1.sent = deleteUrls s.sent := by
  obtain ⟨a, headers, w0, s1, ha, hw0, hreq, hI1, hd1, _⟩ :=
    get_inv hS hG s hI ("/api/items/" ++ c)
  obtain ⟨resp, body, hf, hok, hj, hdata⟩ := hS.items a headers w0 c ha hc
  have hpath : itemsPath c [] = "/api/items/" ++ c := by simp [itemsPath]
  refine ⟨s1, ?_, hI1, hd1⟩
  simp only [getItems, Prog.bind_run, hpath, hreq, hf, fetchOutcome, responseOutcome_ok resp hok,
    Response.parse, hj, Prog.lift, hdata, hw0]
  rfl

/-- The connectivity check passes and keeps the invariant. -/
theorem testConnection_inv {σ : Type} {W : World σ} {held : σ → String → List JsVal}
    {base : String} {h0 : String → List JsVal} {G : σ → Prop}
    {Good : (String → List JsVal) → Prop}
    (hS : ItemStore W base held) (hG : Ghost W held G Good) (s : Sys σ)
    (hI : StoreInv held base h0 G Good s) :
    ∃ s1, testConnection W s = (.ok true, s1) ∧ StoreInv held base h0 G Good s1 ∧
      deleteUrls s1.sent = deleteUrls s.sent := by
  obtain ⟨a, headers, w0, s1, ha, _, hreq, hI1, hd1, _⟩ := get_inv hS hG s hI "/api/server/info"
  obtain ⟨resp, body, d, directus, v, hf, hok, hj, h1, h2, h3⟩ := hS.info a headers w0 ha
  refine ⟨s1, ?_, hI1, hd1⟩
  simp only [testConnection, Prog.tryCatch, Prog.bind_run, hreq, hf, fetchOutcome,
    responseOutcome_ok resp hok, Response.parse, hj, Prog.lift, h1, h2, h3]
  rfl

/-- The listing succeeds, shows the four collections of the order and keeps the
invariant. -/
theorem getCollections_inv {σ : Type} {W : World σ} {held : σ → String → List JsVal}
    {base : String} {h0 : String → List JsVal} {G : σ → Prop}
    {Good : (String → List JsVal) → Prop}
    (hS : ItemStore W base held) (hG : Ghost W held G Good) (s : Sys σ)
    (hI : StoreInv held base h0 G Good s) :
    ∃ entries s1, getCollections W s = (.ok (.arr entries), s1) ∧
      (∀ c ∈ cleanOrder, hasCollection (.arr entries) (.str c) = .ok true) ∧
      StoreInv held base h0 G Good s1 ∧ deleteUrls s1.sent = deleteUrls s.sent := by
  obtain ⟨a, headers, w0, s1, ha, _, hreq, hI1, hd1, _⟩ := get_inv hS hG s hI "/api/collections"
  obtain ⟨resp, body, entries, hf, hok, hj, hdata, hall⟩ := hS.listing a headers w0 ha
  refine ⟨entries, s1, ?_, hall, hI1, hd1⟩
  simp only [getCollections, Prog.bind_run, hreq, hf, fetchOutcome, responseOutcome_ok resp hok,
    Response.parse, hj, Prog.lift, hdata]
  rfl

/-- A `deleteItem` call on a backend that holds records sends one `DELETE`
request, removes the records it names and keeps the invariant, provided the
records that remain satisfy `Good`. -/
theorem deleteItem_inv {σ : Type} {W : World σ} {held : σ → String → List JsVal} {base : String}
    {h0 : String → List JsVal} {G : σ → Prop} {Good : (String → List JsVal) → Prop}
    (hS : ItemStore W base held) (hG : Ghost W held G Good) (s : Sys σ)
    (hI : StoreInv held base h0 G Good s) (c : String) (id : JsVal)
    (hgood : Good (afterDeletes base h0
      (deleteUrls s.sent ++ [base ++ ("/api/items/" ++ c ++ "/" ++ id.toStr)]))) :
    StoreInv held base h0 G Good (deleteItem W c id s).2 ∧
    deleteUrls (deleteItem W c id s).2.sent =
      deleteUrls s.sent ++ [base ++ ("/api/items/" ++ c ++ "/" ++ id.toStr)] := by
  obtain ⟨headers, s1, hh, hI1, hd1⟩ := header_inv hS hG s hI
  obtain ⟨hu1, hg1, hheld1, _⟩ := hI1
  have hm : (apiRequest s1.auth "DELETE" ("/api/items/" ++ c ++ "/" ++ id.toStr) headers
      .null).method = "DELETE" := rfl
  have hurl : (apiRequest s1.auth "DELETE" ("/api/items/" ++ c ++ "/" ++ id.toStr) headers
      .null).url = base ++ ("/api/items/" ++ c ++ "/" ++ id.toStr) := by
    simp [apiRequest, hu1]
  have hdel := (hS.delete s1.auth headers s1.world ("/api/items/" ++ c ++ "/" ++ id.toStr)
    hu1).2
  have hheld2 : held (W.fetch (apiRequest s1.auth "DELETE"
      ("/api/items/" ++ c ++ "/" ++ id.toStr) headers .null) s1.world).2 =
      afterDeletes base h0
        (deleteUrls s.sent ++ [base ++ ("/api/items/" ++ c ++ "/" ++ id.toStr)]) := by
    funext c1
    rw [hdel c1, afterDeletes_snoc, hheld1, hd1]
  have key : StoreInv held base h0 G Good (afterSend s1 (apiRequest s1.auth "DELETE"
        ("/api/items/" ++ c ++ "/" ++ id.toStr) headers .null)
        (W.fetch (apiRequest s1.auth "DELETE" ("/api/items/" ++ c ++ "/" ++ id.toStr) headers
          .null) s1.world).2) ∧
      deleteUrls (afterSend s1 (apiRequest s1.auth "DELETE"
        ("/api/items/" ++ c ++ "/" ++ id.toStr) headers .null)
        (W.fetch (apiRequest s1.auth "DELETE" ("/api/items/" ++ c ++ "/" ++ id.toStr) headers
          .null) s1.world).2).sent =
        deleteUrls s.sent ++ [base ++ ("/api/items/" ++ c ++ "/" ++ id.toStr)] := by
    have hsent : deleteUrls (s1.sent ++ [apiRequest s1.auth "DELETE"
        ("/api/items/" ++ c ++ "/" ++ id.toStr) headers .null]) =
        deleteUrls s.sent ++ [base ++ ("/api/items/" ++ c ++ "/" ++ id.toStr)] := by
      rw [deleteUrls_snoc_delete _ _ hm, hurl, hd1]
    refine ⟨⟨hu1, ?_, ?_, ?_⟩, hsent⟩
    · exact hG.fetch _ _ hg1 (by rw [hheld2]; exact hgood)
    · show held _ = afterDeletes base h0 (deleteUrls (s1.sent ++ [_]))
      rw [hsent]
      exact hheld2
    · show Good (held (W.fetch (apiRequest s1.auth "DELETE"
        ("/api/items/" ++ c ++ "/" ++ id.toStr) headers .null) s1.world).2)
      rw [hheld2]
      exact hgood
  rw [deleteItem_state, request_eq, hh]
  simp only []
  rcases hfe : W.fetch (apiRequest s1.auth "DELETE" ("/api/items/" ++ c ++ "/" ++ id.toStr)
      headers .null) s1.world with ⟨r, w⟩
  rw [hfe] at key
  cases r with
  | rejected m => exact key
  | response resp => exact key

/-- The loop of `cleanCollection` on a backend that holds records sends one
`DELETE` request for each record, in order, and keeps the invariant. -/
theorem deleteFold_inv {σ : Type} {W : World σ} {held : σ → String → List JsVal} {base : String}
    {h0 : String → List JsVal} {G : σ → Prop} {Good : (String → List JsVal) → Prop}
    (hS : ItemStore W base held) (hG : Ghost W held G Good) (c : String) (items : List JsVal) :
    ∀ s : Sys σ, StoreInv held base h0 G Good s →
      (∀ U, U <+: items.map (deleteUrl base c) →
        Good (afterDeletes base h0 (deleteUrls s.sent ++ U))) →
      StoreInv held base h0 G Good
        (items.foldl (fun st item => (deleteItem W c (idOf item) st).2) s) ∧
      deleteUrls (items.foldl (fun st item => (deleteItem W c (idOf item) st).2) s).sent =
        deleteUrls s.sent ++ items.map (deleteUrl base c) := by
  induction items with
  | nil =>
    intro s hI _
    exact ⟨hI, by simp⟩
  | cons item rest ih =>
    intro s hI hgood
    have h1 : Good (afterDeletes base h0 (deleteUrls s.sent ++
        [base ++ ("/api/items/" ++ c ++ "/" ++ (idOf item).toStr)])) :=
      hgood [deleteUrl base c item] (by
        rw [List.map_cons]
        exact List.prefix_iff_eq_append.mpr (by simp))
    obtain ⟨hI1, hd1⟩ := deleteItem_inv hS hG s hI c (idOf item) h1
    have h2 : ∀ U, U <+: rest.map (deleteUrl base c) →
        Good (afterDeletes base h0 (deleteUrls (deleteItem W c (idOf item) s).2.sent ++ U)) := by
      intro U hU
      rw [hd1, List.append_assoc]
      apply hgood
      rw [List.map_cons]
      exact (List.prefix_cons_inj _).mpr hU
    obtain ⟨hI2, hd2⟩ := ih (deleteItem W c (idOf item) s).2 hI1 h2
    refine ⟨hI2, ?_⟩
    rw [List.foldl_cons, hd2, hd1, List.append_assoc]
    rfl

theorem afterDeletes_subset (base : String) (h : String → List JsVal) (urls : List String)
    (c : String) : ∀ item ∈ afterDeletes base h urls c, item ∈ h c := by
  intro item hi
  exact (List.mem_filter.mp hi).1

/-- The cleanup of a collection of the order on a backend that holds records:
it returns the number of records held, sends one `DELETE` request for each and
keeps the invariant. -/
theorem cleanCollection_inv {σ : Type} {W : World σ} {held : σ → String → List JsVal}
    {base : String} {h0 : String → List JsVal} {G : σ → Prop}
    {Good : (String → List JsVal) → Prop}
    (hS : ItemStore W base held) (hG : Ghost W held G Good)
    (hrec : ∀ c, ∀ item ∈ h0 c, item ≠ .null ∧ item ≠ .undefined) (s : Sys σ)
    (hI : StoreInv held base h0 G Good s) (c : String) (hc : c ∈ cleanOrder)
    (hgood : ∀ U, U <+: (held s.world c).map (deleteUrl base c) →
      Good (afterDeletes base h0 (deleteUrls s.sent ++ U))) :
    ∃ s1, cleanCollection W c s = (.ok (.num (held s.world c).length), s1) ∧
      StoreInv held base h0 G Good s1 ∧
      deleteUrls s1.sent = deleteUrls s.sent ++ (held s.world c).map (deleteUrl base c) := by
  obtain ⟨s1, hget, hI1, hd1⟩ := getItems_inv hS hG s hI c hc
  have hitems : ∀ item ∈ held s.world c, item ≠ .null ∧ item ≠ .undefined := by
    intro item hi
    rw [hI.2.2.1] at hi
    exact hrec c item (afterDeletes_subset base h0 _ c item hi)
  have heq := cleanCollection_eq W c s s1 (held s.world c) hget hitems
  obtain ⟨hI2, hd2⟩ := deleteFold_inv hS hG c (held s.world c) s1 hI1
    (by rw [hd1]; exact hgood)
  exact ⟨_, heq, hI2, by rw [hd2, hd1]⟩

/-- Records of different collections of the order have different delete
URLs. -/
theorem deleteUrl_disjoint (base c1 c2 : String) (item1 item2 : JsVal) (h1 : c1 ∈ cleanOrder)
    (h2 : c2 ∈ cleanOrder) (hne : c1 ≠ c2) : deleteUrl base c1 item1 ≠ deleteUrl base c2 item2 := by
  intro e
  obtain ⟨i, hi⟩ := List.mem_iff_getElem?.mp h1
  obtain ⟨j, hj⟩ := List.mem_iff_getElem?.mp h2
  have hij := cleanOrder_disjoint base i j c1 c2
    { method := "DELETE", url := deleteUrl base c1 item1, headers := [], body := none } hi hj
    ⟨rfl, (idOf item1).toStr, rfl⟩ ⟨rfl, (idOf item2).toStr, e⟩
  rw [hij, hj] at hi
  exact hne (Option.some.inj hi).symm

theorem afterDeletes_append (base : String) (h : String → List JsVal) (U V : List String)
    (c : String) :
    afterDeletes base h (U ++ V) c =
      (afterDeletes base h U c).filter (fun item => decide (deleteUrl base c item ∉ V)) := by
  simp only [afterDeletes, List.filter_filter]
  congr 1
  funext item
  simp only [List.mem_append, not_or, Bool.decide_and, Bool.and_comm]

/-- Delete requests for the records of one collection of the order leave the
records of another as they are. -/
theorem afterDeletes_other (base : String) (h : String → List JsVal) (U : List String)
    (c1 c2 : String) (h1 : c1 ∈ cleanOrder) (h2 : c2 ∈ cleanOrder) (hne : c1 ≠ c2)
    (items : List JsVal) :
    afterDeletes base h (U ++ items.map (deleteUrl base c1)) c2 = afterDeletes base h U c2 := by
  rw [afterDeletes_append, List.filter_eq_self]
  intro item _
  simp only [decide_eq_true_eq, List.mem_map, not_exists, not_and]
  intro x _ e
  exact deleteUrl_disjoint base c1 c2 x item h1 h2 hne e

/-- Once the delete requests for all its records are carried out, a collection
is empty. -/
theorem afterDeletes_done (base : String) (h : String → List JsVal) (U : List String)
    (c : String) (hU : ∀ item ∈ h c, deleteUrl base c item ∈ U) : afterDeletes base h U c = [] := by
  rw [afterDeletes, List.filter_eq_nil_iff]
  intro item hi
  simp only [decide_eq_true_eq, not_not]
  exact hU item hi

/-- The loop of `main` on a backend that holds records: for collections whose
records are still all there, it prints the number of records of each, sends one
`DELETE` request for each record, collection by collection, and keeps the
invariant. -/
theorem cleanEach_inv {σ : Type} {W : World σ} {held : σ → String → List JsVal} {base : String}
    {h0 : String → List JsVal} {G : σ → Prop} {Good : (String → List JsVal) → Prop}
    (hS : ItemStore W base held) (hG : Ghost W held G Good)
    (hrec : ∀ c, ∀ item ∈ h0 c, item ≠ .null ∧ item ≠ .undefined) (entries : List JsVal)
    (hpres : ∀ c ∈ cleanOrder, hasCollection (.arr entries) (.str c) = .ok true)
    (names : List String) :
    names.Nodup → (∀ c ∈ names, c ∈ cleanOrder) →
    ∀ s : Sys σ, StoreInv held base h0 G Good s → (∀ c ∈ names, held s.world c = h0 c) →
      (∀ U, U <+: deleteTargets base h0 names →
        Good (afterDeletes base h0 (deleteUrls s.sent ++ U))) →
      ∃ s1, cleanEach W (.arr entries) names s = (.ok (fullRows h0 names), s1) ∧
        StoreInv held base h0 G Good s1 ∧
        deleteUrls s1.sent = deleteUrls s.sent ++ deleteTargets base h0 names := by
  induction names with
  | nil =>
    intro _ _ s hI _ _
    exact ⟨s, rfl, hI, by simp [deleteTargets]⟩
  | cons c rest ih =>
    intro hnd hsub s hI hfull hgood
    have hc : c ∈ cleanOrder := hsub c (List.mem_cons_self _ _)
    have hcfull : held s.world c = h0 c := hfull c (List.mem_cons_self _ _)
    have htargets : deleteTargets base h0 (c :: rest) =
        (h0 c).map (deleteUrl base c) ++ deleteTargets base h0 rest := by
      simp [deleteTargets, List.flatMap_cons]
    obtain ⟨s1, hclean, hI1, hd1⟩ := cleanCollection_inv hS hG hrec s hI c hc (by
      intro U hU
      apply hgood
      rw [htargets, ← hcfull]
      exact hU.trans (List.prefix_append _ _))
    rw [hcfull] at hclean hd1
    have hnd1 : rest.Nodup := (List.nodup_cons.mp hnd).2
    have hnotin : c ∉ rest := (List.nodup_cons.mp hnd).1
    have hfull1 : ∀ c1 ∈ rest, held s1.world c1 = h0 c1 := by
      intro c1 hc1
      have hne : c ≠ c1 := fun e => hnotin (e ▸ hc1)
      rw [hI1.2.2.1, hd1, afterDeletes_other base h0 _ c c1 hc
        (hsub c1 (List.mem_cons_of_mem _ hc1)) hne, ← hI.2.2.1]
      exact hfull c1 (List.mem_cons_of_mem _ hc1)
    obtain ⟨s2, hrest, hI2, hd2⟩ := ih hnd1 (fun c1 hc1 => hsub c1 (List.mem_cons_of_mem _ hc1))
      s1 hI1 hfull1 (by
        intro U hU
        rw [hd1, List.append_assoc]
        apply hgood
        rw [htargets]
        exact (List.prefix_append_right_inj _).mpr hU)
    refine ⟨s2, ?_, hI2, by rw [hd2, hd1, htargets, List.append_assoc]⟩
    simp only [cleanEach, Prog.bind_run, Prog.lift, hpres c hc, if_true, hclean, hrest, pure,
      Prog.pure, fullRows, List.map_cons]

theorem mem_deleteTargets (base : String) (h : String → List JsVal) (names : List String)
    (c : String) (item : JsVal) (hc : c ∈ names) (hi : item ∈ h c) :
    deleteUrl base c item ∈ deleteTargets base h names := by
  simp only [deleteTargets, List.mem_flatMap, List.mem_map]
  exact ⟨c, hc, item, hi, rfl⟩

/-- A confirmed run of the cleanup script on a backend that holds records: exit
code 0, one row for each collection of the order with the number of records it
held, one `DELETE` request for each record, collection by collection, and no
record left; a property `G` of the states, kept as long as the records that
remain satisfy `Good`, holds at the end. -/
theorem clean_store_main {σ : Type} {W : World σ} {held : σ → String → List JsVal}
    {G : σ → Prop} {Good : (String → List JsVal) → Prop} (env : Env) (token : String) (w : σ)
    (hS : ItemStore W env.url held) (hG : Ghost W held G Good)
    (htoken : env.setupToken = some token) (hne : token ≠ "")
    (hconfirm : env.confirmCleanup = some "true")
    (hrec : ∀ c, ∀ item ∈ held w c, item ≠ .null ∧ item ≠ .undefined) (hg : G w)
    (hgood : ∀ U, U <+: deleteTargets env.url (held w) cleanOrder →
      Good (afterDeletes env.url (held w) U)) :
    (cleanCollectionsMain W env w).code = 0 ∧
    (cleanCollectionsMain W env w).report = some (fullRows (held w) cleanOrder) ∧
    deleteUrls (cleanCollectionsMain W env w).sent = deleteTargets env.url (held w) cleanOrder ∧
    (∀ c ∈ cleanOrder, held (cleanCollectionsMain W env w).world c = []) ∧
    G (cleanCollectionsMain W env w).world := by
  have hstart : deleteUrls (Sys.start w env.url token).sent = [] := rfl
  have hI0 : StoreInv held env.url (held w) G Good (Sys.start w env.url token) := by
    refine ⟨rfl, hg, ?_, ?_⟩
    · rw [hstart, afterDeletes_nil]
      rfl
    · have h := hgood [] List.nil_prefix
      rw [afterDeletes_nil] at h
      exact h
  obtain ⟨s1, hconn, hI1, hd1⟩ := testConnection_inv hS hG _ hI0
  obtain ⟨entries, s2, hlist, hpres, hI2, hd2⟩ := getCollections_inv hS hG s1 hI1
  have hsent2 : deleteUrls s2.sent = [] := by rw [hd2, hd1, hstart]
  have hheld2 : held s2.world = held w := by rw [hI2.2.2.1, hsent2, afterDeletes_nil]
  obtain ⟨s3, heach, hI3, hd3⟩ := cleanEach_inv hS hG hrec entries hpres cleanOrder
    (by decide) (fun c hc => hc) s2 hI2 (fun c _ => by rw [hheld2]) (by
      intro U hU
      rw [hsent2, List.nil_append]
      exact hgood U hU)
  rw [hsent2, List.nil_append] at hd3
  have hrun : cleanRun W s1 = (.ok (fullRows (held w) cleanOrder), s3) := by
    simp only [cleanRun, Prog.bind_run, hlist, heach]
  have hmain : cleanCollectionsMain W env w =
      { code := 0, world := s3.world, sent := s3.sent,
        report := some (fullRows (held w) cleanOrder) } := by
    unfold cleanCollectionsMain
    simp only [htoken, hne, if_false]
    rw [if_neg (not_not.mpr hconfirm)]
    simp only [hconn, hrun]
  rw [hmain]
  refine ⟨rfl, rfl, hd3, ?_, hI3.2.1⟩
  intro c hc
  show held s3.world c = []
  rw [hI3.2.2.1, hd3]
  exact afterDeletes_done _ _ _ c (fun item hi => mem_deleteTargets _ _ _ c item hc hi)

/-! ## The simulated backend that holds records -/

theorem store_held_remove (st : Store) (url c : String) :
    (st.remove url).held c =
      (st.held c).filter (fun item => decide (deleteUrl simBase c item ≠ url)) := by
  unfold Store.held Store.remove
  by_cases h1 : c = "problems"
  · subst h1; rfl
  · by_cases h2 : c = "lessons"
    · subst h2; rfl
    · by_cases h3 : c = "courses"
      · subst h3; rfl
      · by_cases h4 : c = "ai_prompts"
        · subst h4; rfl
        · simp [h1, h2, h3, h4]

/-- The simulated backend on which no delete fails is a backend on which every
request of the cleanup succeeds. -/
theorem itemSim_store : ItemStore (itemSim []) simBase Store.held where
  clock := fun _ => rfl
  reads := by
    intro r w h
    rcases h with h | ⟨h, _⟩
    · simp only [itemSim, h]
      simp only [show ¬ ("GET" = "DELETE") by decide, if_false, if_true]
      split
      · rfl
      · split
        · rfl
        · split
          · rfl
          · split
            · rfl
            · split <;> rfl
    · simp only [itemSim, h]
      simp only [show ¬ ("POST" = "DELETE") by decide, show ¬ ("POST" = "GET") by decide,
        if_false]
  login := by
    intro a w _
    exact ⟨{ status := 200, text := "",
             json := some (.obj [("data", .obj [("access_token", .str "jwt-1")])]) },
      .str "jwt-1", rfl, rfl, rfl⟩
  info := by
    intro a headers w ha
    refine ⟨{ status := 200, text := "", json := some serverInfo }, serverInfo,
      .obj [("directus", .obj [("version", .str "10.8.3")])],
      .obj [("version", .str "10.8.3")], .str "10.8.3", ?_, rfl, rfl, rfl, rfl, rfl⟩
    simp only [itemSim, apiRequest, ha, simBase]
    rfl
  listing := by
    intro a headers w ha
    refine ⟨{ status := 200, text := "", json := some fullListing }, fullListing,
      [listingEntry "courses", listingEntry "lessons", listingEntry "problems",
        listingEntry "ai_prompts"], ?_, rfl, rfl, rfl, ?_⟩
    · simp only [itemSim, apiRequest, ha, simBase]
      rfl
    · intro c hc
      simp only [cleanOrder, List.mem_cons, List.mem_singleton, List.not_mem_nil, or_false] at hc
      rcases hc with h | h | h | h <;> subst h <;> rfl
  items := by
    intro a headers w c ha hc
    simp only [cleanOrder, List.mem_cons, List.mem_singleton, List.not_mem_nil, or_false] at hc
    rcases hc with h | h | h | h
    · subst h
      exact ⟨{ status := 200, text := "", json := some (.obj [("data", .arr w.problems)]) },
        .obj [("data", .arr w.problems)], by simp only [itemSim, apiRequest, ha, simBase]; rfl,
        rfl, rfl, rfl⟩
    · subst h
      exact ⟨{ status := 200, text := "", json := some (.obj [("data", .arr w.lessons)]) },
        .obj [("data", .arr w.lessons)], by simp only [itemSim, apiRequest, ha, simBase]; rfl,
        rfl, rfl, rfl⟩
    · subst h
      exact ⟨{ status := 200, text := "", json := some (.obj [("data", .arr w.courses)]) },
        .obj [("data", .arr w.courses)], by simp only [itemSim, apiRequest, ha, simBase]; rfl,
        rfl, rfl, rfl⟩
    · subst h
      exact ⟨{ status := 200, text := "", json := some (.obj [("data", .arr w.prompts)]) },
        .obj [("data", .arr w.prompts)], by simp only [itemSim, apiRequest, ha, simBase]; rfl,
        rfl, rfl, rfl⟩
  delete := by
    intro a headers w path ha
    have hf : (itemSim []).fetch (apiRequest a "DELETE" path headers .null) w =
        (okJson "" (.obj []), w.remove (simBase ++ path)) := by
      simp [itemSim, apiRequest, ha]
    rw [hf]
    refine ⟨⟨{ status := 200, text := "", json := some (.obj []) }, rfl, rfl⟩, ?_⟩
    intro c
    exact store_held_remove w (simBase ++ path) c

/-! ## Teardown and referential integrity -/

theorem mem_afterDeletes (base : String) (h : String → List JsVal) (U : List String)
    (c : String) (item : JsVal) :
    item ∈ afterDeletes base h U c ↔ item ∈ h c ∧ deleteUrl base c item ∉ U := by
  simp [afterDeletes, List.mem_filter]

theorem deleteTargets_cleanOrder (base : String) (h : String → List JsVal) :
    deleteTargets base h cleanOrder =
      (h "problems").map (deleteUrl base "problems") ++
        ((h "lessons").map (deleteUrl base "lessons") ++
          ((h "courses").map (deleteUrl base "courses") ++
            (h "ai_prompts").map (deleteUrl base "ai_prompts"))) := by
  simp [deleteTargets, cleanOrder, List.flatMap_cons]

/-- Deleting the records in the order of the cleanup keeps referential
integrity: the records that remain once a first part of the delete requests of
the cleanup is carried out are referentially intact, if the records were. -/
theorem integrity_prefix (base : String) (h : String → List JsVal) (hint : Integrity h)
    (U : List String) (hU : U <+: deleteTargets base h cleanOrder) :
    Integrity (afterDeletes base h U) := by
  rw [deleteTargets_cleanOrder] at hU
  have hp : "problems" ∈ cleanOrder := by decide
  have hl : "lessons" ∈ cleanOrder := by decide
  have hc : "courses" ∈ cleanOrder := by decide
  constructor
  · intro lesson hmem
    obtain ⟨hin, hnot⟩ := (mem_afterDeletes base h U "lessons" lesson).mp hmem
    obtain ⟨course, hcourse, href⟩ := hint.1 lesson hin
    refine ⟨course, (mem_afterDeletes base h U "courses" course).mpr ⟨hcourse, ?_⟩, href⟩
    intro hcu
    have hX : (h "problems").map (deleteUrl base "problems") ++
        (h "lessons").map (deleteUrl base "lessons") <+:
        (h "problems").map (deleteUrl base "problems") ++
          ((h "lessons").map (deleteUrl base "lessons") ++
            ((h "courses").map (deleteUrl base "courses") ++
              (h "ai_prompts").map (deleteUrl base "ai_prompts"))) := by
      rw [← List.append_assoc]
      exact List.prefix_append _ _
    rcases List.prefix_or_prefix_of_prefix hU hX with h1 | h1
    · have hmemX := h1.subset hcu
      rcases List.mem_append.mp hmemX with h2 | h2
      · obtain ⟨x, _, e⟩ := List.mem_map.mp h2
        exact deleteUrl_disjoint base "problems" "courses" x course hp hc (by decide) e
      · obtain ⟨x, _, e⟩ := List.mem_map.mp h2
        exact deleteUrl_disjoint base "lessons" "courses" x course hl hc (by decide) e
    · exact hnot (h1.subset (List.mem_append_right _ (List.mem_map.mpr ⟨lesson, hin, rfl⟩)))
  · intro problem hmem
    obtain ⟨hin, hnot⟩ := (mem_afterDeletes base h U "problems" problem).mp hmem
    obtain ⟨lesson, hlesson, href⟩ := hint.2 problem hin
    refine ⟨lesson, (mem_afterDeletes base h U "lessons" lesson).mpr ⟨hlesson, ?_⟩, href⟩
    intro hlu
    have hX : (h "problems").map (deleteUrl base "problems") <+:
        (h "problems").map (deleteUrl base "problems") ++
          ((h "lessons").map (deleteUrl base "lessons") ++
            ((h "courses").map (deleteUrl base "courses") ++
              (h "ai_prompts").map (deleteUrl base "ai_prompts"))) :=
      List.prefix_append _ _
    rcases List.prefix_or_prefix_of_prefix hU hX with h1 | h1
    · obtain ⟨x, _, e⟩ := List.mem_map.mp (h1.subset hlu)
      exact deleteUrl_disjoint base "problems" "lessons" x lesson hp hl (by decide) e
    · exact hnot (h1.subset (List.mem_map.mpr ⟨problem, hin, rfl⟩))

/-- The observed backend holds records as the backend does. -/
theorem recording_store {σ : Type} {W : World σ} {held : σ → String → List JsVal} {base : String}
    (hS : ItemStore W base held) : ItemStore (recording W) base (fun st => held st.1) where
  clock := fun w => hS.clock w.1
  reads := fun r w h => hS.reads r w.1 h
  login := fun a w ha => hS.login a w.1 ha
  info := fun a headers w ha => hS.info a headers w.1 ha
  listing := fun a headers w ha => hS.listing a headers w.1 ha
  items := fun a headers w c ha hc => hS.items a headers w.1 c ha hc
  delete := fun a headers w path ha => hS.delete a headers w.1 path ha

/-- On the observed backend, the property that every state logged so far is
referentially intact is kept by every request that leaves intact records. -/
theorem recording_ghost {σ : Type} (W : World σ) (held : σ → String → List JsVal) :
    Ghost (recording W) (fun st => held st.1)
      (fun st => ∀ w1 ∈ st.2, Integrity (held w1)) Integrity where
  clock := fun _ h => h
  fetch := by
    intro r w h hgood w1 hw1
    rcases List.mem_append.mp hw1 with h1 | h1
    · exact h w1 h1
    · rw [List.mem_singleton] at h1
      rw [h1]
      exact hgood

theorem trivial_ghost {σ : Type} (W : World σ) (held : σ → String → List JsVal) :
    Ghost W held (fun _ => True) (fun _ => True) where
  clock := fun _ _ => trivial
  fetch := fun _ _ _ _ => trivial

/-! ## Teardown: counts, orphans, integrity -/

/-- The records of a store are not `null` when none of its four lists holds a
`null`. -/
theorem store_records (st : Store)
    (h : ∀ item ∈ st.problems ++ st.lessons ++ st.courses ++ st.prompts,
      item ≠ .null ∧ item ≠ .undefined) :
    ∀ c, ∀ item ∈ st.held c, item ≠ .null ∧ item ≠ .undefined := by
  intro c item hi
  apply h
  unfold Store.held at hi
  simp only [List.mem_append]
  split at hi
  · exact Or.inl (Or.inl (Or.inl hi))
  · split at hi
    · exact Or.inl (Or.inl (Or.inr hi))
    · split at hi
      · exact Or.inl (Or.inr hi)
      · split at hi
        · exact Or.inr hi
        · simp at hi

/-- C21: on a backend on which every request of the cleanup succeeds and whose
four collections hold the records `held w` (none of them `null`), a confirmed
run of the cleanup script ends with exit code 0, prints the rows problems,
lessons, courses, ai_prompts with the number of records each collection held,
sends exactly one `DELETE` request for each record (so as many as the four
collections held records together), collection by collection in that order, and
leaves the four collections empty. -/
theorem teardown_counts {σ : Type} (W : World σ) (held : σ → String → List JsVal) (env : Env)
    (token : String) (w : σ) (hS : ItemStore W env.url held)
    (htoken : env.setupToken = some token) (hne : token ≠ "")
    (hconfirm : env.confirmCleanup = some "true")
    (hrec : ∀ c, ∀ item ∈ held w c, item ≠ .null ∧ item ≠ .undefined) :
    (cleanCollectionsMain W env w).code = 0 ∧
    (cleanCollectionsMain W env w).report = some
      [{ collection := "problems", deleted := .num (held w "problems").length },
       { collection := "lessons", deleted := .num (held w "lessons").length },
       { collection := "courses", deleted := .num (held w "courses").length },
       { collection := "ai_prompts", deleted := .num (held w "ai_prompts").length }] ∧
    ((cleanCollectionsMain W env w).sent.filter (fun r => r.method = "DELETE")).length =
      (held w "courses").length + (held w "lessons").length + (held w "problems").length +
        (held w "ai_prompts").length ∧
    deleteUrls (cleanCollectionsMain W env w).sent =
      (held w "problems").map (deleteUrl env.url "problems") ++
        ((held w "lessons").map (deleteUrl env.url "lessons") ++
          ((held w "courses").map (deleteUrl env.url "courses") ++
            (held w "ai_prompts").map (deleteUrl env.url "ai_prompts"))) ∧
    ∀ c ∈ cleanOrder, held (cleanCollectionsMain W env w).world c = [] := by
  obtain ⟨hcode, hreport, hurls, hempty, _⟩ := clean_store_main env token w hS
    (trivial_ghost W held) htoken hne hconfirm hrec trivial (fun _ _ => trivial)
  rw [deleteTargets_cleanOrder] at hurls
  refine ⟨hcode, hreport, ?_, hurls, hempty⟩
  have hlen := congrArg List.length hurls
  simp only [deleteUrls, List.length_map, List.length_append] at hlen
  rw [hlen]
  omega

/-- The simulated backend with 2 problems, 2 lessons, 4 courses and 3 prompts:
the rows read 2, 2, 4, 3, eleven `DELETE` requests are sent, and the four
collections are empty at the end. -/
theorem teardown_counts_witness :
    (cleanCollectionsMain (itemSim []) cleanEnv demoStore).report = some
      [{ collection := "problems", deleted := .num 2 },
       { collection := "lessons", deleted := .num 2 },
       { collection := "courses", deleted := .num 4 },
       { collection := "ai_prompts", deleted := .num 3 }] ∧
    ((cleanCollectionsMain (itemSim []) cleanEnv demoStore).sent.filter
      (fun r => r.method = "DELETE")).length = 11 ∧
    ∀ c ∈ cleanOrder, (cleanCollectionsMain (itemSim []) cleanEnv demoStore).world.held c = [] :=
  ⟨(teardown_counts (itemSim []) Store.held cleanEnv "setup-key" demoStore itemSim_store rfl
      (by decide) rfl (store_records demoStore (by decide))).2.1,
   (teardown_counts (itemSim []) Store.held cleanEnv "setup-key" demoStore itemSim_store rfl
      (by decide) rfl (store_records demoStore (by decide))).2.2.1,
   (teardown_counts (itemSim []) Store.held cleanEnv "setup-key" demoStore itemSim_store rfl
      (by decide) rfl (store_records demoStore (by decide))).2.2.2.2⟩

/-- C22, the divergence: on the simulated backend with 2 problems, 2 lessons,
4 courses and 3 prompts, where the delete of the problem 100 is answered with
status 500, the cleanup script prints 2 as the number of problems deleted, yet
the problem 100 is still held at the end: one problem was deleted, not two. -/
theorem deleted_count_ignores_failures :
    (cleanCollectionsMain (itemSim ["http://localhost:8055/api/items/problems/100"]) cleanEnv
      demoStore).report = some
      [{ collection := "problems", deleted := .num 2 },
       { collection := "lessons", deleted := .num 2 },
       { collection := "courses", deleted := .num 4 },
       { collection := "ai_prompts", deleted := .num 3 }] ∧
    (cleanCollectionsMain (itemSim ["http://localhost:8055/api/items/problems/100"]) cleanEnv
      demoStore).world.problems = [.obj [("id", .num 100), ("lesson_id", .num 10)]] ∧
    demoStore.problems.length = 2 := by
  decide!

/-- C23, as the code has it: on a backend on which every request of the
cleanup succeeds, a confirmed run of the cleanup script leaves no lesson and no
problem at all; so no lesson that remains refers to a course that was held
before and is gone, and no problem that remains refers to a lesson that is
gone. -/
theorem no_orphans_when_deletes_succeed {σ : Type} (W : World σ)
    (held : σ → String → List JsVal) (env : Env) (token : String) (w : σ)
    (hS : ItemStore W env.url held) (htoken : env.setupToken = some token) (hne : token ≠ "")
    (hconfirm : env.confirmCleanup = some "true")
    (hrec : ∀ c, ∀ item ∈ held w c, item ≠ .null ∧ item ≠ .undefined) :
    held (cleanCollectionsMain W env w).world "lessons" = [] ∧
    held (cleanCollectionsMain W env w).world "problems" = [] ∧
    (∀ lesson ∈ held (cleanCollectionsMain W env w).world "lessons",
      ∀ course ∈ held w "courses", course ∉ held (cleanCollectionsMain W env w).world "courses" →
        ¬ refersTo lesson course "course_id") ∧
    (∀ problem ∈ held (cleanCollectionsMain W env w).world "problems",
      ∀ lesson ∈ held w "lessons", lesson ∉ held (cleanCollectionsMain W env w).world "lessons" →
        ¬ refersTo problem lesson "lesson_id") := by
  obtain ⟨_, _, _, hempty, _⟩ := clean_store_main env token w hS
    (trivial_ghost W held) htoken hne hconfirm hrec trivial (fun _ _ => trivial)
  have hl := hempty "lessons" (by decide)
  have hp := hempty "problems" (by decide)
  refine ⟨hl, hp, ?_, ?_⟩
  · intro lesson hmem
    rw [hl] at hmem
    simp at hmem
  · intro problem hmem
    rw [hp] at hmem
    simp at hmem

/-- The simulated backend on which no delete fails: no lesson and no problem is
left. -/
theorem no_orphans_when_deletes_succeed_witness :
    (cleanCollectionsMain (itemSim []) cleanEnv demoStore).world.held "lessons" = [] ∧
    (cleanCollectionsMain (itemSim []) cleanEnv demoStore).world.held "problems" = [] :=
  ⟨(no_orphans_when_deletes_succeed (itemSim []) Store.held cleanEnv "setup-key" demoStore
      itemSim_store rfl (by decide) rfl (store_records demoStore (by decide))).1,
   (no_orphans_when_deletes_succeed (itemSim []) Store.held cleanEnv "setup-key" demoStore
      itemSim_store rfl (by decide) rfl (store_records demoStore (by decide))).2.1⟩

/-- C23, counterexample: the backend holds the lesson 10, which refers to the
course 1; the delete of the lesson is answered with status 500 and the delete
of the course succeeds.  The cleanup script ends with exit code 0, and the
lesson 10 remains while the course 1 it refers to is gone. -/
theorem failed_lesson_delete_leaves_orphan :
    (cleanCollectionsMain (itemSim ["http://localhost:8055/api/items/lessons/10"]) cleanEnv
      orphanStore).code = 0 ∧
    (cleanCollectionsMain (itemSim ["http://localhost:8055/api/items/lessons/10"]) cleanEnv
      orphanStore).world =
      { problems := [], lessons := [.obj [("id", .num 10), ("course_id", .num 1)]],
        courses := [], prompts := [] } ∧
    JsVal.obj [("id", .num 1)] ∈ orphanStore.courses ∧
    refersTo (.obj [("id", .num 10), ("course_id", .num 1)]) (.obj [("id", .num 1)])
      "course_id" :=
  ⟨by decide!, by decide!, by decide!, ⟨.num 1, .num 1, rfl, rfl, rfl⟩⟩

/-- C30: on a backend on which every request of the cleanup succeeds and whose
records are referentially intact at the start (every lesson refers to a course
held, every problem to a lesson held), the records are referentially intact in
every state the backend is left in by a request of a confirmed run of the
cleanup script, in particular after each `DELETE` request; the run is observed
through `recording`, ends with exit code 0 and sends the `DELETE` requests for
the problems, then the lessons, then the courses, then the prompts. -/
theorem teardown_keeps_integrity {σ : Type} (W : World σ) (held : σ → String → List JsVal)
    (env : Env) (token : String) (w : σ) (hS : ItemStore W env.url held)
    (htoken : env.setupToken = some token) (hne : token ≠ "")
    (hconfirm : env.confirmCleanup = some "true")
    (hrec : ∀ c, ∀ item ∈ held w c, item ≠ .null ∧ item ≠ .undefined)
    (hint : Integrity (held w)) :
    (∀ w1 ∈ (cleanCollectionsMain (recording W) env (w, [])).world.2, Integrity (held w1)) ∧
    Integrity (held (cleanCollectionsMain (recording W) env (w, [])).world.1) ∧
    (cleanCollectionsMain (recording W) env (w, [])).code = 0 ∧
    deleteUrls (cleanCollectionsMain (recording W) env (w, [])).sent =
      (held w "problems").map (deleteUrl env.url "problems") ++
        ((held w "lessons").map (deleteUrl env.url "lessons") ++
          ((held w "courses").map (deleteUrl env.url "courses") ++
            (held w "ai_prompts").map (deleteUrl env.url "ai_prompts"))) := by
  obtain ⟨hcode, _, hurls, hempty, hlog⟩ := @clean_store_main _ (recording W)
    (fun st => held st.1) (fun st => ∀ w1 ∈ st.2, Integrity (held w1)) Integrity
    env token (w, []) (recording_store hS) (recording_ghost W held) htoken hne hconfirm hrec
    (by intro w1 hw1; simp at hw1)
    (fun U hU => integrity_prefix env.url (held w) hint U hU)
  rw [deleteTargets_cleanOrder] at hurls
  refine ⟨hlog, ?_, hcode, hurls⟩
  constructor
  · intro lesson hmem
    have h := hempty "lessons" (by decide)
    simp only [] at h
    rw [h] at hmem
    simp at hmem
  · intro problem hmem
    have h := hempty "problems" (by decide)
    simp only [] at h
    rw [h] at hmem
    simp at hmem

theorem demoStore_integrity : Integrity demoStore.held := by
  constructor
  · intro lesson hmem
    refine ⟨.obj [("id", .num 1)], by decide, ?_⟩
    have h : lesson = .obj [("id", .num 10), ("course_id", .num 1)] ∨
        lesson = .obj [("id", .num 11), ("course_id", .num 1)] := by
      simpa [Store.held, demoStore] using hmem
    rcases h with h | h <;> subst h <;> exact ⟨.num 1, .num 1, rfl, rfl, rfl⟩
  · intro problem hmem
    refine ⟨.obj [("id", .num 10), ("course_id", .num 1)], by decide, ?_⟩
    have h : problem = .obj [("id", .num 100), ("lesson_id", .num 10)] ∨
        problem = .obj [("id", .num 101), ("lesson_id", .num 10)] := by
      simpa [Store.held, demoStore] using hmem
    rcases h with h | h <;> subst h <;> exact ⟨.num 10, .num 10, rfl, rfl, rfl⟩

/-- The simulated backend with 2 problems, 2 lessons, 4 courses and 3 prompts,
observed: one state is logged for each of the 18 requests of the run, the
numbers of problems, lessons and courses held go down in the order of the
cleanup, and every logged state is referentially intact. -/
theorem teardown_keeps_integrity_witness :
    (∀ w1 ∈ (cleanCollectionsMain (recording (itemSim [])) cleanEnv (demoStore, [])).world.2,
      Integrity w1.held) ∧
    (cleanCollectionsMain (recording (itemSim [])) cleanEnv (demoStore, [])).world.2.map
      (fun st => (st.problems.length, st.lessons.length, st.courses.length)) =
      [(2, 2, 4), (2, 2, 4), (2, 2, 4), (2, 2, 4), (1, 2, 4), (0, 2, 4), (0, 2, 4), (0, 1, 4),
       (0, 0, 4), (0, 0, 4), (0, 0, 3), (0, 0, 2), (0, 0, 1), (0, 0, 0), (0, 0, 0), (0, 0, 0),
       (0, 0, 0), (0, 0, 0)] :=
  ⟨(teardown_keeps_integrity (itemSim []) Store.held cleanEnv "setup-key" demoStore
      itemSim_store rfl (by decide) rfl (store_records demoStore (by decide))
      demoStore_integrity).1, by decide!⟩

end Directus
